import Mathlib

/-!
# libwnck tasklist: size hints, grouping, activation, fade effect

A shallow embedding of the geometry, grouping and activation code of
`libwnck/tasklist.c` and `libwnck/task.c`, with the properties proved of it.

Conventions of the embedding.

* C `int` values are integers of `Int`; `/` and `%` of C are `Int.tdiv` and
  `Int.tmod` (truncation toward zero).  Signed overflow is undefined behaviour
  in C and has no counterpart here: the embedding describes the runs in which
  no `int` operation overflows.
* A `GList` is a `List`; a task object is identified by its address `ptr`.
* A `gdouble` grouping score is an exact rational, or `none` for NaN.
* A run that cannot continue (failed `g_assert`, NULL dereference, integer
  division by zero) ends in `Except.error` with the `Fault` that stopped it.
* Answers of the toolkit and of the window manager (preferred sizes, window
  names, workspaces, text direction) are fields of the objects they are asked
  about, or arguments of the function that asks.
* Requests to the toolkit and to the window manager are recorded, in order, as
  a list of `Call`s.
* A loop of the C code that ends because a list shrinks is a recursion on a
  number of passes left (`fuel`), started with the length of the list;
  `size_request_fuel` and `size_allocate_fuel` show that it never runs out.
-/

set_option maxRecDepth 100000

namespace Wnck

/-! ## Data model -/

/-- The ways a run of the C code can stop without returning. -/
inductive Fault where
  | assertion_failed
  | null_dereference
  | division_by_zero
  | out_of_fuel
  deriving DecidableEq, Repr

deriving instance DecidableEq for Except

/-- The constant `G_MAXINT` of GLib for a 32-bit `int`. -/
def G_MAXINT : Int := 2147483647

/-- The macro `MIN (a, b)` of GLib: `((a) < (b)) ? (a) : (b)`. -/
def MIN (a b : Int) : Int := if a < b then a else b

/-- The macro `MAX (a, b)` of GLib: `((a) > (b)) ? (a) : (b)`. -/
def MAX (a b : Int) : Int := if a > b then a else b

/-- The constant `G_MININT` of GLib for a 32-bit `int`. -/
def G_MININT : Int := -2147483648

/-- The conversion of an integer to `guint` (32 bits): its value modulo 2^32. -/
def to_guint (x : Int) : Int := x % 4294967296

/-- The conversion of an integer to `gint` (32 bits, two's complement). -/
def to_gint (x : Int) : Int :=
  if x % 4294967296 < 2147483648 then x % 4294967296 else x % 4294967296 - 4294967296

/-- A `gdouble`: an exact rational value, `none` standing for NaN. -/
abbrev gdouble := Option ℚ

/-- The tag `WnckTaskType` of task.h. -/
inductive WnckTaskType where
  | CLASS_GROUP
  | WINDOW
  | STARTUP_SEQUENCE
  deriving DecidableEq, Repr

/-- The grouping policies `WnckTasklistGroupingType`. -/
inductive WnckTasklistGroupingType where
  | NEVER_GROUP
  | AUTO_GROUP
  | ALWAYS_GROUP
  deriving DecidableEq, Repr

/-- A `GtkAllocation` (a `GdkRectangle`). -/
structure GtkAllocation where
  x : Int
  y : Int
  width : Int
  height : Int
  deriving DecidableEq, Repr

/-- A `GtkRequisition`. -/
structure GtkRequisition where
  width : Int
  height : Int
  deriving DecidableEq, Repr

/-- A `WnckWindow`, as seen through the queries the tasklist makes of it.
A workspace is named by its number; `workspace = none` is the NULL that
`wnck_window_get_workspace` returns.  `name_for_display` is the answer of
`_wnck_window_get_name_for_display (window, TRUE, FALSE)`. -/
structure WnckWindow where
  xid : Nat
  name : String
  has_icon_name : Bool
  icon_name : String
  sort_order : Int
  state_minimized : Bool
  state_skip_tasklist : Bool
  workspace : Option Nat
  is_pinned : Bool
  or_transient_needs_attention : Bool
  is_most_recently_activated : Bool
  transient_is_most_recently_activated : Bool
  geometry : GtkAllocation
  name_for_display : String
  deriving DecidableEq, Repr

/-- A `WnckTask` of type `WNCK_TASK_WINDOW`: `window` is set, `windows` is NULL.
`req` is the preferred size GTK reports for `button`; `class_group` is the
address of the window's `WnckClassGroup`. -/
structure WindowTask where
  ptr : Nat
  req : GtkRequisition
  window : WnckWindow
  class_group : Nat
  was_active : Bool
  deriving DecidableEq, Repr

/-- A `WnckTask` of type `WNCK_TASK_CLASS_GROUP`: `windows` lists the tasks of
the group's windows; `class_group_name` is `wnck_class_group_get_name`. -/
structure ClassGroupTask where
  ptr : Nat
  req : GtkRequisition
  class_group : Nat
  class_group_name : String
  windows : List WindowTask
  grouping_score : gdouble
  deriving DecidableEq, Repr

/-- A `WnckTask` of type `WNCK_TASK_STARTUP_SEQUENCE`. -/
structure StartupTask where
  ptr : Nat
  req : GtkRequisition
  deriving DecidableEq, Repr

/-- A `WnckTask`: the `type` tag of the C struct selects the constructor. -/
inductive WnckTask where
  | class_group (g : ClassGroupTask)
  | window (w : WindowTask)
  | startup_sequence (s : StartupTask)
  deriving DecidableEq, Repr

/-- The field `type` of a task. -/
def WnckTask.type : WnckTask → WnckTaskType
  | .class_group _ => .CLASS_GROUP
  | .window _ => .WINDOW
  | .startup_sequence _ => .STARTUP_SEQUENCE

/-- The address of a task. -/
def WnckTask.ptr : WnckTask → Nat
  | .class_group g => g.ptr
  | .window w => w.ptr
  | .startup_sequence s => s.ptr

/-- The field `windows` of a task (NULL unless the task is a class group). -/
def WnckTask.windows : WnckTask → List WindowTask
  | .class_group g => g.windows
  | .window _ => []
  | .startup_sequence _ => []

/-- The fields of `WnckTasklistPrivate` the embedded functions read or write.
`active_task` and `active_class_group` hold the address of a task;
`class_group_hash` maps the address of a `WnckClassGroup` to the address of
its task. -/
structure WnckTasklistPrivate where
  active_task : Option Nat
  active_class_group : Option Nat
  include_all_workspaces : Bool
  class_groups : List ClassGroupTask
  windows : List WindowTask
  windows_without_class_group : List WindowTask
  startup_sequences : List StartupTask
  class_group_hash : List (Nat × Nat)
  max_button_width : Int
  max_button_height : Int
  switch_workspace_on_unminimize : Bool
  grouping : WnckTasklistGroupingType
  grouping_limit : Int
  activate_timeout_id : Nat
  size_hints : List Int
  size_hints_len : Int
  monitor_num : Int
  drag_start_time : Nat
  deriving DecidableEq, Repr

/-- The `WnckScreen` of a tasklist, as seen through the queries the tasklist
makes: the active workspace (`none` for NULL), the monitor GDK reports at a
point, `wnck_workspace_is_virtual` and `wnck_window_is_in_viewport`. -/
structure WnckScreen where
  active_workspace : Option Nat
  monitor_at_point : Int → Int → Int
  workspace_is_virtual : Nat → Bool
  window_is_in_viewport : WnckWindow → Nat → Bool

/-- A call the tasklist makes to GTK, GLib or the window manager; a button is
named by the address of its task. -/
inductive Call where
  | wnck_workspace_activate (workspace : Nat) (timestamp : Nat)
  | wnck_window_activate_transient (xid : Nat) (timestamp : Nat)
  | wnck_window_minimize (xid : Nat)
  | gtk_toggle_button_set_active (button : Nat) (is_active : Bool)
  | g_source_remove (tag : Nat)
  | g_timeout_add (interval : Nat)
  | gtk_widget_set_child_visible (button : Nat) (is_visible : Bool)
  | gtk_widget_size_allocate (button : Nat) (allocation : GtkAllocation)
  | gtk_widget_queue_draw (button : Nat)
  | gtk_drag_finish (success : Bool) (del : Bool) (time : Nat)
  | wnck_window_move_to_workspace (xid : Nat) (space : Option Nat)
  | gtk_widget_queue_resize
  deriving DecidableEq, Repr

/-- The field `class_group` of a task (NULL for a startup sequence). -/
def WnckTask.class_group_ptr : WnckTask → Option Nat
  | .class_group g => some g.class_group
  | .window w => some w.class_group
  | .startup_sequence _ => none

/-! ## wnck_tasklist_layout -/

/-- The result of `wnck_tasklist_layout`: the returned button width and the
two out parameters. -/
structure Layout where
  button_width : Int
  n_cols : Int
  n_rows : Int
  deriving DecidableEq, Repr

/-- The function `wnck_tasklist_layout` (tasklist.c).  `max_width` is unused by
the C code as well. -/
def wnck_tasklist_layout (allocation : GtkAllocation) (_max_width max_height n_buttons : Int) :
    Except Fault Layout :=
  if n_buttons = 0 then
    .ok { button_width := 0, n_cols := 0, n_rows := 0 }
  else if max_height = 0 then
    .error .division_by_zero
  else
    -- How many rows fit in the allocation
    let n_rows := Int.tdiv allocation.height max_height
    -- Don't have more rows than buttons
    let n_rows := MIN n_rows n_buttons
    -- At least one row
    let n_rows := MAX n_rows 1
    -- We want to use as many rows as possible to limit the width
    let n_cols := Int.tdiv (n_buttons + n_rows - 1) n_rows
    -- At least one column
    let n_cols := MAX n_cols 1
    .ok { button_width := Int.tdiv allocation.width n_cols, n_cols := n_cols, n_rows := n_rows }

/-! ## wnck_tasklist_score_groups and wnck_task_get_highest_scored -/

/-- The name `wnck_tasklist_score_groups` compares: the icon name if the window
has one, its name otherwise. -/
def score_name (w : WnckWindow) : String :=
  if w.has_icon_name then w.icon_name else w.name

/-- The inner loop of `wnck_tasklist_score_groups` over the windows of one
group: returns `first_name` and `n_same_title` as the loop leaves them. -/
def score_windows : List WindowTask → Option String → Int → Option String × Int
  | [], first_name, n_same_title => (first_name, n_same_title)
  | win_task :: w, first_name, n_same_title =>
    match first_name with
    | none => score_windows w (some (score_name win_task.window)) (n_same_title + 1)
    | some first =>
      if score_name win_task.window = first then
        score_windows w first_name (n_same_title + 1)
      else
        score_windows w first_name n_same_title

/-- The outer loop of `wnck_tasklist_score_groups`, entered with the current
value of `first_name` (a local of the C function, set to NULL once, before the
loop). -/
def score_groups_from : List ClassGroupTask → Option String → List ClassGroupTask
  | [], _ => []
  | class_group_task :: l, first_name =>
    let n_windows : Int := class_group_task.windows.length
    let r := score_windows class_group_task.windows first_name 0
    let same_window_ratio : gdouble :=
      if n_windows = 0 then none else some ((r.2 : ℚ) / (n_windows : ℚ))
    { class_group_task with
        grouping_score := same_window_ratio.map (fun q => -q * 5 + (n_windows : ℚ)) }
      :: score_groups_from l r.1

/-- The function `wnck_tasklist_score_groups` (tasklist.c): stores a grouping
score in every task of the list. -/
def wnck_tasklist_score_groups (ungrouped_class_groups : List ClassGroupTask) :
    List ClassGroupTask :=
  score_groups_from ungrouped_class_groups none

/-- The scan of `wnck_task_get_highest_scored` for the best task.  The test
`grouping_score >= max_score` is false when the score is NaN. -/
def highest_scored_scan : List ClassGroupTask → ℚ → Option ClassGroupTask → Option ClassGroupTask
  | [], _, best_task => best_task
  | class_group_task :: l, max_score, best_task =>
    match class_group_task.grouping_score with
    | some q =>
      if max_score ≤ q then highest_scored_scan l q (some class_group_task)
      else highest_scored_scan l max_score best_task
    | none => highest_scored_scan l max_score best_task

/-- The function `g_list_remove` of GLib: removes the first element whose data
pointer is `data`. -/
def g_list_remove : List ClassGroupTask → Option Nat → List ClassGroupTask
  | [], _ => []
  | t :: l, data => if some t.ptr = data then l else t :: g_list_remove l data

/-- The function `wnck_task_get_highest_scored` (task.c): the out parameter
`class_group_task_out` and the returned list. -/
def wnck_task_get_highest_scored (ungrouped_class_groups : List ClassGroupTask) :
    Option ClassGroupTask × List ClassGroupTask :=
  let best_task := highest_scored_scan ungrouped_class_groups (-1000000000) none
  (best_task, g_list_remove ungrouped_class_groups (best_task.map (fun t => t.ptr)))

/-! ## wnck_tasklist_size_request -/

/-- The macro `GET_MAX_WIDTH_HEIGHT_FROM_BUTTONS` of `wnck_tasklist_size_request`,
run over the preferred sizes of the buttons of one list: the new values of
`max_width` and `max_height`. -/
def get_max_width_height_from_buttons : List GtkRequisition → Int × Int → Int × Int
  | [], m => m
  | child_req :: l, (max_width, max_height) =>
    get_max_width_height_from_buttons l
      (MAX child_req.width max_width, MAX child_req.height max_height)

/-- The locals of `wnck_tasklist_size_request` that its grouping loop reads and
writes. -/
structure SizeRequestState where
  array : List Int
  ungrouped_class_groups : List ClassGroupTask
  score_set : Bool
  n_grouped_buttons : Int
  n_cols : Int
  n_rows : Int
  last_n_cols : Int
  lowest_range : Int
  deriving DecidableEq, Repr

/-- The assignment `g_array_index (array, int, array->len - 1) = v`. -/
def array_set_last (array : List Int) (v : Int) : List Int :=
  array.set (array.length - 1) v

/-- The list the grouping loops take a group from: the `if (!score_set)` at the
head of their body scores the list on the first pass. -/
def score_groups_once (score_set : Bool) (ungrouped_class_groups : List ClassGroupTask) :
    List ClassGroupTask :=
  if score_set then ungrouped_class_groups
  else wnck_tasklist_score_groups ungrouped_class_groups

/-- One pass through the body of the `while` loop of
`wnck_tasklist_size_request`. -/
def size_request_body (priv : WnckTasklistPrivate) (fake_allocation : GtkAllocation)
    (n_windows n_startup_sequences grouping_limit : Int) (s : SizeRequestState) :
    Except Fault SizeRequestState :=
  let picked := wnck_task_get_highest_scored (score_groups_once s.score_set s.ungrouped_class_groups)
  match picked.1 with
  | none => .error .null_dereference
  | some class_group_task =>
    let ungrouped_class_groups := picked.2
    let n_grouped_buttons :=
      s.n_grouped_buttons + ((class_group_task.windows.length : Int) - 1)
    match wnck_tasklist_layout fake_allocation priv.max_button_width priv.max_button_height
        (n_startup_sequences + n_windows - n_grouped_buttons) with
    | .error e => .error e
    | .ok lay =>
      let s1 : SizeRequestState :=
        { s with
            ungrouped_class_groups := ungrouped_class_groups
            score_set := true
            n_grouped_buttons := n_grouped_buttons
            n_cols := lay.n_cols
            n_rows := lay.n_rows }
      if lay.n_cols ≠ s.last_n_cols ∧
          (priv.grouping = .AUTO_GROUP ∨ ungrouped_class_groups = []) then
        let val := lay.n_cols * priv.max_button_width
        if val ≥ s.lowest_range then
          -- Overlaps old range
          if s.array.length > 0 then
            let lowest_range := lay.n_cols * grouping_limit
            .ok { s1 with
                    array := array_set_last s.array lowest_range
                    lowest_range := lowest_range
                    last_n_cols := lay.n_cols }
          else
            .error .assertion_failed
        else
          -- Full new range
          let val2 := lay.n_cols * grouping_limit
          .ok { s1 with
                  array := s.array ++ [val] ++ [val2]
                  lowest_range := val2
                  last_n_cols := lay.n_cols }
      else
        .ok s1

/-- The `while` loop of `wnck_tasklist_size_request`; every pass consumes one
unit of `fuel`. -/
def size_request_loop (priv : WnckTasklistPrivate) (fake_allocation : GtkAllocation)
    (n_windows n_startup_sequences grouping_limit : Int) :
    Nat → SizeRequestState → Except Fault SizeRequestState
  | 0, s =>
    if s.ungrouped_class_groups ≠ [] ∧ priv.grouping ≠ .NEVER_GROUP then
      .error .out_of_fuel
    else
      .ok s
  | fuel + 1, s =>
    if s.ungrouped_class_groups ≠ [] ∧ priv.grouping ≠ .NEVER_GROUP then
      match size_request_body priv fake_allocation n_windows n_startup_sequences
          grouping_limit s with
      | .error e => .error e
      | .ok s1 =>
        size_request_loop priv fake_allocation n_windows n_startup_sequences grouping_limit
          fuel s1
    else
      .ok s

/-- The locals of `wnck_tasklist_size_request` when it reaches its `while`
loop: after the layout `lay` of the ungrouped mode and the first range. -/
def size_request_start (priv : WnckTasklistPrivate) (grouping_limit : Int) (lay : Layout) :
    SizeRequestState :=
  let s0 : SizeRequestState :=
    { array := []
      ungrouped_class_groups := priv.class_groups
      score_set := false
      n_grouped_buttons := 0
      n_cols := lay.n_cols
      n_rows := lay.n_rows
      last_n_cols := G_MAXINT
      lowest_range := G_MAXINT }
  if priv.grouping ≠ .ALWAYS_GROUP then
    { s0 with
        array := [lay.n_cols * priv.max_button_width] ++ [lay.n_cols * grouping_limit]
        last_n_cols := lay.n_cols
        lowest_range := lay.n_cols * grouping_limit }
  else s0

/-- The end of `wnck_tasklist_size_request`: "Always let you go down to a zero
size". -/
def size_request_finish (array : List Int) : List Int :=
  if array.length > 0 then array_set_last array 0
  else [0, 0]

/-- The values of `max_width` and `max_height` after the three runs of
`GET_MAX_WIDTH_HEIGHT_FROM_BUTTONS` in `wnck_tasklist_size_request`. -/
def size_request_max (priv : WnckTasklistPrivate) : Int × Int :=
  let m := get_max_width_height_from_buttons (priv.windows.map (fun t => t.req)) (1, 1)
  let m := get_max_width_height_from_buttons (priv.class_groups.map (fun t => t.req)) m
  get_max_width_height_from_buttons (priv.startup_sequences.map (fun t => t.req)) m

/-- The function `wnck_tasklist_size_request` (tasklist.c).  `tasklist_allocation`
is the answer of `gtk_widget_get_allocation`, `button_size` the value returned
by `wnck_tasklist_get_button_size`.  The result is the private data as the run
leaves it, and the requisition. -/
def wnck_tasklist_size_request (priv : WnckTasklistPrivate)
    (tasklist_allocation : GtkAllocation) (button_size : Int) :
    Except Fault (WnckTasklistPrivate × GtkRequisition) :=
  -- Calculate max needed height and width of the buttons
  let max_height := (size_request_max priv).2
  let priv := { priv with max_button_width := button_size, max_button_height := max_height }
  let fake_allocation : GtkAllocation :=
    { x := 0, y := 0, width := tasklist_allocation.width, height := tasklist_allocation.height }
  -- Calculate size_hints list
  let n_windows : Int := priv.windows.length
  let n_startup_sequences : Int := priv.startup_sequences.length
  let grouping_limit := MIN priv.grouping_limit priv.max_button_width
  -- Try ungrouped mode
  match wnck_tasklist_layout fake_allocation priv.max_button_width priv.max_button_height
      (n_windows + n_startup_sequences) with
  | .error e => .error e
  | .ok lay =>
    match size_request_loop priv fake_allocation n_windows n_startup_sequences grouping_limit
        priv.class_groups.length (size_request_start priv grouping_limit lay) with
    | .error e => .error e
    | .ok s =>
      let array := size_request_finish s.array
      let priv := { priv with size_hints_len := array.length, size_hints := array }
      match priv.size_hints with
      | [] => .error .null_dereference
      | w :: _ => .ok (priv, { width := w, height := fake_allocation.height })

/-- The function `wnck_tasklist_get_size_hint_list` (tasklist.c): the returned
array and the value stored in `n_elements`. -/
def wnck_tasklist_get_size_hint_list (priv : WnckTasklistPrivate) : List Int × Int :=
  (priv.size_hints, priv.size_hints_len)

/-! ## wnck_tasklist_include_window -/

/-- The function `tasklist_include_window_impl` (tasklist.c). -/
def tasklist_include_window_impl (priv : WnckTasklistPrivate) (screen : WnckScreen)
    (win : WnckWindow) (check_for_skipped_list : Bool) : Bool :=
  if !check_for_skipped_list && win.state_skip_tasklist then false
  else if priv.monitor_num ≠ -1 ∧
      -- Don't include the window if its center point is not on the same monitor
      screen.monitor_at_point (win.geometry.x + Int.tdiv win.geometry.width 2)
        (win.geometry.y + Int.tdiv win.geometry.height 2) ≠ priv.monitor_num then false
  -- Remainder of checks aren't relevant for checking if the window should
  -- be in the skipped list.
  else if check_for_skipped_list then true
  else if priv.include_all_workspaces then true
  else if win.is_pinned then true
  else
    match screen.active_workspace with
    | none => true
    | some active_workspace =>
      if win.or_transient_needs_attention then true
      else if some active_workspace ≠ win.workspace then false
      else if !screen.workspace_is_virtual active_workspace then true
      else screen.window_is_in_viewport win active_workspace

/-- The function `wnck_tasklist_include_window` (tasklist.c). -/
def wnck_tasklist_include_window (priv : WnckTasklistPrivate) (screen : WnckScreen)
    (win : WnckWindow) : Bool :=
  tasklist_include_window_impl priv screen win false

/-! ## wnck_tasklist_activate_task_window -/

/-- The calls `gtk_toggle_button_set_active` that
`wnck_tasklist_change_active_task` makes on the button of the task at address
`task`, if there is one.  (`really_toggling` is set around the call, so the
handler `wnck_task_button_toggled` returns at once.) -/
def toggle_calls (task : Option Nat) (is_active : Bool) : List Call :=
  match task with
  | some button => [.gtk_toggle_button_set_active button is_active]
  | none => []

/-- The function `wnck_tasklist_change_active_task` (tasklist.c): the private
data it leaves and the calls it makes. -/
def wnck_tasklist_change_active_task (priv : WnckTasklistPrivate)
    (active_task : Option WnckTask) : Except Fault (WnckTasklistPrivate × List Call) :=
  if active_task.isSome ∧ active_task.map WnckTask.ptr = priv.active_task then
    .ok (priv, [])
  else if ¬ (active_task = none ∨
      active_task.map WnckTask.type ≠ some .STARTUP_SEQUENCE) then
    .error .assertion_failed
  else
    let calls1 := toggle_calls priv.active_task false
    let priv1 := { priv with active_task := active_task.map WnckTask.ptr }
    let calls2 := toggle_calls priv1.active_task true
    match active_task with
    | none => .ok (priv1, calls1 ++ calls2)
    | some task =>
      let class_group_task : Option Nat :=
        match task.class_group_ptr with
        | some class_group => priv1.class_group_hash.lookup class_group
        | none => none
      if class_group_task.isSome ∧ class_group_task = priv1.active_class_group then
        .ok (priv1, calls1 ++ calls2)
      else
        let calls3 := toggle_calls priv1.active_class_group false
        let priv2 := { priv1 with active_class_group := class_group_task }
        let calls4 := toggle_calls priv2.active_class_group true
        .ok (priv2, calls1 ++ calls2 ++ calls3 ++ calls4)

/-- What a run of `wnck_tasklist_activate_task_window` leaves: the private data
of the tasklist, the task, and the calls made. -/
structure ActivateResult where
  priv : WnckTasklistPrivate
  task : WnckTask
  calls : List Call
  deriving DecidableEq, Repr

/-- The end of `wnck_tasklist_activate_task_window`, after the window was
activated with the calls `calls`: the timeout is renewed (`timeout_id` is what
`g_timeout_add` returns) and the task becomes the active task. -/
def activate_task_window_finish (priv : WnckTasklistPrivate) (timeout_id : Nat)
    (task : WnckTask) (calls : List Call) : Except Fault ActivateResult :=
  let calls1 :=
    if priv.activate_timeout_id ≠ 0 then [Call.g_source_remove priv.activate_timeout_id]
    else []
  let priv1 := { priv with activate_timeout_id := timeout_id }
  match wnck_tasklist_change_active_task priv1 (some task) with
  | .error e => .error e
  | .ok (priv2, calls2) =>
    .ok { priv := priv2, task := task,
          calls := calls ++ calls1 ++ [Call.g_timeout_add 500] ++ calls2 }

/-- The function `wnck_tasklist_activate_task_window` (tasklist.c).  `screen` is
`tasklist->priv->screen`. -/
def wnck_tasklist_activate_task_window (priv : WnckTasklistPrivate) (screen : WnckScreen)
    (timeout_id : Nat) (task : WnckTask) (timestamp : Nat) : Except Fault ActivateResult :=
  match task with
  | .class_group _ => .ok { priv := priv, task := task, calls := [] }
  | .startup_sequence _ => .ok { priv := priv, task := task, calls := [] }
  | .window t =>
    let active_ws := screen.active_workspace
    let window_ws := t.window.workspace
    if t.window.state_minimized then
      let calls1 :=
        match window_ws with
        | some ws =>
          if active_ws ≠ window_ws ∧ !priv.switch_workspace_on_unminimize then
            [Call.wnck_workspace_activate ws timestamp]
          else []
        | none => []
      activate_task_window_finish priv timeout_id task
        (calls1 ++ [Call.wnck_window_activate_transient t.window.xid timestamp])
    else if (t.was_active ∨ t.window.transient_is_most_recently_activated) ∧
        (window_ws = none ∨ active_ws = window_ws) then
      .ok { priv := priv, task := .window { t with was_active := false },
            calls := [Call.wnck_window_minimize t.window.xid] }
    else
      let calls1 :=
        match window_ws with
        | some ws => [Call.wnck_workspace_activate ws timestamp]
        | none => []
      activate_task_window_finish priv timeout_id task
        (calls1 ++ [Call.wnck_window_activate_transient t.window.xid timestamp])

/-! ## wnck_task_button_glow -/

/-- The constant `G_MINDOUBLE` of GLib (`DBL_MIN`). -/
def G_MINDOUBLE : ℚ := 1 / 2 ^ 1022

/-- The macro `ABS (a)` of GLib on doubles. -/
def ABS (a : ℚ) : ℚ := if a < 0 then -a else a

/-- The fields of a `WnckTask` that the fade effect reads and writes. -/
structure TaskGlow where
  button : Nat
  start_needs_attention : Int
  glow_start_time : ℚ
  glow_factor : ℚ
  button_glow : Nat
  deriving DecidableEq, Repr

/-- The style properties of the tasklist that `wnck_task_button_glow` reads. -/
structure FadeStyle where
  fade_opacity : ℚ
  fade_loop_time : ℚ
  fade_max_loops : Int
  deriving DecidableEq, Repr

/-- The function `wnck_task_stop_glow` (task.c): the calls it makes.  It leaves
`glow_factor` alone ("we might still have the task colored"). -/
def wnck_task_stop_glow (task : TaskGlow) : List Call :=
  if task.button_glow ≠ 0 then [Call.g_source_remove task.button_glow] else []

/-- The function `wnck_task_button_glow` (task.c), with doubles as exact
rationals.  `now` is the time `g_get_current_time` reports, in seconds.
`cos_pi x` is the value of `cos (x * M_PI)`, the cosine of the C library not
being among the sources: the phase `(now - glow_start_time) * M_PI * 2.0 /
loop_time` of the C code is `M_PI` times `(now - glow_start_time) * 2 /
loop_time`.  The style property `fade-loop-time` is at least 0.2, so the
division is by a positive number.  The result is the task, the returned
`gboolean` and the calls made. -/
def wnck_task_button_glow (task : TaskGlow) (style : FadeStyle) (now : ℚ) (cos_pi : ℚ → ℚ) :
    TaskGlow × Bool × List Call :=
  let task :=
    if task.glow_start_time ≤ G_MINDOUBLE then { task with glow_start_time := now } else task
  let r : TaskGlow × Bool :=
    if task.button_glow = 0 then
      -- we're in "has stopped glowing" mode
      ({ task with glow_factor := style.fade_opacity * (1 / 2) }, true)
    else
      let task := { task with glow_factor := style.fade_opacity * (1 / 2 -
        1 / 2 * cos_pi ((now - task.glow_start_time) * 2 / style.fade_loop_time)) }
      if now - (task.start_needs_attention : ℚ) >
          style.fade_loop_time * 1 * (style.fade_max_loops : ℚ) then
        (task, decide (ABS (task.glow_factor - style.fade_opacity * (1 / 2)) < 5 / 100))
      else (task, false)
  let stopped := r.2
  let calls1 := [Call.gtk_widget_queue_draw r.1.button]
  if stopped then (r.1, !stopped, calls1 ++ wnck_task_stop_glow r.1)
  else (r.1, !stopped, calls1)

/-! ## wnck_task_compare and wnck_tasklist_size_allocate -/

/-- Insertion of `x` before the first element of a sorted list that does not
compare below it. -/
def g_list_insert_sorted {α : Type} (compare_func : α → α → Int) (x : α) : List α → List α
  | [] => [x]
  | y :: l =>
    if compare_func x y ≤ 0 then x :: y :: l
    else y :: g_list_insert_sorted compare_func x l

/-- The function `g_list_sort` of GLib, a stable sort: elements that compare
equal keep their order.  (GLib sorts by merging; every stable sort gives the
same list when `compare_func` is a total preorder.) -/
def g_list_sort {α : Type} (list : List α) (compare_func : α → α → Int) : List α :=
  match list with
  | [] => []
  | x :: l => g_list_insert_sorted compare_func x (g_list_sort l compare_func)

/-- The function `wnck_task_compare_alphabetically` (task.c) on the tasks of
windows: `wnck_task_get_text (task, TRUE, FALSE)` is the display name of the
window; `g_utf8_collate` is the collation of GLib. -/
def wnck_task_compare_alphabetically (g_utf8_collate : String → String → Int)
    (a b : WindowTask) : Int :=
  g_utf8_collate a.window.name_for_display b.window.name_for_display

/-- The function `wnck_task_compare` (task.c). -/
def wnck_task_compare (g_utf8_collate : String → String → Int) (task1 task2 : WnckTask) :
    Int :=
  match task1, task2 with
  | .class_group g1, .class_group g2 =>
    -- compare_class_group_tasks
    g_utf8_collate g1.class_group_name g2.class_group_name
  | .class_group _, _ => -1 -- Sort groups before everything else
  | _, .class_group _ => 1 -- Sort groups before everything else
  | _, _ =>
    let pos1 : Int :=
      match task1 with
      | .window w => w.window.sort_order
      | _ => G_MAXINT -- startup sequences are sorted at the end.
    let pos2 : Int :=
      match task2 with
      | .window w => w.window.sort_order
      | _ => G_MAXINT
    if pos1 < pos2 then -1
    else if pos1 > pos2 then 1
    else 0

/-- The locals of `wnck_tasklist_size_allocate` that its grouping loop reads
and writes, and the calls made so far. -/
structure SizeAllocateState where
  ungrouped_class_groups : List ClassGroupTask
  score_set : Bool
  n_grouped_buttons : Int
  button_width : Int
  n_cols : Int
  n_rows : Int
  visible_tasks : List WnckTask
  calls : List Call
  deriving DecidableEq, Repr

/-- The test of the `while` loop of `wnck_tasklist_size_allocate`. -/
def size_allocate_continues (priv : WnckTasklistPrivate) (grouping_limit : Int)
    (s : SizeAllocateState) : Bool :=
  decide (s.ungrouped_class_groups ≠ []) &&
    (decide (priv.grouping = .ALWAYS_GROUP) ||
      (decide (priv.grouping = .AUTO_GROUP) && decide (s.button_width < grouping_limit)))

/-- One pass through the body of the `while` loop of
`wnck_tasklist_size_allocate`: a group is taken out of the list and collapsed
into one button.  (A class-group task in `visible_tasks` carries its windows
as the pass sorted them.) -/
def size_allocate_body (priv : WnckTasklistPrivate) (g_utf8_collate : String → String → Int)
    (allocation : GtkAllocation) (n_windows n_startup_sequences : Int)
    (s : SizeAllocateState) : Except Fault SizeAllocateState :=
  let picked := wnck_task_get_highest_scored
    (score_groups_once s.score_set s.ungrouped_class_groups)
  match picked.1 with
  | none => .error .null_dereference
  | some class_group_task =>
    let n_grouped_buttons :=
      s.n_grouped_buttons + ((class_group_task.windows.length : Int) - 1)
    let shown : Except Fault (List WnckTask × List Call) :=
      if class_group_task.windows.length > 1 then
        -- Sort
        let windows := g_list_sort class_group_task.windows
          (wnck_task_compare_alphabetically g_utf8_collate)
        -- Hide all this group's windows
        .ok (.class_group { class_group_task with windows := windows } :: s.visible_tasks,
              s.calls ++ windows.map (fun win_task =>
                Call.gtk_widget_set_child_visible win_task.ptr false))
      else
        match class_group_task.windows with
        | [] => .error .null_dereference
        | win_task :: _ =>
          .ok (.window win_task :: s.visible_tasks,
                s.calls ++ [Call.gtk_widget_set_child_visible class_group_task.ptr false])
    match shown with
    | .error e => .error e
    | .ok (visible_tasks, calls) =>
      match wnck_tasklist_layout allocation priv.max_button_width priv.max_button_height
          (n_startup_sequences + n_windows - n_grouped_buttons) with
      | .error e => .error e
      | .ok lay =>
        .ok { ungrouped_class_groups := picked.2
              score_set := true
              n_grouped_buttons := n_grouped_buttons
              button_width := lay.button_width
              n_cols := lay.n_cols
              n_rows := lay.n_rows
              visible_tasks := visible_tasks
              calls := calls }

/-- The `while` loop of `wnck_tasklist_size_allocate`; every pass consumes one
unit of `fuel`. -/
def size_allocate_loop (priv : WnckTasklistPrivate) (g_utf8_collate : String → String → Int)
    (allocation : GtkAllocation) (n_windows n_startup_sequences grouping_limit : Int) :
    Nat → SizeAllocateState → Except Fault SizeAllocateState
  | 0, s =>
    if size_allocate_continues priv grouping_limit s then .error .out_of_fuel else .ok s
  | fuel + 1, s =>
    if size_allocate_continues priv grouping_limit s then
      match size_allocate_body priv g_utf8_collate allocation n_windows n_startup_sequences
          s with
      | .error e => .error e
      | .ok s1 =>
        size_allocate_loop priv g_utf8_collate allocation n_windows n_startup_sequences
          grouping_limit fuel s1
    else .ok s

/-- The locals of `wnck_tasklist_size_allocate` each time the test of its
`while` loop holds and the body is entered, in order: the states in which a
further class group is collapsed.  It follows `size_allocate_loop` pass by
pass. -/
def size_allocate_passes (priv : WnckTasklistPrivate) (g_utf8_collate : String → String → Int)
    (allocation : GtkAllocation) (n_windows n_startup_sequences grouping_limit : Int) :
    Nat → SizeAllocateState → List SizeAllocateState
  | 0, _ => []
  | fuel + 1, s =>
    if size_allocate_continues priv grouping_limit s then
      match size_allocate_body priv g_utf8_collate allocation n_windows n_startup_sequences
          s with
      | .error _ => [s]
      | .ok s1 =>
        s :: size_allocate_passes priv g_utf8_collate allocation n_windows
          n_startup_sequences grouping_limit fuel s1
    else []

/-- The loop "Allocate children" of `wnck_tasklist_size_allocate`, from the
task of index `i` on: the calls it makes.  `rtl` tells whether the direction
of the widget is `GTK_TEXT_DIR_RTL`.  The products with the width and the
height of the allocation, the differences and the sums with its position are
32-bit `int`s: they are taken modulo 2^32 (`to_gint`).  The counters `i`,
`row` and `col` count buttons. -/
def size_allocate_children (allocation : GtkAllocation) (rtl : Bool)
    (n_rows n_cols total_width : Int) : List WnckTask → Int → Except Fault (List Call)
  | [], _ => .ok []
  | task :: l, i =>
    if n_rows = 0 then .error .division_by_zero
    else
      let row := Int.tmod i n_rows
      let col := Int.tdiv i n_rows
      let col := if rtl then n_cols - col - 1 else col
      if n_cols = 0 then .error .division_by_zero
      else
        let x := Int.tdiv (to_gint (total_width * col)) n_cols
        let y := Int.tdiv (to_gint (allocation.height * row)) n_rows
        let width := to_gint (Int.tdiv (to_gint (total_width * (col + 1))) n_cols - x)
        let height := to_gint (Int.tdiv (to_gint (allocation.height * (row + 1))) n_rows - y)
        let child_allocation : GtkAllocation :=
          { x := to_gint (x + allocation.x), y := to_gint (y + allocation.y),
            width := width, height := height }
        match size_allocate_children allocation rtl n_rows n_cols total_width l (i + 1) with
        | .error e => .error e
        | .ok calls =>
          .ok (Call.gtk_widget_size_allocate task.ptr child_allocation ::
            Call.gtk_widget_set_child_visible task.ptr true :: calls)

/-- The list `windows_sorted` that the loop "Allocate children" builds. -/
def size_allocate_windows_sorted : List WnckTask → List WnckTask
  | [] => []
  | task :: l =>
    (if task.type ≠ .STARTUP_SEQUENCE then
      if task.windows.length > 1 then task.windows.map WnckTask.window
      else [task]
    else []) ++ size_allocate_windows_sorted l

/-- What a run of `wnck_tasklist_size_allocate` leaves: the layout, the class
groups left ungrouped, the visible tasks in the order of their buttons, the
calls made on the buttons, and the new list `priv->windows`. -/
structure SizeAllocateResult where
  button_width : Int
  n_cols : Int
  n_rows : Int
  ungrouped_class_groups : List ClassGroupTask
  visible_tasks : List WnckTask
  calls : List Call
  windows : List WnckTask
  deriving DecidableEq, Repr

/-- The function `wnck_tasklist_size_allocate` (tasklist.c), up to the calls on
the buttons: the `row` and `col` fields of the tasks, the icon geometries and
the `size_allocate` of the parent class are not embedded. -/
def wnck_tasklist_size_allocate (priv : WnckTasklistPrivate)
    (g_utf8_collate : String → String → Int) (rtl : Bool) (allocation : GtkAllocation) :
    Except Fault SizeAllocateResult :=
  let n_windows : Int := priv.windows.length
  let n_startup_sequences : Int := priv.startup_sequences.length
  let grouping_limit := MIN priv.grouping_limit priv.max_button_width
  -- Try ungrouped mode
  match wnck_tasklist_layout allocation priv.max_button_width priv.max_button_height
      (n_startup_sequences + n_windows) with
  | .error e => .error e
  | .ok lay =>
    let s0 : SizeAllocateState :=
      { ungrouped_class_groups := priv.class_groups
        score_set := false
        n_grouped_buttons := 0
        button_width := lay.button_width
        n_cols := lay.n_cols
        n_rows := lay.n_rows
        visible_tasks := []
        calls := [] }
    match size_allocate_loop priv g_utf8_collate allocation n_windows n_startup_sequences
        grouping_limit priv.class_groups.length s0 with
    | .error e => .error e
    | .ok s =>
      -- Add all ungrouped windows to visible_tasks, and hide their class groups
      let visible_tasks := s.visible_tasks ++
        (s.ungrouped_class_groups.map
          (fun class_group_task => class_group_task.windows.map WnckTask.window)).flatten
      let calls := s.calls ++ s.ungrouped_class_groups.map
        (fun class_group_task => Call.gtk_widget_set_child_visible class_group_task.ptr false)
      -- Add all windows that are ungrouped because they don't belong to any class group
      let visible_tasks := visible_tasks ++ priv.windows_without_class_group.map WnckTask.window
      -- Add all startup sequences
      let visible_tasks := visible_tasks ++ priv.startup_sequences.map WnckTask.startup_sequence
      -- Sort
      let visible_tasks := g_list_sort visible_tasks (wnck_task_compare g_utf8_collate)
      -- Allocate children
      let total_width := allocation.width
      match size_allocate_children allocation rtl s.n_rows s.n_cols total_width
          visible_tasks 0 with
      | .error e => .error e
      | .ok calls1 =>
        .ok { button_width := s.button_width
              n_cols := s.n_cols
              n_rows := s.n_rows
              ungrouped_class_groups := s.ungrouped_class_groups
              visible_tasks := visible_tasks
              calls := calls ++ calls1
              windows := size_allocate_windows_sorted visible_tasks }

/-- The child-visible flag of a button after the calls `calls`: what the last
`gtk_widget_set_child_visible` on it set, `none` if there was none. -/
def child_visible (calls : List Call) (button : Nat) : Option Bool :=
  calls.foldl (fun flag c =>
    match c with
    | .gtk_widget_set_child_visible b is_visible => if b = button then some is_visible else flag
    | _ => flag) none

/-! ## wnck_task_drag_data_received -/

/-- The value of `sizeof (gulong)` where `long` has 64 bits. -/
def sizeof_gulong : Int := 8

/-- A `GtkSelectionData`, as `wnck_task_drag_data_received` reads it: its
length, its format, and the `gulong` its data points to. -/
structure GtkSelectionData where
  length : Int
  format : Int
  data : Nat
  deriving DecidableEq, Repr

/-- Modelled from the spec: `wnck_window_set_sort_order` (window.c, which is not
among the sources): the setter of the sort order that
`wnck_window_get_sort_order` reads; its parameter `order` is a `gint`. -/
def wnck_window_set_sort_order (window : WnckWindow) (order : Int) : WnckWindow :=
  { window with sort_order := to_gint order }

/-- The first loop of `wnck_task_drag_data_received`: the first window of the
screen whose xid is the one dragged, NULL if there is none. -/
def drag_find_window : List WnckWindow → Nat → Option WnckWindow
  | [], _ => none
  | window :: l, xid => if window.xid = xid then some window else drag_find_window l xid

/-- The value of `new_order` when the first loop of
`wnck_task_drag_data_received` finds `window`: `old_order` and `new_order` are
`guint`. -/
def drag_new_order (window target : WnckWindow) : Int :=
  let old_order := to_guint window.sort_order
  let new_order := to_guint target.sort_order
  if old_order < new_order then to_guint (new_order + 1) else new_order

/-- The body of the second loop of `wnck_task_drag_data_received`: `order` is a
`guint`. -/
def drag_shift (new_order : Int) (window : WnckWindow) : WnckWindow :=
  let order := to_guint window.sort_order
  if order ≥ new_order then wnck_window_set_sort_order window (to_guint (order + 1))
  else window

/-- The call `wnck_window_set_sort_order (found_window, new_order)`, on the list
of the windows of the screen: `found_window` is the first window whose xid is
`xid`. -/
def drag_set_found (new_order : Int) (xid : Nat) : List WnckWindow → List WnckWindow
  | [] => []
  | window :: l =>
    if window.xid = xid then wnck_window_set_sort_order window new_order :: l
    else window :: drag_set_found new_order xid l

/-- What a run of `wnck_task_drag_data_received` leaves: the windows of the
screen, the private data of the tasklist, the target task, and the calls
made. -/
structure DragResult where
  windows : List WnckWindow
  priv : WnckTasklistPrivate
  task : WnckTask
  calls : List Call
  deriving DecidableEq, Repr

/-- The function `wnck_task_drag_data_received` (task.c).  The handler is
connected for tasks of type `WNCK_TASK_WINDOW` only, so `target_task` is the
task of a window.  `windows` is the answer of `wnck_screen_get_windows`, a
window being named by its xid; `double_click_time` is the setting
`gtk-double-click-time` (a `gint`, compared with a `guint`); `timeout_id` is
what `g_timeout_add` returns if the target is activated. -/
def wnck_task_drag_data_received (priv : WnckTasklistPrivate) (screen : WnckScreen)
    (windows : List WnckWindow) (double_click_time : Int) (timeout_id : Nat)
    (data : GtkSelectionData) (time : Nat) (target_task : WindowTask) :
    Except Fault DragResult :=
  if data.length ≠ sizeof_gulong ∨ data.format ≠ 8 then
    .ok { windows := windows, priv := priv, task := .window target_task,
          calls := [.gtk_drag_finish false false time] }
  else
    let found_window := drag_find_window windows data.data
    let new_order : Int :=
      match found_window with
      | some window => drag_new_order window target_task.window
      | none => 0
    if found_window.map (fun window => window.xid) = some target_task.window.xid ∧
        to_guint ((time : Int) - (priv.drag_start_time : Int)) < to_guint double_click_time then
      match wnck_tasklist_activate_task_window priv screen timeout_id (.window target_task)
          time with
      | .error e => .error e
      | .ok r =>
        .ok { windows := windows, priv := r.priv, task := r.task,
              calls := r.calls ++ [.gtk_drag_finish true false time] }
    else
      match found_window with
      | none =>
        .ok { windows := windows, priv := priv, task := .window target_task,
              calls := [.gtk_drag_finish true false time] }
      | some found =>
        let windows1 := windows.map (drag_shift new_order)
        let windows2 := drag_set_found new_order found.xid windows1
        let calls :=
          if ¬ priv.include_all_workspaces ∧ ¬ found.is_pinned then
            [Call.wnck_window_move_to_workspace found.xid screen.active_workspace]
          else []
        .ok { windows := windows2, priv := priv, task := .window target_task,
              calls := calls ++ [.gtk_widget_queue_resize, .gtk_drag_finish true false time] }

/-! ## Sample data -/

/-- A window on workspace 0 with the given name and sort order. -/
def sample_window (xid : Nat) (name : String) (sort_order : Int) : WnckWindow :=
  { xid := xid, name := name, has_icon_name := false, icon_name := "", sort_order := sort_order,
    state_minimized := false, state_skip_tasklist := false, workspace := some 0,
    is_pinned := false, or_transient_needs_attention := false,
    is_most_recently_activated := false, transient_is_most_recently_activated := false,
    geometry := { x := 0, y := 0, width := 10, height := 10 }, name_for_display := name }

/-- The task of `sample_window`, in the class group at address `class_group`. -/
def sample_task (ptr : Nat) (name : String) (class_group : Nat) : WindowTask :=
  { ptr := ptr, req := { width := 10, height := 20 },
    window := sample_window ptr name ptr, class_group := class_group, was_active := false }

/-- A class group of three windows, two of them with the same name. -/
def sample_group_a : ClassGroupTask :=
  { ptr := 100, req := { width := 10, height := 20 }, class_group := 7, class_group_name := "a",
    windows := [sample_task 1 "x" 7, sample_task 2 "x" 7, sample_task 3 "y" 7],
    grouping_score := none }

/-- A class group of two windows. -/
def sample_group_b : ClassGroupTask :=
  { ptr := 101, req := { width := 10, height := 20 }, class_group := 8, class_group_name := "b",
    windows := [sample_task 4 "x" 8, sample_task 5 "z" 8],
    grouping_score := none }

/-- A tasklist of five windows in two class groups, one window outside any
class group and one startup sequence. -/
def sample_priv (grouping : WnckTasklistGroupingType) (grouping_limit : Int) :
    WnckTasklistPrivate :=
  { active_task := none, active_class_group := none, include_all_workspaces := false,
    class_groups := [sample_group_a, sample_group_b],
    windows := [sample_task 1 "x" 7, sample_task 2 "x" 7, sample_task 3 "y" 7,
      sample_task 4 "x" 8, sample_task 5 "z" 8, sample_task 6 "w" 0],
    windows_without_class_group := [sample_task 6 "w" 0],
    startup_sequences := [{ ptr := 200, req := { width := 10, height := 20 } }],
    class_group_hash := [(7, 100), (8, 101)],
    max_button_width := 100, max_button_height := 20,
    switch_workspace_on_unminimize := false,
    grouping := grouping, grouping_limit := grouping_limit, activate_timeout_id := 0,
    size_hints := [], size_hints_len := 0, monitor_num := -1, drag_start_time := 0 }

/-- A screen whose active workspace is workspace 0, which has a viewport; a
window is in the viewport of a workspace when it is pinned, or on that
workspace at a non-negative position. -/
def sample_screen : WnckScreen :=
  { active_workspace := some 0,
    monitor_at_point := fun _ _ => 0,
    workspace_is_virtual := fun _ => true,
    window_is_in_viewport := fun w ws =>
      w.is_pinned || (w.workspace == some ws && decide (0 ≤ w.geometry.x)) }

/-- The task of a minimized window on workspace 1, in class group 8. -/
def sample_minimized_task : WindowTask :=
  { sample_task 4 "x" 8 with
      window := { sample_window 4 "x" 4 with state_minimized := true, workspace := some 1 } }

/-- A window on workspace 1 that needs attention. -/
def sample_urgent_window : WnckWindow :=
  { sample_window 9 "u" 9 with workspace := some 1, or_transient_needs_attention := true }

/-- A task whose fade effect is running, on the timeout 7, since time 1. -/
def sample_glow : TaskGlow :=
  { button := 4, start_needs_attention := 0, glow_start_time := 1, glow_factor := 0,
    button_glow := 7 }

/-- The default style: `fade-opacity` 0.8, `fade-loop-time` 3.0,
`fade-max-loops` 5. -/
def sample_style : FadeStyle :=
  { fade_opacity := 4 / 5, fade_loop_time := 3, fade_max_loops := 5 }

/-- A stand-in for the cosine of `x * M_PI`: exact where `x` is a multiple of
1/2 (1 at 0, 0 at 1/2, -1 at 1, 0 at 3/2, of period 2), and the rational
approximation `(1 - 4 v^2) / (1 + v^2)` of `cos (v * M_PI)` between. -/
def sample_cos_pi (x : ℚ) : ℚ :=
  let u := x - 2 * ((x / 2).floor : ℚ)
  let v := if u ≤ 1 / 2 then u else if u ≤ 3 / 2 then u - 1 else u - 2
  let c := (1 - 4 * v * v) / (1 + v * v)
  if u ≤ 1 / 2 then c else if u ≤ 3 / 2 then -c else c

/-- A collation of strings: their order as strings. -/
def sample_collate (a b : String) : Int :=
  if a < b then -1 else if a = b then 0 else 1

/-- A class group of two windows with the same name, which is not the name of
a window of `sample_group_a`. -/
def sample_group_c : ClassGroupTask :=
  { ptr := 102, req := { width := 10, height := 20 }, class_group := 9, class_group_name := "c",
    windows := [sample_task 7 "z" 9, sample_task 8 "z" 9],
    grouping_score := none }

/-- Four windows of a screen, with the sort orders 1, 2, 3, 4. -/
def sample_windows : List WnckWindow :=
  [sample_window 1 "x" 1, sample_window 2 "x" 2, sample_window 3 "y" 3, sample_window 4 "x" 4]

/-- Four windows of a screen with the sort orders -1, 2, 3, 4. -/
def sample_windows_negative : List WnckWindow :=
  [sample_window 1 "x" (-1), sample_window 2 "x" 2, sample_window 3 "y" 3,
    sample_window 4 "x" 4]

/-- The data of a drag of the window of xid 1. -/
def sample_drag_data : GtkSelectionData := { length := 8, format := 8, data := 1 }

/-! ## The grouping score as the claim words it -/

/-- The number of the windows of a group whose name (icon name if the window
has one, its name otherwise) is that of the first window of the group. -/
def same_title_count (windows : List WindowTask) : Int :=
  match windows with
  | [] => 0
  | first :: _ =>
    ((windows.filter
      (fun w => decide (score_name w.window = score_name first.window))).length : Int)

/-- The score the claim gives a class group, from its own windows alone:
`n_windows - 5 * (k / n_windows)` (NaN for a group without windows). -/
def claimed_grouping_score (g : ClassGroupTask) : gdouble :=
  if g.windows.length = 0 then none
  else some ((g.windows.length : ℚ) -
    5 * ((same_title_count g.windows : ℚ) / (g.windows.length : ℚ)))

/-! ## Well-formed tasklists and loop invariants -/

/-- The address of the button that stands for a class group once it is
collapsed: the button of the group (at `ptr`) if it has more than one window,
the button of its window otherwise. -/
def collapsed_button (ptr : Nat) (windows : List WindowTask) : Nat :=
  if windows.length > 1 then ptr
  else
    match windows with
    | [] => ptr
    | win_task :: _ => win_task.ptr

/-- The addresses of all the tasks of a tasklist: class groups, their windows,
the windows without class group, the startup sequences. -/
def all_task_ptrs (priv : WnckTasklistPrivate) : List Nat :=
  priv.class_groups.map (fun g => g.ptr) ++
    (priv.class_groups.map (fun g => g.windows.map (fun w => w.ptr))).flatten ++
    priv.windows_without_class_group.map (fun w => w.ptr) ++
    priv.startup_sequences.map (fun t => t.ptr)

/-- The lists of a tasklist as `wnck_tasklist_update_lists` builds them: every
class group has a window, `windows` holds the windows of the class groups and
the windows without class group, different tasks have different
addresses; and `max_button_height` was set by a size request. -/
def tasklist_well_formed (priv : WnckTasklistPrivate) : Prop :=
  (∀ g ∈ priv.class_groups, g.windows ≠ []) ∧
  priv.windows.Perm
    ((priv.class_groups.map (fun g => g.windows)).flatten ++
      priv.windows_without_class_group) ∧
  (all_task_ptrs priv).Nodup ∧
  priv.max_button_height ≠ 0

instance tasklist_well_formed_decidable (priv : WnckTasklistPrivate) :
    Decidable (tasklist_well_formed priv) := by
  unfold tasklist_well_formed; infer_instance

/-- What the grouping loop of `wnck_tasklist_size_allocate` keeps true, for
`nw` windows and `ns` startup sequences: the groups left have windows, scores
and different addresses; the buttons chosen so far and the windows left make
up the buttons counted by `n_grouped_buttons`, which are the ones laid out;
every class group is still in the list or stands in `visible_tasks` with one
button; and so far buttons were only hidden, among them the windows of the
collapsed groups. -/
def size_allocate_inv (priv : WnckTasklistPrivate) (a : GtkAllocation) (nw ns : Int)
    (s : SizeAllocateState) : Prop :=
  (∀ g ∈ s.ungrouped_class_groups, g.windows ≠ []) ∧
  (s.score_set = true → ∀ g ∈ s.ungrouped_class_groups,
    ∃ q, g.grouping_score = some q ∧ (-1000000000 : ℚ) ≤ q) ∧
  (s.ungrouped_class_groups.map (fun g => g.ptr)).Nodup ∧
  ((s.visible_tasks.length : Int) +
      (s.ungrouped_class_groups.map (fun g => (g.windows.length : Int))).sum =
    (priv.class_groups.map (fun g => (g.windows.length : Int))).sum - s.n_grouped_buttons) ∧
  wnck_tasklist_layout a priv.max_button_width priv.max_button_height
      (ns + nw - s.n_grouped_buttons) =
    .ok { button_width := s.button_width, n_cols := s.n_cols, n_rows := s.n_rows } ∧
  (s.visible_tasks.map WnckTask.ptr ++
      s.ungrouped_class_groups.map (fun g => collapsed_button g.ptr g.windows)).Perm
    (priv.class_groups.map (fun g => collapsed_button g.ptr g.windows)) ∧
  (∀ c ∈ s.calls, ∃ b, c = Call.gtk_widget_set_child_visible b false) ∧
  (∀ g ∈ s.ungrouped_class_groups,
    ∃ g0 ∈ priv.class_groups, g0.ptr = g.ptr ∧ g0.windows = g.windows) ∧
  (∀ g0 ∈ priv.class_groups, 1 < g0.windows.length →
    g0.ptr ∉ s.ungrouped_class_groups.map (fun g => g.ptr) →
    ∀ w ∈ g0.windows, Call.gtk_widget_set_child_visible w.ptr false ∈ s.calls)

/-- The locals of `wnck_tasklist_size_allocate` when it reaches its `while`
loop, after the layout `lay` of the ungrouped mode. -/
def size_allocate_start (priv : WnckTasklistPrivate) (lay : Layout) : SizeAllocateState :=
  { ungrouped_class_groups := priv.class_groups
    score_set := false
    n_grouped_buttons := 0
    button_width := lay.button_width
    n_cols := lay.n_cols
    n_rows := lay.n_rows
    visible_tasks := []
    calls := [] }

/-- The list `visible_tasks` of `wnck_tasklist_size_allocate` before it is
sorted: the buttons chosen by the loop, the windows of the groups left
ungrouped, the windows without class group, the startup sequences. -/
def size_allocate_visible (priv : WnckTasklistPrivate) (s : SizeAllocateState) :
    List WnckTask :=
  s.visible_tasks ++
    (s.ungrouped_class_groups.map
      (fun class_group_task => class_group_task.windows.map WnckTask.window)).flatten ++
    priv.windows_without_class_group.map WnckTask.window ++
    priv.startup_sequences.map WnckTask.startup_sequence

/-- What keeps the loop of `wnck_tasklist_size_request` running to its end, for
`n` windows and startup sequences: every group left has a window, has a
score that is a number once the scores are set, and the `g_assert` on the
length of the array cannot fail. -/
def size_request_runs (priv : WnckTasklistPrivate) (n : Int) (s : SizeRequestState) : Prop :=
  (∀ g ∈ s.ungrouped_class_groups, g.windows ≠ []) ∧
  (s.score_set = true → ∀ g ∈ s.ungrouped_class_groups,
    ∃ q, g.grouping_score = some q ∧ (-1000000000 : ℚ) ≤ q) ∧
  (0 < s.array.length ∨
    (s.lowest_range = G_MAXINT ∧ 0 ≤ s.n_grouped_buttons ∧ 0 ≤ priv.max_button_width ∧
      MAX n 1 * priv.max_button_width < G_MAXINT))

/-- The size hints are pairs `max, min` with `min <= max`, and the `max` of a
pair is below the `min` of the pair before it. -/
def size_hints_descending : List Int → Prop
  | [] => True
  | [_] => False
  | max :: min :: rest =>
    min ≤ max ∧ (∀ max2 ∈ rest.head?, max2 < min) ∧ size_hints_descending rest

instance size_hints_descending_decidable :
    (l : List Int) → Decidable (size_hints_descending l)
  | [] => isTrue trivial
  | [_] => isFalse (fun h => h)
  | _ :: _ :: rest =>
    have := size_hints_descending_decidable rest
    by unfold size_hints_descending; infer_instance

/-- What the loop of `wnck_tasklist_size_request` keeps true of its array, for
`n` windows and startup sequences: the array would be descending if the run
ended now; every group left has a window; and, as long as ranges can still
be added, the last range `maxL, lowest_range` is the one of the layout in
`last_n_cols` columns of the buttons that are left. -/
def size_request_descends (priv : WnckTasklistPrivate) (fa : GtkAllocation) (n : Int)
    (s : SizeRequestState) : Prop :=
  size_hints_descending (size_request_finish s.array) ∧
  (∀ g ∈ s.ungrouped_class_groups, g.windows ≠ []) ∧
  (s.array = [] ∨ s.ungrouped_class_groups = [] ∨
    (priv.grouping = .AUTO_GROUP ∧
      ∃ front maxL, s.array = front ++ [maxL, s.lowest_range] ∧
        ((0 ≤ n - s.n_grouped_buttons ∧
          (∃ lay, wnck_tasklist_layout fa priv.max_button_width priv.max_button_height
              (n - s.n_grouped_buttons) = .ok lay ∧ lay.n_cols = s.last_n_cols) ∧
          s.lowest_range ≤ maxL ∧ s.last_n_cols * priv.max_button_width ≤ maxL) ∨
        (n - s.n_grouped_buttons < 0 ∧ s.last_n_cols = 1))))

/-! ## Properties of wnck_tasklist_layout -/

theorem layout_returns (a : GtkAllocation) (w h n : Int) (hh : h ≠ 0) :
    ∃ lay, wnck_tasklist_layout a w h n = .ok lay := by
  unfold wnck_tasklist_layout
  by_cases hn : n = 0
  · simp [hn]
  · simp [hn, hh]

theorem layout_n_cols (a : GtkAllocation) (w h n : Int) (lay : Layout)
    (hl : wnck_tasklist_layout a w h n = .ok lay) (hn : n ≠ 0) :
    lay.n_cols =
      MAX (Int.tdiv (n + MAX (MIN (Int.tdiv a.height h) n) 1 - 1)
        (MAX (MIN (Int.tdiv a.height h) n) 1)) 1 := by
  unfold wnck_tasklist_layout at hl
  simp only [hn, if_false] at hl
  split at hl
  · exact absurd hl (by simp)
  · cases hl; rfl

theorem layout_n_cols_zero (a : GtkAllocation) (w h : Int) (lay : Layout)
    (hl : wnck_tasklist_layout a w h 0 = .ok lay) : lay.n_cols = 0 := by
  unfold wnck_tasklist_layout at hl
  simp only [if_true] at hl
  cases hl; rfl

theorem MAX_one_le (x : Int) : 1 ≤ MAX x 1 := by
  unfold MAX; split <;> omega

theorem layout_n_cols_nonneg (a : GtkAllocation) (w h n : Int) (lay : Layout)
    (hl : wnck_tasklist_layout a w h n = .ok lay) : 0 ≤ lay.n_cols := by
  by_cases hn : n = 0
  · subst hn; rw [layout_n_cols_zero a w h lay hl]
  · rw [layout_n_cols a w h n lay hl hn]
    have := MAX_one_le (Int.tdiv (n + MAX (MIN (Int.tdiv a.height h) n) 1 - 1)
        (MAX (MIN (Int.tdiv a.height h) n) 1))
    omega

theorem layout_n_cols_neg (a : GtkAllocation) (w h n : Int) (lay : Layout)
    (hl : wnck_tasklist_layout a w h n = .ok lay) (hn : n < 0) : lay.n_cols = 1 := by
  rw [layout_n_cols a w h n lay hl (by omega)]
  have hr : MAX (MIN (Int.tdiv a.height h) n) 1 = 1 := by
    unfold MAX MIN; split <;> split <;> omega
  rw [hr, Int.tdiv_one]
  unfold MAX; split <;> omega

/-- The rows and columns of a layout of `n >= 1` buttons, with Euclidean
division. -/
theorem layout_n_cols_pos (a : GtkAllocation) (w h n : Int) (lay : Layout)
    (hl : wnck_tasklist_layout a w h n = .ok lay) (hn : 1 ≤ n) :
    ∃ r : Int, 1 ≤ r ∧ r = MAX (MIN (Int.tdiv a.height h) n) 1 ∧
      lay.n_cols = (n + r - 1) / r ∧ 1 ≤ lay.n_cols := by
  refine ⟨MAX (MIN (Int.tdiv a.height h) n) 1, MAX_one_le _, rfl, ?_⟩
  rw [layout_n_cols a w h n lay hl (by omega)]
  generalize hr : MAX (MIN (Int.tdiv a.height h) n) 1 = r
  have hr1 : 1 ≤ r := by rw [← hr]; exact MAX_one_le _
  rw [Int.tdiv_eq_ediv (by omega) (by omega)]
  have hq : 1 ≤ (n + r - 1) / r := by
    apply Int.le_ediv_of_mul_le (by omega); omega
  unfold MAX
  split <;> omega

theorem layout_n_cols_le (a : GtkAllocation) (w h n : Int) (lay : Layout)
    (hl : wnck_tasklist_layout a w h n = .ok lay) : lay.n_cols ≤ MAX n 1 := by
  rcases lt_trichotomy n 0 with hn | hn | hn
  · rw [layout_n_cols_neg a w h n lay hl hn]; exact MAX_one_le _
  · subst hn; rw [layout_n_cols_zero a w h lay hl]; have := MAX_one_le 0; omega
  · obtain ⟨r, hr1, -, hc, -⟩ := layout_n_cols_pos a w h n lay hl (by omega)
    have h1 : (n + r - 1) < (n + 1) * r := by nlinarith
    have h2 := Int.ediv_lt_of_lt_mul (by omega) h1
    have h3 : MAX n 1 = n := by unfold MAX; split <;> omega
    omega

/-- Fewer buttons never need more columns. -/
theorem layout_n_cols_mono (a : GtkAllocation) (w h n1 n2 : Int) (l1 l2 : Layout)
    (h1 : wnck_tasklist_layout a w h n1 = .ok l1)
    (h2 : wnck_tasklist_layout a w h n2 = .ok l2)
    (h0 : 0 ≤ n2) (hle : n2 ≤ n1) : l2.n_cols ≤ l1.n_cols := by
  rcases eq_or_lt_of_le h0 with hz | hpos
  · subst hz
    rw [layout_n_cols_zero a w h l2 h2]
    exact layout_n_cols_nonneg a w h n1 l1 h1
  · obtain ⟨r1, hr1, hd1, hc1, -⟩ := layout_n_cols_pos a w h n1 l1 h1 (by omega)
    obtain ⟨r2, hr2, hd2, hc2, -⟩ := layout_n_cols_pos a w h n2 l2 h2 (by omega)
    rw [hc1, hc2]
    generalize Int.tdiv a.height h = R at hd1 hd2
    by_cases hR : R < n2
    · -- both layouts use the same number of rows
      have e2 : r2 = MAX R 1 := by rw [hd2]; unfold MAX MIN; split <;> split <;> omega
      have e1 : r1 = MAX R 1 := by rw [hd1]; unfold MAX MIN; split <;> split <;> omega
      rw [e1, e2]
      exact Int.ediv_le_ediv (by have := MAX_one_le R; omega) (by omega)
    · -- the smaller layout has one column
      have e2 : r2 = n2 := by rw [hd2]; unfold MAX MIN; split <;> split <;> omega
      have hq2 : (n2 + r2 - 1) / r2 < 2 := by
        apply Int.ediv_lt_of_lt_mul (by omega); rw [e2]; omega
      have hq1 : 1 ≤ (n1 + r1 - 1) / r1 := by
        apply Int.le_ediv_of_mul_le (by omega); omega
      omega

/-! ## Properties of the grouping score and of the choice of a group -/

theorem score_windows_le (ws : List WindowTask) (first_name : Option String) (k : Int) :
    (score_windows ws first_name k).2 ≤ k + ws.length := by
  induction ws generalizing first_name k with
  | nil => simp [score_windows]
  | cons w ws ih =>
    simp only [List.length_cons, Nat.cast_add, Nat.cast_one]
    cases first_name with
    | none =>
      simp only [score_windows]
      have := ih (some (score_name w.window)) (k + 1)
      omega
    | some f =>
      simp only [score_windows]
      split
      · have := ih (some f) (k + 1); omega
      · have := ih (some f) k; omega

theorem score_groups_from_length (l : List ClassGroupTask) (first_name : Option String) :
    (score_groups_from l first_name).length = l.length := by
  induction l generalizing first_name with
  | nil => simp [score_groups_from]
  | cons g l ih => simp [score_groups_from, ih]

/-- Scoring changes nothing but the score, and a group with a window gets a
score that is a number, above the initial `max_score` of the scan. -/
theorem score_groups_from_mem (l : List ClassGroupTask) (first_name : Option String)
    (g1 : ClassGroupTask) (h : g1 ∈ score_groups_from l first_name) :
    ∃ g ∈ l, g1.ptr = g.ptr ∧ g1.windows = g.windows ∧
      (g.windows ≠ [] → ∃ q, g1.grouping_score = some q ∧ (-1000000000 : ℚ) ≤ q) := by
  induction l generalizing first_name with
  | nil => simp [score_groups_from] at h
  | cons g l ih =>
    simp only [score_groups_from, List.mem_cons] at h
    rcases h with h | h
    · refine ⟨g, List.mem_cons_self _ _, ?_, ?_, ?_⟩
      · rw [h]
      · rw [h]
      · intro hw
        have hlen : 0 < g.windows.length := List.length_pos.mpr hw
        have hne : ¬ ((g.windows.length : Int) = 0) := by omega
        rw [h]
        simp only [hne, if_false, Option.map_some']
        refine ⟨_, rfl, ?_⟩
        have hk := score_windows_le g.windows first_name 0
        have hk1 : (((score_windows g.windows first_name 0).2 : Int) : ℚ) ≤
            ((g.windows.length : Int) : ℚ) := by
          have : (score_windows g.windows first_name 0).2 ≤ (g.windows.length : Int) := by omega
          exact_mod_cast this
        have hpos : (0 : ℚ) < ((g.windows.length : Int) : ℚ) := by exact_mod_cast hlen
        have hdiv : (((score_windows g.windows first_name 0).2 : Int) : ℚ) /
            ((g.windows.length : Int) : ℚ) ≤ 1 := (div_le_one hpos).mpr hk1
        linarith
    · obtain ⟨g0, hg0, hrest⟩ := ih _ h
      exact ⟨g0, List.mem_cons_of_mem _ hg0, hrest⟩

theorem highest_scored_scan_mem (l : List ClassGroupTask) (m : ℚ) (b : Option ClassGroupTask) :
    highest_scored_scan l m b = b ∨ ∃ t ∈ l, highest_scored_scan l m b = some t := by
  induction l generalizing m b with
  | nil => left; rfl
  | cons g l ih =>
    simp only [highest_scored_scan]
    split
    · rename_i q hq
      split
      · rcases ih q (some g) with h | ⟨t, ht, h⟩
        · right; exact ⟨g, List.mem_cons_self _ _, h⟩
        · right; exact ⟨t, List.mem_cons_of_mem _ ht, h⟩
      · rcases ih m b with h | ⟨t, ht, h⟩
        · left; exact h
        · right; exact ⟨t, List.mem_cons_of_mem _ ht, h⟩
    · rcases ih m b with h | ⟨t, ht, h⟩
      · left; exact h
      · right; exact ⟨t, List.mem_cons_of_mem _ ht, h⟩

theorem g_list_remove_length (l : List ClassGroupTask) (t : ClassGroupTask) (h : t ∈ l) :
    (g_list_remove l (some t.ptr)).length + 1 = l.length := by
  induction l with
  | nil => simp at h
  | cons x xs ih =>
    simp only [g_list_remove]
    split
    · simp
    · rename_i hx
      have hne : t ≠ x := by
        intro e; apply hx; rw [e]
      have hmem : t ∈ xs := by
        rcases List.mem_cons.mp h with e | e
        · exact absurd e hne
        · exact e
      simp only [List.length_cons]
      rw [ih hmem]

theorem g_list_remove_mem (l : List ClassGroupTask) (d : Option Nat) (x : ClassGroupTask)
    (h : x ∈ g_list_remove l d) : x ∈ l := by
  induction l with
  | nil => simp [g_list_remove] at h
  | cons y ys ih =>
    simp only [g_list_remove] at h
    split at h
    · exact List.mem_cons_of_mem _ h
    · rcases List.mem_cons.mp h with e | e
      · rw [e]; exact List.mem_cons_self _ _
      · exact List.mem_cons_of_mem _ (ih e)

/-- The task `wnck_task_get_highest_scored` returns is one of the list, and the
list it returns is a part of the list it was given. -/
theorem get_highest_scored_mem (l : List ClassGroupTask) :
    (∀ t, (wnck_task_get_highest_scored l).1 = some t →
      t ∈ l ∧ (wnck_task_get_highest_scored l).2.length + 1 = l.length) ∧
    (∀ x ∈ (wnck_task_get_highest_scored l).2, x ∈ l) := by
  constructor
  · intro t ht
    simp only [wnck_task_get_highest_scored] at ht ⊢
    rcases highest_scored_scan_mem l (-1000000000) none with h | ⟨t1, ht1, h⟩
    · rw [h] at ht; exact absurd ht (by simp)
    · rw [h] at ht
      have e : t1 = t := Option.some.inj ht
      subst e
      refine ⟨ht1, ?_⟩
      simp only [h, Option.map_some']
      exact g_list_remove_length l t1 ht1
  · intro x hx
    exact g_list_remove_mem l _ x hx

/-- A list whose groups all have a score that is a number above the initial
`max_score` yields a task, unless it is empty. -/
theorem get_highest_scored_some (l : List ClassGroupTask) (hne : l ≠ [])
    (hs : ∀ g ∈ l, ∃ q, g.grouping_score = some q ∧ (-1000000000 : ℚ) ≤ q) :
    ∃ t, (wnck_task_get_highest_scored l).1 = some t := by
  cases l with
  | nil => exact absurd rfl hne
  | cons g l =>
    obtain ⟨q, hq, hle⟩ := hs g (List.mem_cons_self _ _)
    simp only [wnck_task_get_highest_scored, highest_scored_scan, hq, hle, if_true]
    rcases highest_scored_scan_mem l q (some g) with h | ⟨t, -, h⟩
    · exact ⟨g, h⟩
    · exact ⟨t, h⟩

/-! ## Properties of the size hints -/

theorem array_set_last_length (array : List Int) (v : Int) :
    (array_set_last array v).length = array.length := by
  simp [array_set_last]

theorem array_set_last_getLast? (array : List Int) (v : Int) (h : array ≠ []) :
    (array_set_last array v).getLast? = some v := by
  have hpos : 0 < array.length := List.length_pos.mpr h
  rw [List.getLast?_eq_getElem?, array_set_last_length]
  simp only [array_set_last]
  rw [List.getElem?_set_self (by omega)]

theorem size_request_finish_length (array : List Int) (h : array.length % 2 = 0) :
    (size_request_finish array).length % 2 = 0 ∧ 2 ≤ (size_request_finish array).length := by
  unfold size_request_finish
  split
  · rw [array_set_last_length]; omega
  · simp

theorem size_request_finish_getLast? (array : List Int) :
    (size_request_finish array).getLast? = some 0 := by
  unfold size_request_finish
  split
  · rename_i h
    exact array_set_last_getLast? array 0 (List.length_pos.mp h)
  · simp

/-- A successful run of `wnck_tasklist_size_request` went through the layout of
the ungrouped mode and the loop, and stored the finished array. -/
theorem size_request_ok (priv : WnckTasklistPrivate) (a : GtkAllocation) (button_size : Int)
    (r : WnckTasklistPrivate × GtkRequisition)
    (h : wnck_tasklist_size_request priv a button_size = .ok r) :
    ∃ lay s,
      wnck_tasklist_layout { x := 0, y := 0, width := a.width, height := a.height } button_size
        (size_request_max priv).2
        ((priv.windows.length : Int) + (priv.startup_sequences.length : Int)) = .ok lay ∧
      size_request_loop
        { priv with max_button_width := button_size
                    max_button_height := (size_request_max priv).2 }
        { x := 0, y := 0, width := a.width, height := a.height }
        priv.windows.length priv.startup_sequences.length
        (MIN priv.grouping_limit button_size) priv.class_groups.length
        (size_request_start
          { priv with max_button_width := button_size
                      max_button_height := (size_request_max priv).2 }
          (MIN priv.grouping_limit button_size) lay) = .ok s ∧
      r.1.size_hints = size_request_finish s.array ∧
      r.1.size_hints_len = ((size_request_finish s.array).length : Int) := by
  unfold wnck_tasklist_size_request at h
  simp only at h
  split at h
  · exact absurd h (by simp)
  · rename_i lay hlay
    split at h
    · exact absurd h (by simp)
    · rename_i s hs
      split at h
      · exact absurd h (by simp)
      · rename_i w l hw
        refine ⟨lay, s, hlay, hs, ?_, ?_⟩
        · cases h; rfl
        · cases h; rfl

/-- What one successful pass through the loop body of
`wnck_tasklist_size_request` does: it takes a group `t` out of the list, lays
out the remaining buttons, and leaves the array alone, or overwrites its
last element, or appends a range. -/
theorem size_request_body_ok (priv : WnckTasklistPrivate) (fa : GtkAllocation)
    (nw ns gl : Int) (s s1 : SizeRequestState)
    (h : size_request_body priv fa nw ns gl s = .ok s1) :
    ∃ t lay,
      (wnck_task_get_highest_scored (score_groups_once s.score_set s.ungrouped_class_groups)).1 = some t ∧
      wnck_tasklist_layout fa priv.max_button_width priv.max_button_height
        (ns + nw - (s.n_grouped_buttons + ((t.windows.length : Int) - 1))) = .ok lay ∧
      s1.ungrouped_class_groups = (wnck_task_get_highest_scored (score_groups_once s.score_set s.ungrouped_class_groups)).2 ∧
      s1.score_set = true ∧
      s1.n_grouped_buttons = s.n_grouped_buttons + ((t.windows.length : Int) - 1) ∧
      s1.n_cols = lay.n_cols ∧
      ((¬ (lay.n_cols ≠ s.last_n_cols ∧
            (priv.grouping = .AUTO_GROUP ∨ s1.ungrouped_class_groups = [])) ∧
          s1.array = s.array ∧ s1.lowest_range = s.lowest_range ∧
          s1.last_n_cols = s.last_n_cols) ∨
        ((lay.n_cols ≠ s.last_n_cols ∧
            (priv.grouping = .AUTO_GROUP ∨ s1.ungrouped_class_groups = [])) ∧
          s.lowest_range ≤ lay.n_cols * priv.max_button_width ∧ 0 < s.array.length ∧
          s1.array = array_set_last s.array (lay.n_cols * gl) ∧
          s1.lowest_range = lay.n_cols * gl ∧ s1.last_n_cols = lay.n_cols) ∨
        ((lay.n_cols ≠ s.last_n_cols ∧
            (priv.grouping = .AUTO_GROUP ∨ s1.ungrouped_class_groups = [])) ∧
          lay.n_cols * priv.max_button_width < s.lowest_range ∧
          s1.array = s.array ++ [lay.n_cols * priv.max_button_width] ++ [lay.n_cols * gl] ∧
          s1.lowest_range = lay.n_cols * gl ∧ s1.last_n_cols = lay.n_cols)) := by
  unfold size_request_body at h
  simp only at h
  split at h
  · exact absurd h (by simp)
  · rename_i t ht
    split at h
    · exact absurd h (by simp)
    · rename_i lay hlay
      refine ⟨t, lay, ht, hlay, ?_⟩
      split at h
      · rename_i hc
        split at h
        · rename_i hv
          split at h
          · rename_i hlen
            cases h
            exact ⟨rfl, rfl, rfl, rfl, Or.inr (Or.inl ⟨hc, hv, hlen, rfl, rfl, rfl⟩)⟩
          · exact absurd h (by simp)
        · rename_i hv
          cases h
          exact ⟨rfl, rfl, rfl, rfl, Or.inr (Or.inr ⟨hc, not_le.mp hv, rfl, rfl, rfl⟩)⟩
      · rename_i hc
        cases h
        exact ⟨rfl, rfl, rfl, rfl, Or.inl ⟨hc, rfl, rfl, rfl⟩⟩

theorem size_request_body_parity (priv : WnckTasklistPrivate) (fa : GtkAllocation)
    (nw ns gl : Int) (s s1 : SizeRequestState)
    (h : size_request_body priv fa nw ns gl s = .ok s1) :
    s1.array.length % 2 = s.array.length % 2 := by
  obtain ⟨t, lay, -, -, -, -, -, -, hc⟩ := size_request_body_ok priv fa nw ns gl s s1 h
  rcases hc with ⟨-, ha, -⟩ | ⟨-, -, -, ha, -⟩ | ⟨-, -, ha, -⟩
  · rw [ha]
  · rw [ha, array_set_last_length]
  · rw [ha]; simp only [List.length_append, List.length_singleton]; omega

theorem size_request_loop_parity (priv : WnckTasklistPrivate) (fa : GtkAllocation)
    (nw ns gl : Int) (fuel : Nat) (s s1 : SizeRequestState)
    (h : size_request_loop priv fa nw ns gl fuel s = .ok s1) :
    s1.array.length % 2 = s.array.length % 2 := by
  induction fuel generalizing s with
  | zero =>
    simp only [size_request_loop] at h
    split at h
    · exact absurd h (by simp)
    · cases h; rfl
  | succ fuel ih =>
    simp only [size_request_loop] at h
    split at h
    · split at h
      · exact absurd h (by simp)
      · rename_i s2 hb
        rw [ih s2 h, size_request_body_parity priv fa nw ns gl s s2 hb]
    · cases h; rfl

theorem size_request_start_parity (priv : WnckTasklistPrivate) (gl : Int) (lay : Layout) :
    (size_request_start priv gl lay).array.length % 2 = 0 := by
  unfold size_request_start
  split <;> simp

/-! ## wnck_tasklist_size_request returns -/

theorem MAX_mono_left (a b : Int) (h : a ≤ b) : MAX a 1 ≤ MAX b 1 := by
  unfold MAX; split <;> split <;> omega

theorem get_max_height_ge (l : List GtkRequisition) (m : Int × Int) :
    m.2 ≤ (get_max_width_height_from_buttons l m).2 := by
  induction l generalizing m with
  | nil => simp [get_max_width_height_from_buttons]
  | cons r l ih =>
    obtain ⟨mw, mh⟩ := m
    simp only [get_max_width_height_from_buttons]
    have h1 := ih (MAX r.width mw, MAX r.height mh)
    have h2 : mh ≤ MAX r.height mh := by unfold MAX; split <;> omega
    simp only at h1 ⊢
    omega

theorem size_request_max_height_pos (priv : WnckTasklistPrivate) :
    1 ≤ (size_request_max priv).2 := by
  unfold size_request_max
  have h1 := get_max_height_ge (priv.windows.map (fun t => t.req)) (1, 1)
  have h2 := get_max_height_ge (priv.class_groups.map (fun t => t.req))
    (get_max_width_height_from_buttons (priv.windows.map (fun t => t.req)) (1, 1))
  have h3 := get_max_height_ge (priv.startup_sequences.map (fun t => t.req))
    (get_max_width_height_from_buttons (priv.class_groups.map (fun t => t.req))
      (get_max_width_height_from_buttons (priv.windows.map (fun t => t.req)) (1, 1)))
  simp only at h1 h2 h3 ⊢
  omega

/-- The groups the loop body chooses from have windows and scores. -/
theorem score_groups_once_spec (score_set : Bool) (l : List ClassGroupTask)
    (hw : ∀ g ∈ l, g.windows ≠ [])
    (hs : score_set = true → ∀ g ∈ l, ∃ q, g.grouping_score = some q ∧ (-1000000000 : ℚ) ≤ q) :
    (score_groups_once score_set l).length = l.length ∧
    ∀ g ∈ score_groups_once score_set l, g.windows ≠ [] ∧
      ∃ q, g.grouping_score = some q ∧ (-1000000000 : ℚ) ≤ q := by
  unfold score_groups_once
  by_cases hset : score_set = true
  · simp only [hset, if_true]
    exact ⟨trivial, fun g hg => ⟨hw g hg, hs hset g hg⟩⟩
  · simp only [hset]
    refine ⟨score_groups_from_length _ _, ?_⟩
    intro g hg
    obtain ⟨g0, hg0, -, hwin, hq⟩ := score_groups_from_mem _ _ g hg
    exact ⟨by rw [hwin]; exact hw g0 hg0, hq (hw g0 hg0)⟩

/-- A pass through the loop body returns, keeps what makes the loop run, and
shortens the list of groups by one. -/
theorem size_request_body_returns (priv : WnckTasklistPrivate) (fa : GtkAllocation)
    (nw ns gl : Int) (s : SizeRequestState) (hh : priv.max_button_height ≠ 0)
    (hJ : size_request_runs priv (ns + nw) s) (hne : s.ungrouped_class_groups ≠ []) :
    ∃ s1, size_request_body priv fa nw ns gl s = .ok s1 ∧
      size_request_runs priv (ns + nw) s1 ∧
      s1.ungrouped_class_groups.length + 1 = s.ungrouped_class_groups.length := by
  obtain ⟨hlen, hsc⟩ := score_groups_once_spec s.score_set s.ungrouped_class_groups hJ.1 hJ.2.1
  have hne1 : score_groups_once s.score_set s.ungrouped_class_groups ≠ [] := by
    intro e
    rw [e] at hlen
    exact hne (List.length_eq_zero.mp hlen.symm)
  obtain ⟨t, ht⟩ := get_highest_scored_some _ hne1 (fun g hg => (hsc g hg).2)
  obtain ⟨hmem, hsub⟩ := get_highest_scored_mem
    (score_groups_once s.score_set s.ungrouped_class_groups)
  obtain ⟨htmem, htlen⟩ := hmem t ht
  have htw : 1 ≤ (t.windows.length : Int) := by
    have := List.length_pos.mpr (hsc t htmem).1
    omega
  obtain ⟨lay, hlay⟩ := layout_returns fa priv.max_button_width priv.max_button_height
    (ns + nw - (s.n_grouped_buttons + ((t.windows.length : Int) - 1))) hh
  have hrest : ∀ g ∈ (wnck_task_get_highest_scored (score_groups_once s.score_set s.ungrouped_class_groups)).2,
      g.windows ≠ [] ∧ ∃ q, g.grouping_score = some q ∧ (-1000000000 : ℚ) ≤ q :=
    fun g hg => hsc g (hsub g hg)
  obtain ⟨-, -, harr⟩ := hJ
  unfold size_request_body
  simp only [ht, hlay]
  split
  · split
    · rename_i hc hv
      split
      · rename_i hpos
        refine ⟨_, rfl, ⟨fun g hg => (hrest g hg).1, fun _ g hg => (hrest g hg).2, ?_⟩, ?_⟩
        · left; simp only [array_set_last_length]; exact hpos
        · simp only; omega
      · rename_i hpos
        exfalso
        rcases harr with h0 | ⟨hlow, hgr, hmbw, hbound⟩
        · exact hpos h0
        · have h1 := layout_n_cols_le fa priv.max_button_width priv.max_button_height _ lay hlay
          have h2 := MAX_mono_left
            (ns + nw - (s.n_grouped_buttons + ((t.windows.length : Int) - 1))) (ns + nw)
            (by omega)
          have h3 : lay.n_cols * priv.max_button_width ≤ MAX (ns + nw) 1 * priv.max_button_width :=
            mul_le_mul_of_nonneg_right (by omega) hmbw
          omega
    · refine ⟨_, rfl, ⟨fun g hg => (hrest g hg).1, fun _ g hg => (hrest g hg).2, ?_⟩, ?_⟩
      · left; simp
      · simp only; omega
  · refine ⟨_, rfl, ⟨fun g hg => (hrest g hg).1, fun _ g hg => (hrest g hg).2, ?_⟩, ?_⟩
    · rcases harr with h0 | ⟨hlow, hgr, hmbw, hbound⟩
      · left; exact h0
      · right; exact ⟨hlow, by simp only; omega, hmbw, hbound⟩
    · simp only; omega

/-- The loop of `wnck_tasklist_size_request` returns when it is given a unit of
fuel for every group. -/
theorem size_request_loop_returns (priv : WnckTasklistPrivate) (fa : GtkAllocation)
    (nw ns gl : Int) (fuel : Nat) (s : SizeRequestState) (hh : priv.max_button_height ≠ 0)
    (hJ : size_request_runs priv (ns + nw) s)
    (hfuel : s.ungrouped_class_groups.length ≤ fuel) :
    ∃ s1, size_request_loop priv fa nw ns gl fuel s = .ok s1 := by
  induction fuel generalizing s with
  | zero =>
    have hnil : s.ungrouped_class_groups = [] := List.length_eq_zero.mp (by omega)
    simp [size_request_loop, hnil]
  | succ fuel ih =>
    simp only [size_request_loop]
    split
    · rename_i hc
      obtain ⟨s1, hb, hJ1, hl1⟩ := size_request_body_returns priv fa nw ns gl s hh hJ hc.1
      simp only [hb]
      exact ih s1 hJ1 (by omega)
    · exact ⟨s, rfl⟩

theorem size_request_finish_ne_nil (array : List Int) : size_request_finish array ≠ [] := by
  unfold size_request_finish
  split
  · rename_i h
    intro e
    have := congrArg List.length e
    rw [array_set_last_length] at this
    simp only [List.length_nil] at this
    omega
  · simp

/-- The function `wnck_tasklist_size_request` returns when every class group has
a window and, under `WNCK_TASKLIST_ALWAYS_GROUP`, the widest range stays
below `G_MAXINT`. -/
theorem size_request_returns (priv : WnckTasklistPrivate) (a : GtkAllocation)
    (button_size : Int)
    (hw : ∀ g ∈ priv.class_groups, g.windows ≠ [])
    (hb : priv.grouping = .ALWAYS_GROUP →
      0 ≤ button_size ∧
      MAX ((priv.startup_sequences.length : Int) + (priv.windows.length : Int)) 1 * button_size
        < G_MAXINT) :
    ∃ r, wnck_tasklist_size_request priv a button_size = .ok r := by
  have hmh := size_request_max_height_pos priv
  obtain ⟨lay, hlay⟩ := layout_returns
    { x := 0, y := 0, width := a.width, height := a.height } button_size
    (size_request_max priv).2
    ((priv.windows.length : Int) + (priv.startup_sequences.length : Int)) (by omega)
  have hJ : size_request_runs
      { priv with max_button_width := button_size
                  max_button_height := (size_request_max priv).2 }
      ((priv.startup_sequences.length : Int) + (priv.windows.length : Int))
      (size_request_start
        { priv with max_button_width := button_size
                    max_button_height := (size_request_max priv).2 }
        (MIN priv.grouping_limit button_size) lay) := by
    unfold size_request_start
    by_cases hg : priv.grouping = .ALWAYS_GROUP
    · simp only [hg, ne_eq, not_true_eq_false, if_false]
      refine ⟨hw, fun h => absurd h (by simp), Or.inr ⟨rfl, le_refl _, (hb hg).1, (hb hg).2⟩⟩
    · simp only [hg, ne_eq, not_false_eq_true, if_true]
      exact ⟨hw, fun h => absurd h (by simp), Or.inl (by simp)⟩
  obtain ⟨s1, hs1⟩ := size_request_loop_returns
    { priv with max_button_width := button_size
                max_button_height := (size_request_max priv).2 }
    { x := 0, y := 0, width := a.width, height := a.height }
    priv.windows.length priv.startup_sequences.length
    (MIN priv.grouping_limit button_size) priv.class_groups.length _
    (by simp only; omega) hJ
    (by unfold size_request_start; split <;> simp)
  unfold wnck_tasklist_size_request
  simp only [hlay, hs1]
  have hne := size_request_finish_ne_nil s1.array
  split
  · rename_i e; exact absurd e hne
  · exact ⟨_, rfl⟩

/-! ## The fuel is enough -/

theorem layout_fault (a : GtkAllocation) (w h n : Int) (e : Fault)
    (he : wnck_tasklist_layout a w h n = .error e) : e = .division_by_zero := by
  unfold wnck_tasklist_layout at he
  split at he
  · exact absurd he (by simp)
  · split at he
    · cases he; rfl
    · exact absurd he (by simp)

theorem size_request_body_fault (priv : WnckTasklistPrivate) (fa : GtkAllocation)
    (nw ns gl : Int) (s : SizeRequestState) (e : Fault)
    (h : size_request_body priv fa nw ns gl s = .error e) : e ≠ .out_of_fuel := by
  unfold size_request_body at h
  simp only at h
  split at h
  · cases h; simp
  · split at h
    · rename_i e1 hl
      cases h
      rw [layout_fault _ _ _ _ _ hl]; simp
    · split at h
      · split at h
        · split at h
          · exact absurd h (by simp)
          · cases h; simp
        · exact absurd h (by simp)
      · exact absurd h (by simp)

/-- The loop of `wnck_tasklist_size_request` never runs out of fuel when it is
given a unit for every group: each pass takes a group out of the list. -/
theorem size_request_loop_fuel (priv : WnckTasklistPrivate) (fa : GtkAllocation)
    (nw ns gl : Int) (fuel : Nat) (s : SizeRequestState)
    (hfuel : s.ungrouped_class_groups.length ≤ fuel) :
    size_request_loop priv fa nw ns gl fuel s ≠ .error .out_of_fuel := by
  induction fuel generalizing s with
  | zero =>
    have hnil : s.ungrouped_class_groups = [] := List.length_eq_zero.mp (by omega)
    simp [size_request_loop, hnil]
  | succ fuel ih =>
    simp only [size_request_loop]
    split
    · split
      · rename_i e hb
        intro h
        cases h
        exact size_request_body_fault priv fa nw ns gl s _ hb rfl
      · rename_i s1 hb
        obtain ⟨t, lay, ht, -, hu, -⟩ := size_request_body_ok priv fa nw ns gl s s1 hb
        have h1 := ((get_highest_scored_mem
          (score_groups_once s.score_set s.ungrouped_class_groups)).1 t ht).2
        have h2 : (score_groups_once s.score_set s.ungrouped_class_groups).length =
            s.ungrouped_class_groups.length := by
          unfold score_groups_once
          split
          · rfl
          · exact score_groups_from_length _ _
        exact ih s1 (by rw [hu]; omega)
    · simp

/-- A run of `wnck_tasklist_size_request` that does not return stopped at a
fault of the C code, not for want of fuel. -/
theorem size_request_fuel (priv : WnckTasklistPrivate) (a : GtkAllocation)
    (button_size : Int) :
    wnck_tasklist_size_request priv a button_size ≠ .error .out_of_fuel := by
  unfold wnck_tasklist_size_request
  simp only
  split
  · rename_i e hl
    rw [layout_fault _ _ _ _ _ hl]; simp
  · split
    · rename_i lay hl e hloop
      intro h
      cases h
      refine size_request_loop_fuel _ _ _ _ _ _ _ ?_ hloop
      unfold size_request_start
      split <;> simp
    · split
      · simp
      · simp

/-! ## The size hints are descending -/

theorem array_set_last_append (xs : List Int) (x v : Int) :
    array_set_last (xs ++ [x]) v = xs ++ [v] := by
  induction xs with
  | nil => simp [array_set_last]
  | cons y ys ih =>
    simp only [array_set_last, List.length_append, List.length_singleton,
      Nat.add_sub_cancel] at ih
    simp only [array_set_last, List.cons_append, List.length_cons, List.length_append,
      List.length_nil, Nat.zero_add, Nat.add_sub_cancel, List.set_cons_succ, ih]

theorem array_set_last_pair (front : List Int) (a b v : Int) :
    array_set_last (front ++ [a, b]) v = front ++ [a, v] := by
  have e : ∀ c : Int, front ++ [a, c] = (front ++ [a]) ++ [c] := by intro c; simp
  rw [e b, e v, array_set_last_append]

theorem size_request_finish_pair (front : List Int) (a b : Int) :
    size_request_finish (front ++ [a, b]) = front ++ [a, 0] := by
  unfold size_request_finish
  rw [if_pos (by simp), array_set_last_pair]

theorem size_hints_descending_append : (front : List Int) → (maxL minL val : Int) →
    size_hints_descending (front ++ [maxL, 0]) → minL ≤ maxL → val < minL → 0 ≤ val →
    size_hints_descending (front ++ [maxL, minL, val, 0])
  | [], maxL, minL, val, h, h1, h2, h3 => by
    simp [size_hints_descending] at h ⊢
    omega
  | [a], maxL, minL, val, h, h1, h2, h3 => by
    simp [size_hints_descending] at h
  | a :: b :: rest, maxL, minL, val, h, h1, h2, h3 => by
    simp only [List.cons_append, size_hints_descending] at h ⊢
    refine ⟨h.1, ?_, size_hints_descending_append rest maxL minL val h.2.2 h1 h2 h3⟩
    cases rest with
    | nil => simpa using h.2.1
    | cons c cs => simpa using h.2.1

theorem score_groups_once_windows (score_set : Bool) (l : List ClassGroupTask)
    (hw : ∀ g ∈ l, g.windows ≠ []) :
    ∀ g ∈ score_groups_once score_set l, g.windows ≠ [] := by
  unfold score_groups_once
  by_cases hset : score_set = true
  · simp only [hset, if_true]; exact hw
  · simp only [hset]
    intro g hg
    obtain ⟨g0, hg0, -, hwin, -⟩ := score_groups_from_mem _ _ g hg
    rw [hwin]; exact hw g0 hg0

/-- A pass through the loop body keeps `size_request_descends`. -/
theorem size_request_body_descends (priv : WnckTasklistPrivate) (fa : GtkAllocation)
    (nw ns gl : Int) (s s1 : SizeRequestState)
    (hmbw : 0 ≤ priv.max_button_width) (hgl : gl ≤ priv.max_button_width)
    (hI : size_request_descends priv fa (ns + nw) s)
    (hne : s.ungrouped_class_groups ≠ [])
    (h : size_request_body priv fa nw ns gl s = .ok s1) :
    size_request_descends priv fa (ns + nw) s1 := by
  obtain ⟨hD, hW, hT⟩ := hI
  obtain ⟨t, lay, ht, hlay, hu, -, hng, -, hc⟩ := size_request_body_ok priv fa nw ns gl s s1 h
  have hscW := score_groups_once_windows s.score_set s.ungrouped_class_groups hW
  obtain ⟨hmem, hsub⟩ := get_highest_scored_mem
    (score_groups_once s.score_set s.ungrouped_class_groups)
  have htw : 1 ≤ (t.windows.length : Int) := by
    have := List.length_pos.mpr (hscW t (hmem t ht).1)
    omega
  have hW1 : ∀ g ∈ s1.ungrouped_class_groups, g.windows ≠ [] := by
    rw [hu]; intro g hg; exact hscW g (hsub g hg)
  rw [← hng] at hlay
  have hcols0 := layout_n_cols_nonneg _ _ _ _ _ hlay
  have hval0 : 0 ≤ lay.n_cols * priv.max_button_width := mul_nonneg hcols0 hmbw
  have hv2 : lay.n_cols * gl ≤ lay.n_cols * priv.max_button_width :=
    mul_le_mul_of_nonneg_left hgl hcols0
  have hle : ns + nw - s1.n_grouped_buttons ≤ ns + nw - s.n_grouped_buttons := by omega
  -- the last range of a state whose `last_n_cols` is that of the new layout
  have hB : ∀ maxL low : Int, low ≤ maxL → lay.n_cols * priv.max_button_width ≤ maxL →
      ((0 ≤ ns + nw - s1.n_grouped_buttons ∧
        (∃ lay1, wnck_tasklist_layout fa priv.max_button_width priv.max_button_height
            (ns + nw - s1.n_grouped_buttons) = .ok lay1 ∧ lay1.n_cols = lay.n_cols) ∧
        low ≤ maxL ∧ lay.n_cols * priv.max_button_width ≤ maxL) ∨
      (ns + nw - s1.n_grouped_buttons < 0 ∧ lay.n_cols = 1)) := by
    intro maxL low h1 h2
    by_cases hn1 : 0 ≤ ns + nw - s1.n_grouped_buttons
    · left; exact ⟨hn1, ⟨lay, hlay, rfl⟩, h1, h2⟩
    · right; exact ⟨by omega, layout_n_cols_neg _ _ _ _ _ hlay (by omega)⟩
  rcases hc with ⟨hcond, ha, hlo, hla⟩ | ⟨hcond, hv, hpos, ha, hlo, hla⟩ | ⟨hcond, hv, ha, hlo, hla⟩
  · -- the array is left alone
    refine ⟨by rw [ha]; exact hD, hW1, ?_⟩
    rcases hT with h0 | h0 | ⟨hauto, front, maxL, harr, hB0⟩
    · left; rw [ha]; exact h0
    · exact absurd h0 hne
    · right; right
      refine ⟨hauto, front, maxL, by rw [ha, hlo]; exact harr, ?_⟩
      have hceq : lay.n_cols = s.last_n_cols := by
        by_contra hx; exact hcond ⟨hx, Or.inl hauto⟩
      rw [hlo, hla]
      rcases hB0 with ⟨hn, -, hlm, hlast⟩ | ⟨hn, hl1⟩
      · by_cases hn1 : 0 ≤ ns + nw - s1.n_grouped_buttons
        · left; exact ⟨hn1, ⟨lay, hlay, hceq⟩, hlm, hlast⟩
        · right
          refine ⟨by omega, ?_⟩
          rw [← hceq]; exact layout_n_cols_neg _ _ _ _ _ hlay (by omega)
      · right; exact ⟨by omega, hl1⟩
  · -- the last element is overwritten
    rcases hT with h0 | h0 | ⟨hauto, front, maxL, harr, hB0⟩
    · rw [h0] at hpos; simp at hpos
    · exact absurd h0 hne
    · have ha1 : s1.array = front ++ [maxL, lay.n_cols * gl] := by
        rw [ha, harr, array_set_last_pair]
      refine ⟨?_, hW1, Or.inr (Or.inr ⟨hauto, front, maxL, by rw [ha1, hlo], ?_⟩)⟩
      · rw [ha1, size_request_finish_pair]
        rw [harr, size_request_finish_pair] at hD
        exact hD
      · rw [hlo, hla]
        rcases hB0 with ⟨hn, ⟨lay0, hlay0, hc0⟩, hlm, hlast⟩ | ⟨hn, hl1⟩
        · by_cases hn1 : 0 ≤ ns + nw - s1.n_grouped_buttons
          · have hmono := layout_n_cols_mono fa _ _ _ _ lay0 lay hlay0 hlay hn1 hle
            have h3 : lay.n_cols * priv.max_button_width ≤
                s.last_n_cols * priv.max_button_width :=
              mul_le_mul_of_nonneg_right (by omega) hmbw
            exact hB maxL (lay.n_cols * gl) (by omega) (by omega)
          · right; exact ⟨by omega, layout_n_cols_neg _ _ _ _ _ hlay (by omega)⟩
        · exfalso
          have := layout_n_cols_neg _ _ _ _ _ hlay (by omega)
          exact hcond.1 (by omega)
  · -- a range is appended
    have ha2 : s1.array = s.array ++ [lay.n_cols * priv.max_button_width, lay.n_cols * gl] := by
      rw [ha]; simp
    rcases hT with h0 | h0 | ⟨hauto, front, maxL, harr, hB0⟩
    · rw [h0] at ha2
      refine ⟨?_, hW1, ?_⟩
      · rw [ha2, size_request_finish_pair]
        simp only [List.nil_append, size_hints_descending, List.head?_nil, Option.mem_def,
          reduceCtorEq, false_implies, implies_true, and_true]
        exact hval0
      · rcases hcond.2 with hauto | hnil
        · right; right
          refine ⟨hauto, [], lay.n_cols * priv.max_button_width, by rw [ha2, hlo], ?_⟩
          rw [hlo, hla]
          exact hB _ _ hv2 (le_refl _)
        · right; left; exact hnil
    · exact absurd h0 hne
    · rcases hB0 with ⟨hn, -, hlm, hlast⟩ | ⟨hn, hl1⟩
      · have ha3 : s1.array = (front ++ [maxL, s.lowest_range]) ++
            [lay.n_cols * priv.max_button_width, lay.n_cols * gl] := by rw [ha2, harr]
        refine ⟨?_, hW1, Or.inr (Or.inr ⟨hauto, front ++ [maxL, s.lowest_range],
          lay.n_cols * priv.max_button_width, by rw [ha3, hlo], ?_⟩)⟩
        · rw [ha3, size_request_finish_pair]
          rw [harr, size_request_finish_pair] at hD
          have := size_hints_descending_append front maxL s.lowest_range
            (lay.n_cols * priv.max_button_width) hD hlm hv hval0
          simpa using this
        · rw [hlo, hla]
          exact hB _ _ hv2 (le_refl _)
      · exfalso
        have := layout_n_cols_neg _ _ _ _ _ hlay (by omega)
        exact hcond.1 (by omega)

theorem size_request_loop_descends (priv : WnckTasklistPrivate) (fa : GtkAllocation)
    (nw ns gl : Int) (fuel : Nat) (s s1 : SizeRequestState)
    (hmbw : 0 ≤ priv.max_button_width) (hgl : gl ≤ priv.max_button_width)
    (hI : size_request_descends priv fa (ns + nw) s)
    (h : size_request_loop priv fa nw ns gl fuel s = .ok s1) :
    size_request_descends priv fa (ns + nw) s1 := by
  induction fuel generalizing s with
  | zero =>
    simp only [size_request_loop] at h
    split at h
    · exact absurd h (by simp)
    · cases h; exact hI
  | succ fuel ih =>
    simp only [size_request_loop] at h
    split at h
    · rename_i hc
      split at h
      · exact absurd h (by simp)
      · rename_i s2 hb
        exact ih s2 (size_request_body_descends priv fa nw ns gl s s2 hmbw hgl hI hc.1 hb) h
    · cases h; exact hI

theorem size_request_loop_never (priv : WnckTasklistPrivate) (fa : GtkAllocation)
    (nw ns gl : Int) (fuel : Nat) (s : SizeRequestState)
    (hg : priv.grouping = .NEVER_GROUP) :
    size_request_loop priv fa nw ns gl fuel s = .ok s := by
  cases fuel <;> simp [size_request_loop, hg]

theorem MIN_le_right (a b : Int) : MIN a b ≤ b := by
  unfold MIN; split <;> omega

/-! ## The claims on the size hints -/

/-- C1. After a run of `wnck_tasklist_size_request`, whatever the grouping
policy, the task lists and the allocation, the number of size hints that
`wnck_tasklist_get_size_hint_list` reports in `n_elements` is even, at least 2,
and the length of the array.  The run does return when every class group has a
window (and, under `WNCK_TASKLIST_ALWAYS_GROUP`, the widest range is below
`G_MAXINT`). -/
theorem size_hints_len_even (priv : WnckTasklistPrivate) (a : GtkAllocation)
    (button_size : Int) :
    (∀ r, wnck_tasklist_size_request priv a button_size = .ok r →
      (wnck_tasklist_get_size_hint_list r.1).2 % 2 = 0 ∧
      2 ≤ (wnck_tasklist_get_size_hint_list r.1).2 ∧
      (wnck_tasklist_get_size_hint_list r.1).2 =
        ((wnck_tasklist_get_size_hint_list r.1).1.length : Int)) ∧
    ((∀ g ∈ priv.class_groups, g.windows ≠ []) →
      (priv.grouping = .ALWAYS_GROUP →
        0 ≤ button_size ∧
        MAX ((priv.startup_sequences.length : Int) + (priv.windows.length : Int)) 1 * button_size
          < G_MAXINT) →
      ∃ r, wnck_tasklist_size_request priv a button_size = .ok r) := by
  refine ⟨?_, size_request_returns priv a button_size⟩
  intro r hr
  obtain ⟨lay, s, -, hloop, harr, hlen⟩ := size_request_ok priv a button_size r hr
  have hpar := size_request_loop_parity _ _ _ _ _ _ _ _ hloop
  rw [size_request_start_parity] at hpar
  obtain ⟨h1, h2⟩ := size_request_finish_length s.array hpar
  simp only [wnck_tasklist_get_size_hint_list]
  rw [hlen, harr]
  refine ⟨by omega, by omega, rfl⟩

/-- C1, on the sample tasklist under `WNCK_TASKLIST_AUTO_GROUP`: the run returns
six size hints. -/
theorem size_hints_len_even_witness :
    ∃ r, wnck_tasklist_size_request (sample_priv .AUTO_GROUP 80)
        { x := 0, y := 0, width := 300, height := 24 } 100 = .ok r ∧
      (wnck_tasklist_get_size_hint_list r.1).2 % 2 = 0 ∧
      2 ≤ (wnck_tasklist_get_size_hint_list r.1).2 := by
  obtain ⟨h1, h2⟩ := size_hints_len_even (sample_priv .AUTO_GROUP 80)
    { x := 0, y := 0, width := 300, height := 24 } 100
  obtain ⟨r, hr⟩ := h2 (by decide) (by decide)
  exact ⟨r, hr, (h1 r hr).1, (h1 r hr).2.1⟩

/-- C2. After a run of `wnck_tasklist_size_request` the last element of the
size-hint array is 0, whatever the grouping policy and the tasks; when there
is no task at all the run returns and the array is `0, 0`. -/
theorem size_hints_last_zero (priv : WnckTasklistPrivate) (a : GtkAllocation)
    (button_size : Int) :
    (∀ r, wnck_tasklist_size_request priv a button_size = .ok r →
      r.1.size_hints.getLast? = some 0) ∧
    (priv.windows = [] → priv.class_groups = [] → priv.startup_sequences = [] →
      ∃ r, wnck_tasklist_size_request priv a button_size = .ok r ∧
        r.1.size_hints = [0, 0]) := by
  constructor
  · intro r hr
    obtain ⟨lay, s, -, -, harr, -⟩ := size_request_ok priv a button_size r hr
    rw [harr]
    exact size_request_finish_getLast? s.array
  · intro hw hg hs
    unfold wnck_tasklist_size_request
    simp only [hw, hg, hs, List.length_nil, Nat.cast_zero, add_zero, wnck_tasklist_layout,
      if_true, size_request_loop, size_request_start]
    by_cases hgr : priv.grouping = .ALWAYS_GROUP
    · simp [hgr, size_request_finish]
    · simp [hgr, size_request_finish, array_set_last]

/-- C2, on the sample tasklist under `WNCK_TASKLIST_ALWAYS_GROUP`: the run returns
and the last size hint is 0. -/
theorem size_hints_last_zero_witness :
    ∃ r, wnck_tasklist_size_request (sample_priv .ALWAYS_GROUP 80)
        { x := 0, y := 0, width := 300, height := 24 } 100 = .ok r ∧
      r.1.size_hints.getLast? = some 0 := by
  obtain ⟨r, hr⟩ := size_request_returns (sample_priv .ALWAYS_GROUP 80)
    { x := 0, y := 0, width := 300, height := 24 } 100 (by decide) (by decide)
  exact ⟨r, hr, (size_hints_last_zero _ _ _).1 r hr⟩

/-- C3. With `max_button_width >= 0` and a window in every class group, the size
hints a run of `wnck_tasklist_size_request` stores are pairs `max, min` with
`max >= min`, and the `max` of every later pair is smaller than the `min` of
the pair before it.  The run does return (under `WNCK_TASKLIST_ALWAYS_GROUP`,
when the widest range is below `G_MAXINT`). -/
theorem size_hints_descend (priv : WnckTasklistPrivate) (a : GtkAllocation)
    (button_size : Int) (hmbw : 0 ≤ button_size)
    (hw : ∀ g ∈ priv.class_groups, g.windows ≠ []) :
    (∀ r, wnck_tasklist_size_request priv a button_size = .ok r →
      size_hints_descending r.1.size_hints) ∧
    ((priv.grouping = .ALWAYS_GROUP →
        MAX ((priv.startup_sequences.length : Int) + (priv.windows.length : Int)) 1 * button_size
          < G_MAXINT) →
      ∃ r, wnck_tasklist_size_request priv a button_size = .ok r) := by
  refine ⟨?_, fun hb => size_request_returns priv a button_size hw (fun hg => ⟨hmbw, hb hg⟩)⟩
  intro r hr
  obtain ⟨lay, s, hlay, hloop, harr, -⟩ := size_request_ok priv a button_size r hr
  rw [harr]
  generalize hp : ({ priv with max_button_width := button_size
                               max_button_height := (size_request_max priv).2 } :
    WnckTasklistPrivate) = priv1 at hloop
  have hg1 : priv1.grouping = priv.grouping := by rw [← hp]
  have hm1 : priv1.max_button_width = button_size := by rw [← hp]
  have hh1 : priv1.max_button_height = (size_request_max priv).2 := by rw [← hp]
  have hc1 : priv1.class_groups = priv.class_groups := by rw [← hp]
  have hcols0 := layout_n_cols_nonneg _ _ _ _ _ hlay
  have hval0 : 0 ≤ lay.n_cols * button_size := mul_nonneg hcols0 hmbw
  have hgl := MIN_le_right priv.grouping_limit button_size
  have hv2 : lay.n_cols * MIN priv.grouping_limit button_size ≤ lay.n_cols * button_size :=
    mul_le_mul_of_nonneg_left hgl hcols0
  have hfirst : size_hints_descending (size_request_finish
      ([lay.n_cols * button_size] ++ [lay.n_cols * MIN priv.grouping_limit button_size])) := by
    rw [show [lay.n_cols * button_size] ++ [lay.n_cols * MIN priv.grouping_limit button_size]
      = [] ++ [lay.n_cols * button_size, lay.n_cols * MIN priv.grouping_limit button_size]
      from rfl, size_request_finish_pair]
    simp only [List.nil_append, size_hints_descending, List.head?_nil, Option.mem_def,
      reduceCtorEq, false_implies, implies_true, and_true]
    exact hval0
  by_cases hnever : priv.grouping = .NEVER_GROUP
  · rw [size_request_loop_never _ _ _ _ _ _ _ (hg1.trans hnever)] at hloop
    cases hloop
    simp only [size_request_start, hg1, hm1, hnever, ne_eq, reduceCtorEq, not_false_eq_true,
      if_true]
    exact hfirst
  · refine (size_request_loop_descends _ _ _ _ _ _ _ s (by rw [hm1]; exact hmbw)
      (by rw [hm1]; exact hgl) ?_ hloop).1
    unfold size_request_descends size_request_start
    by_cases halways : priv.grouping = .ALWAYS_GROUP
    · simp only [hg1, hc1, halways, ne_eq, not_true_eq_false, if_false]
      exact ⟨by decide, hw, Or.inl trivial⟩
    · have hauto : priv.grouping = .AUTO_GROUP := by
        cases hg : priv.grouping with
        | NEVER_GROUP => exact absurd hg hnever
        | AUTO_GROUP => rfl
        | ALWAYS_GROUP => exact absurd hg halways
      simp only [hg1, hc1, hm1, hh1, halways, ne_eq, not_false_eq_true, if_true]
      refine ⟨hfirst, hw, Or.inr (Or.inr ⟨hauto, [], lay.n_cols * button_size, rfl, Or.inl ?_⟩)⟩
      refine ⟨by omega, ⟨lay, ?_, rfl⟩, hv2, le_refl _⟩
      rw [show (priv.startup_sequences.length : Int) + (priv.windows.length : Int) - 0
        = (priv.windows.length : Int) + (priv.startup_sequences.length : Int) by omega]
      exact hlay

/-- C3, on the sample tasklist under `WNCK_TASKLIST_AUTO_GROUP`: the run returns
and stores the ranges 700-560 and 500-0. -/
theorem size_hints_descend_witness :
    ∃ r, wnck_tasklist_size_request (sample_priv .AUTO_GROUP 80)
        { x := 0, y := 0, width := 300, height := 24 } 100 = .ok r ∧
      r.1.size_hints = [700, 560, 500, 0] ∧ size_hints_descending r.1.size_hints := by
  have h : (wnck_tasklist_size_request (sample_priv .AUTO_GROUP 80)
        { x := 0, y := 0, width := 300, height := 24 } 100).map (fun r => r.1.size_hints) =
      .ok [700, 560, 500, 0] := by
    with_unfolding_all decide
  cases hr : wnck_tasklist_size_request (sample_priv .AUTO_GROUP 80)
      { x := 0, y := 0, width := 300, height := 24 } 100 with
  | error e => rw [hr] at h; exact absurd h (by simp [Except.map])
  | ok r =>
    rw [hr] at h
    refine ⟨r, rfl, by simpa [Except.map] using h, ?_⟩
    exact (size_hints_descend (sample_priv .AUTO_GROUP 80)
      { x := 0, y := 0, width := 300, height := 24 } 100 (by decide) (by decide)).1 r hr

/-! ## Activation of a window from its button -/

/-- Making a window task the active task succeeds: the `g_assert` on the type
holds, the task is stored in `active_task`, and only toggle buttons are
touched. -/
theorem change_active_task_window (priv : WnckTasklistPrivate) (t : WindowTask) :
    ∃ priv2 calls2,
      wnck_tasklist_change_active_task priv (some (.window t)) = .ok (priv2, calls2) ∧
      priv2.active_task = some t.ptr ∧
      ∀ c ∈ calls2, ∃ button is_active, c = Call.gtk_toggle_button_set_active button is_active := by
  have htog : ∀ (o : Option Nat) (b : Bool), ∀ c ∈ toggle_calls o b,
      ∃ button is_active, c = Call.gtk_toggle_button_set_active button is_active := by
    intro o b c hc
    cases o with
    | none => simp [toggle_calls] at hc
    | some p => simp only [toggle_calls, List.mem_singleton] at hc; exact ⟨p, b, hc⟩
  unfold wnck_tasklist_change_active_task
  by_cases h1 : priv.active_task = some t.ptr
  · refine ⟨priv, [], ?_, h1, by simp⟩
    simp [h1, WnckTask.ptr]
  · have h1' : ¬ (some t.ptr = priv.active_task) := fun e => h1 e.symm
    simp only [Option.isSome_some, Option.map_some', WnckTask.ptr, h1', and_false, if_false,
      WnckTask.type, ne_eq, Option.some.injEq, reduceCtorEq, not_false_eq_true, or_true,
      not_true_eq_false]
    split
    · refine ⟨_, _, rfl, rfl, ?_⟩
      intro c hc
      rcases List.mem_append.mp hc with h | h
      · exact htog _ _ c h
      · exact htog _ _ c h
    · refine ⟨_, _, rfl, rfl, ?_⟩
      intro c hc
      simp only [List.mem_append] at hc
      rcases hc with ((h | h) | h) | h <;> exact htog _ _ c h

/-- The end of an activation returns, with the task as the active task; it adds
to the calls already made nothing but timeout and toggle-button calls. -/
theorem activate_task_window_finish_spec (priv : WnckTasklistPrivate) (timeout_id : Nat)
    (t : WindowTask) (calls : List Call) :
    ∃ r, activate_task_window_finish priv timeout_id (.window t) calls = .ok r ∧
      r.priv.active_task = some t.ptr ∧ r.task = .window t ∧
      (∀ c ∈ calls, c ∈ r.calls) ∧
      (∀ xid, Call.wnck_window_minimize xid ∈ r.calls → Call.wnck_window_minimize xid ∈ calls) := by
  obtain ⟨priv2, calls2, h, hact, htog⟩ := change_active_task_window
    { priv with activate_timeout_id := timeout_id } t
  unfold activate_task_window_finish
  simp only [h]
  refine ⟨_, rfl, hact, rfl, ?_, ?_⟩
  · intro c hc
    simp only [List.mem_append]
    exact Or.inl (Or.inl (Or.inl hc))
  · intro xid hx
    simp only [List.mem_append, List.mem_singleton, reduceCtorEq, or_false] at hx
    rcases hx with (hx | hx) | hx
    · exact hx
    · split at hx
      · simp at hx
      · simp at hx
    · obtain ⟨b, a, e⟩ := htog _ hx
      exact absurd e (by simp)

/-- C9. For a task with a window, `wnck_tasklist_activate_task_window` returns,
and it minimizes the window exactly when the window is not minimized, was
active (`was_active`, or `wnck_window_transient_is_most_recently_activated`)
and is on the active workspace or on no workspace: then the one call made is
`wnck_window_minimize`, the private data of the tasklist (so its active task)
is unchanged and `was_active` is cleared.  In every other case the window is
activated, never minimized, and the task becomes the active task. -/
theorem activate_or_minimize (priv : WnckTasklistPrivate) (screen : WnckScreen)
    (timeout_id : Nat) (t : WindowTask) (timestamp : Nat) :
    ∃ r, wnck_tasklist_activate_task_window priv screen timeout_id (.window t) timestamp
        = .ok r ∧
      if t.window.state_minimized = false ∧
          (t.was_active = true ∨ t.window.transient_is_most_recently_activated = true) ∧
          (t.window.workspace = none ∨ screen.active_workspace = t.window.workspace) then
        r.calls = [Call.wnck_window_minimize t.window.xid] ∧ r.priv = priv ∧
          r.task = .window { t with was_active := false }
      else
        Call.wnck_window_activate_transient t.window.xid timestamp ∈ r.calls ∧
          (∀ xid, Call.wnck_window_minimize xid ∉ r.calls) ∧
          r.priv.active_task = some t.ptr ∧ r.task = .window t := by
  unfold wnck_tasklist_activate_task_window
  simp only
  by_cases hmin : t.window.state_minimized = true
  · simp only [hmin, if_true, Bool.true_eq_false, false_and, if_false]
    obtain ⟨r, hr, hact, htask, hin, hmz⟩ := activate_task_window_finish_spec priv timeout_id t
      ((match t.window.workspace with
        | some ws =>
          if screen.active_workspace ≠ t.window.workspace ∧
              (!priv.switch_workspace_on_unminimize) = true then
            [Call.wnck_workspace_activate ws timestamp]
          else []
        | none => []) ++ [Call.wnck_window_activate_transient t.window.xid timestamp])
    refine ⟨r, hr, hin _ (by simp), ?_, hact, htask⟩
    intro xid hx
    have := hmz xid hx
    simp only [List.mem_append, List.mem_singleton, reduceCtorEq, or_false] at this
    split at this
    · split at this <;> simp at this
    · simp at this
  · have hmin' : t.window.state_minimized = false := by
      cases h : t.window.state_minimized
      · rfl
      · exact absurd h hmin
    simp only [hmin', Bool.false_eq_true, if_false, true_and]
    by_cases hc : (t.was_active = true ∨ t.window.transient_is_most_recently_activated = true) ∧
        (t.window.workspace = none ∨ screen.active_workspace = t.window.workspace)
    · simp only [hc, and_self, if_true]
      exact ⟨_, rfl, rfl, rfl, rfl⟩
    · simp only [hc, if_false]
      obtain ⟨r, hr, hact, htask, hin, hmz⟩ := activate_task_window_finish_spec priv timeout_id t
        ((match t.window.workspace with
          | some ws => [Call.wnck_workspace_activate ws timestamp]
          | none => []) ++ [Call.wnck_window_activate_transient t.window.xid timestamp])
      refine ⟨r, hr, hin _ (by simp), ?_, hact, htask⟩
      intro xid hx
      have := hmz xid hx
      simp only [List.mem_append, List.mem_singleton, reduceCtorEq, or_false] at this
      split at this <;> simp at this

/-- C4 (what the code does). The minimized window of `sample_minimized_task` is on
workspace 1 and the active workspace is workspace 0.  With
`switch_workspace_on_unminimize` TRUE the tasklist does not call
`wnck_workspace_activate`; with FALSE it activates workspace 1. -/
theorem activate_minimized_switch_inverted :
    (wnck_tasklist_activate_task_window
        { sample_priv .AUTO_GROUP 80 with switch_workspace_on_unminimize := true }
        sample_screen 9 (.window sample_minimized_task) 5).map (fun r => r.calls) =
      .ok [Call.wnck_window_activate_transient 4 5, Call.g_timeout_add 500,
        Call.gtk_toggle_button_set_active 4 true, Call.gtk_toggle_button_set_active 101 true] ∧
    (wnck_tasklist_activate_task_window
        { sample_priv .AUTO_GROUP 80 with switch_workspace_on_unminimize := false }
        sample_screen 9 (.window sample_minimized_task) 5).map (fun r => r.calls) =
      .ok [Call.wnck_workspace_activate 1 5, Call.wnck_window_activate_transient 4 5,
        Call.g_timeout_add 500, Call.gtk_toggle_button_set_active 4 true,
        Call.gtk_toggle_button_set_active 101 true] := by
  constructor <;> decide

/-! ## Windows included in the tasklist -/

/-- C5 (counterexample). With `include_all_workspaces` FALSE and an active workspace
that has a viewport, `wnck_tasklist_include_window` returns TRUE for a window
that needs attention on another workspace, which is not in the viewport of
the active workspace. -/
theorem include_window_outside_viewport :
    (sample_priv .AUTO_GROUP 80).include_all_workspaces = false ∧
    sample_screen.active_workspace = some 0 ∧
    sample_screen.workspace_is_virtual 0 = true ∧
    wnck_tasklist_include_window (sample_priv .AUTO_GROUP 80) sample_screen
      sample_urgent_window = true ∧
    sample_screen.window_is_in_viewport sample_urgent_window 0 = false := by
  decide

/-- C5 (amended). With `include_all_workspaces` FALSE and an active workspace `ws`
that has a viewport, every window for which `wnck_tasklist_include_window`
returns TRUE is pinned, or needs attention (itself or a transient), or is on
the active workspace and in its viewport. -/
theorem include_window_in_viewport (priv : WnckTasklistPrivate) (screen : WnckScreen)
    (win : WnckWindow) (ws : Nat)
    (hall : priv.include_all_workspaces = false)
    (hactive : screen.active_workspace = some ws)
    (hvirtual : screen.workspace_is_virtual ws = true)
    (hinc : wnck_tasklist_include_window priv screen win = true) :
    win.is_pinned = true ∨ win.or_transient_needs_attention = true ∨
      (win.workspace = some ws ∧ screen.window_is_in_viewport win ws = true) := by
  unfold wnck_tasklist_include_window tasklist_include_window_impl at hinc
  simp only [hall, hactive, hvirtual, Bool.not_false, Bool.true_and, Bool.false_eq_true,
    if_false, Bool.not_true] at hinc
  split at hinc
  · exact absurd hinc (by simp)
  · split at hinc
    · exact absurd hinc (by simp)
    · split at hinc
      · rename_i hp; exact Or.inl hp
      · split at hinc
        · rename_i hn; exact Or.inr (Or.inl hn)
        · split at hinc
          · exact absurd hinc (by simp)
          · rename_i hws
            refine Or.inr (Or.inr ⟨?_, hinc⟩)
            exact (not_not.mp hws).symm

/-- C5 (amended), on a window of the sample tasklist, which is on the active
workspace and in its viewport. -/
theorem include_window_in_viewport_witness :
    wnck_tasklist_include_window (sample_priv .AUTO_GROUP 80) sample_screen
      (sample_window 1 "x" 1) = true ∧
    ((sample_window 1 "x" 1).is_pinned = true ∨
      (sample_window 1 "x" 1).or_transient_needs_attention = true ∨
      ((sample_window 1 "x" 1).workspace = some 0 ∧
        sample_screen.window_is_in_viewport (sample_window 1 "x" 1) 0 = true)) :=
  ⟨by decide, include_window_in_viewport (sample_priv .AUTO_GROUP 80) sample_screen
    (sample_window 1 "x" 1) 0 (by decide) (by decide) (by decide) (by decide)⟩

/-! ## The fade effect -/

/-- Whenever `wnck_task_button_glow` returns FALSE, `glow_factor` is within
0.05 of half of `fade-opacity`, whatever the cosine. -/
theorem button_glow_stops_near_half (task : TaskGlow) (style : FadeStyle) (now : ℚ)
    (cos_pi : ℚ → ℚ)
    (h : (wnck_task_button_glow task style now cos_pi).2.1 = false) :
    ABS ((wnck_task_button_glow task style now cos_pi).1.glow_factor -
      style.fade_opacity * (1 / 2)) < 5 / 100 := by
  have hzero : ABS (style.fade_opacity * (1 / 2) - style.fade_opacity * (1 / 2)) < 5 / 100 := by
    simp only [sub_self, ABS]
    norm_num
  unfold wnck_task_button_glow at h ⊢
  by_cases hs : task.glow_start_time ≤ G_MINDOUBLE
  · simp only [hs, if_true] at h ⊢
    generalize cos_pi ((now - now) * 2 / style.fade_loop_time) = cosine at h ⊢
    by_cases hb : task.button_glow = 0 <;>
    by_cases ht : now - (task.start_needs_attention : ℚ) >
      style.fade_loop_time * 1 * (style.fade_max_loops : ℚ) <;>
    by_cases hd : ABS (style.fade_opacity * (1 / 2 - 1 / 2 * cosine) -
      style.fade_opacity * (1 / 2)) < 5 / 100 <;>
    simp only [hb, ht, hd, if_true, if_false, decide_True, decide_False, Bool.not_true,
      Bool.not_false, Bool.false_eq_true, reduceCtorEq] at h ⊢ <;>
    exact hzero
  · simp only [hs, if_false] at h ⊢
    generalize cos_pi ((now - task.glow_start_time) * 2 / style.fade_loop_time) = cosine at h ⊢
    by_cases hb : task.button_glow = 0 <;>
    by_cases ht : now - (task.start_needs_attention : ℚ) >
      style.fade_loop_time * 1 * (style.fade_max_loops : ℚ) <;>
    by_cases hd : ABS (style.fade_opacity * (1 / 2 - 1 / 2 * cosine) -
      style.fade_opacity * (1 / 2)) < 5 / 100 <;>
    simp only [hb, ht, hd, if_true, if_false, decide_True, decide_False, Bool.not_true,
      Bool.not_false, Bool.false_eq_true, reduceCtorEq] at h ⊢ <;>
    exact hzero

/-- C10 (what the code does). With the default style (`fade-opacity` 0.8,
`fade-loop-time` 3, `fade-max-loops` 5), a running timeout, the effect started
at time 1 and the time now 16.75, the loops are over (16.75 > 15) and the
phase is 10.5 * M_PI, where the cosine is 0 (here: within 0.01 of 0, which
allows for the rounding of doubles).  `wnck_task_button_glow` returns FALSE
with `glow_factor` within 0.004 of 0.4, which is not `fade-opacity`. -/
theorem button_glow_stops_at_half (cos_pi : ℚ → ℚ) (hcos : ABS (cos_pi (21 / 2)) ≤ 1 / 100) :
    (wnck_task_button_glow sample_glow sample_style (67 / 4) cos_pi).2.1 = false ∧
    ABS ((wnck_task_button_glow sample_glow sample_style (67 / 4) cos_pi).1.glow_factor
      - 2 / 5) ≤ 1 / 250 ∧
    (wnck_task_button_glow sample_glow sample_style (67 / 4) cos_pi).1.glow_factor ≠
      sample_style.fade_opacity := by
  have hs : ¬ ((1 : ℚ) ≤ G_MINDOUBLE) := by
    unfold G_MINDOUBLE
    rw [not_le, div_lt_one (by positivity)]
    exact one_lt_pow₀ (by norm_num) (by norm_num)
  have hphase : ((67 / 4 : ℚ) - 1) * 2 / 3 = 21 / 2 := by norm_num
  have hc : -(1 / 100 : ℚ) ≤ cos_pi (21 / 2) ∧ cos_pi (21 / 2) ≤ 1 / 100 := by
    unfold ABS at hcos
    split at hcos <;> constructor <;> linarith
  have hnear : ABS (4 / 5 * (1 / 2 - 1 / 2 * cos_pi (21 / 2)) - 4 / 5 * (1 / 2)) < 5 / 100 := by
    unfold ABS
    split <;> linarith [hc.1, hc.2]
  have hlate : (67 / 4 : ℚ) - ((0 : Int) : ℚ) > 3 * 1 * ((5 : Int) : ℚ) := by norm_num
  have h : wnck_task_button_glow sample_glow sample_style (67 / 4) cos_pi =
      ({ sample_glow with glow_factor := 4 / 5 * (1 / 2 - 1 / 2 * cos_pi (21 / 2)) }, false,
        [Call.gtk_widget_queue_draw 4, Call.g_source_remove 7]) := by
    simp only [wnck_task_button_glow, sample_glow, sample_style, hs, if_false, hphase, hnear,
      hlate, wnck_task_stop_glow]
    simp
  rw [h]
  refine ⟨rfl, ?_, ?_⟩
  · simp only
    unfold ABS
    split <;> linarith [hc.1, hc.2]
  · simp only [sample_style]
    intro he
    linarith [hc.1, hc.2]

/-- C10, with `sample_cos_pi`, which is 0 at 10.5. -/
theorem button_glow_stops_at_half_witness :
    ABS (sample_cos_pi (21 / 2)) ≤ 1 / 100 ∧
    (wnck_task_button_glow sample_glow sample_style (67 / 4) sample_cos_pi).2.1 = false ∧
    ABS ((wnck_task_button_glow sample_glow sample_style (67 / 4)
      sample_cos_pi).1.glow_factor - 2 / 5) ≤ 1 / 250 ∧
    (wnck_task_button_glow sample_glow sample_style (67 / 4) sample_cos_pi).1.glow_factor ≠
      sample_style.fade_opacity :=
  ⟨by with_unfolding_all decide,
    button_glow_stops_at_half sample_cos_pi (by with_unfolding_all decide)⟩

/-! ## Lists: sorting, removal, scoring -/

theorem g_list_insert_sorted_perm {α : Type} (c : α → α → Int) (x : α) (l : List α) :
    (g_list_insert_sorted c x l).Perm (x :: l) := by
  induction l with
  | nil => simp [g_list_insert_sorted]
  | cons y l ih =>
    simp only [g_list_insert_sorted]
    split
    · exact List.Perm.refl _
    · exact ((List.Perm.cons y ih).trans (List.Perm.swap x y l))

/-- Sorting permutes the list. -/
theorem g_list_sort_perm {α : Type} (l : List α) (c : α → α → Int) :
    (g_list_sort l c).Perm l := by
  induction l with
  | nil => simp [g_list_sort]
  | cons x l ih =>
    simp only [g_list_sort]
    exact (g_list_insert_sorted_perm c x _).trans (List.Perm.cons x ih)

/-- In a list of tasks with different addresses, `g_list_remove` takes out the
task whose address it is given. -/
theorem g_list_remove_perm {β : Type} (f : ClassGroupTask → β) (l : List ClassGroupTask)
    (t : ClassGroupTask) (ht : t ∈ l) (hnd : (l.map (fun g => g.ptr)).Nodup) :
    (l.map f).Perm (f t :: (g_list_remove l (some t.ptr)).map f) := by
  induction l with
  | nil => simp at ht
  | cons x xs ih =>
    simp only [List.map_cons, List.nodup_cons] at hnd
    simp only [g_list_remove]
    split
    · rename_i hx
      have hxt : x.ptr = t.ptr := Option.some.inj hx
      have : t = x := by
        rcases List.mem_cons.mp ht with e | e
        · exact e
        · exfalso
          apply hnd.1
          rw [hxt]
          exact List.mem_map_of_mem (fun g => g.ptr) e
      rw [this]
      exact List.Perm.refl _
    · rename_i hx
      have hmem : t ∈ xs := by
        rcases List.mem_cons.mp ht with e | e
        · exact absurd (by rw [e]) hx
        · exact e
      simp only [List.map_cons]
      exact (List.Perm.cons (f x) (ih hmem hnd.2)).trans (List.Perm.swap (f t) (f x) _)

/-- Scoring leaves the address and the windows of every group alone. -/
theorem score_groups_from_map {β : Type} (f : Nat → List WindowTask → β)
    (l : List ClassGroupTask) (first_name : Option String) :
    (score_groups_from l first_name).map (fun g => f g.ptr g.windows) =
      l.map (fun g => f g.ptr g.windows) := by
  induction l generalizing first_name with
  | nil => simp [score_groups_from]
  | cons g l ih => simp [score_groups_from, ih]

theorem score_groups_once_map {β : Type} (f : Nat → List WindowTask → β)
    (score_set : Bool) (l : List ClassGroupTask) :
    (score_groups_once score_set l).map (fun g => f g.ptr g.windows) =
      l.map (fun g => f g.ptr g.windows) := by
  unfold score_groups_once
  split
  · rfl
  · exact score_groups_from_map f l none

/-! ## The loop "Allocate children" -/

theorem layout_n_rows_pos (a : GtkAllocation) (w h n : Int) (lay : Layout)
    (hl : wnck_tasklist_layout a w h n = .ok lay) (hn : n ≠ 0) :
    1 ≤ lay.n_rows ∧ 1 ≤ lay.n_cols := by
  unfold wnck_tasklist_layout at hl
  simp only [hn, if_false] at hl
  split at hl
  · exact absurd hl (by simp)
  · cases hl
    exact ⟨MAX_one_le _, MAX_one_le _⟩

theorem size_allocate_children_returns (a : GtkAllocation) (rtl : Bool)
    (n_rows n_cols total_width : Int) (l : List WnckTask) (i : Int)
    (h : l = [] ∨ (n_rows ≠ 0 ∧ n_cols ≠ 0)) :
    ∃ calls, size_allocate_children a rtl n_rows n_cols total_width l i = .ok calls := by
  induction l generalizing i with
  | nil => exact ⟨[], rfl⟩
  | cons t l ih =>
    rcases h with h | ⟨hr, hc⟩
    · exact absurd h (by simp)
    · obtain ⟨calls, hcalls⟩ := ih (i + 1) (Or.inr ⟨hr, hc⟩)
      simp only [size_allocate_children, hr, hc, if_false, hcalls]
      exact ⟨_, rfl⟩

/-- The calls of the loop "Allocate children": every task of the list is made
visible, and no other button is touched. -/
theorem size_allocate_children_calls (a : GtkAllocation) (rtl : Bool)
    (n_rows n_cols total_width : Int) (l : List WnckTask) (i : Int) (calls : List Call)
    (h : size_allocate_children a rtl n_rows n_cols total_width l i = .ok calls) :
    (∀ t ∈ l, Call.gtk_widget_set_child_visible t.ptr true ∈ calls) ∧
    (∀ b v, Call.gtk_widget_set_child_visible b v ∈ calls →
      v = true ∧ b ∈ l.map WnckTask.ptr) := by
  induction l generalizing i calls with
  | nil =>
    simp only [size_allocate_children] at h
    cases h
    simp
  | cons t l ih =>
    simp only [size_allocate_children] at h
    split at h
    · exact absurd h (by simp)
    · split at h
      · exact absurd h (by simp)
      · split at h
        · exact absurd h (by simp)
        · rename_i calls1 hc1
          obtain ⟨ih1, ih2⟩ := ih (i + 1) calls1 hc1
          cases h
          constructor
          · intro t1 ht1
            rcases List.mem_cons.mp ht1 with e | e
            · rw [e]; simp
            · simp only [List.mem_cons, reduceCtorEq, false_or]
              exact Or.inr (ih1 t1 e)
          · intro b v hb
            simp only [List.mem_cons, reduceCtorEq, false_or, Call.gtk_widget_set_child_visible.injEq]
              at hb
            rcases hb with ⟨e1, e2⟩ | hb
            · exact ⟨e2, by rw [e1]; simp⟩
            · obtain ⟨hv, hm⟩ := ih2 b v hb
              exact ⟨hv, List.mem_cons_of_mem _ hm⟩

/-- A button that some call hides and no call shows is hidden in the end. -/
theorem child_visible_false (calls : List Call) (button : Nat)
    (hex : Call.gtk_widget_set_child_visible button false ∈ calls)
    (hall : Call.gtk_widget_set_child_visible button true ∉ calls) :
    child_visible calls button = some false := by
  unfold child_visible
  induction calls using List.reverseRecOn with
  | nil => simp at hex
  | append_singleton cs c ih =>
    rw [List.foldl_append]
    simp only [List.foldl_cons, List.foldl_nil]
    simp only [List.mem_append, List.mem_singleton, not_or] at hex hall
    cases c with
    | gtk_widget_set_child_visible b v =>
      by_cases hb : b = button
      · simp only [hb, if_true]
        cases v with
        | false => rfl
        | true => exact absurd (by rw [hb]) hall.2
      · simp only [hb, if_false]
        rcases hex with h | h
        · exact ih h hall.1
        · exact absurd (by cases h; rfl) hb
    | _ =>
      simp only
      rcases hex with h | h
      · exact ih h hall.1
      · exact absurd h (by simp)

/-- A button that some call shows and no later call hides is visible in the
end. -/
theorem child_visible_true (calls1 calls2 : List Call) (button : Nat)
    (hex : Call.gtk_widget_set_child_visible button true ∈ calls2)
    (hall : Call.gtk_widget_set_child_visible button false ∉ calls2) :
    child_visible (calls1 ++ calls2) button = some true := by
  unfold child_visible
  rw [List.foldl_append]
  generalize List.foldl _ none calls1 = start
  induction calls2 using List.reverseRecOn with
  | nil => simp at hex
  | append_singleton cs c ih =>
    rw [List.foldl_append]
    simp only [List.foldl_cons, List.foldl_nil]
    simp only [List.mem_append, List.mem_singleton, not_or] at hex hall
    cases c with
    | gtk_widget_set_child_visible b v =>
      by_cases hb : b = button
      · simp only [hb, if_true]
        cases v with
        | true => rfl
        | false => exact absurd (by rw [hb]) hall.2
      · simp only [hb, if_false]
        rcases hex with h | h
        · exact ih h hall.1
        · exact absurd (by cases h; rfl) hb
    | _ =>
      simp only
      rcases hex with h | h
      · exact ih h hall.1
      · exact absurd h (by simp)

/-! ## The grouping loop of wnck_tasklist_size_allocate -/

theorem get_highest_scored_snd (l : List ClassGroupTask) (t : ClassGroupTask)
    (h : (wnck_task_get_highest_scored l).1 = some t) :
    (wnck_task_get_highest_scored l).2 = g_list_remove l (some t.ptr) := by
  simp only [wnck_task_get_highest_scored] at h ⊢
  rw [h]
  rfl

/-- A pass through the loop body of `wnck_tasklist_size_allocate` returns, keeps
`size_allocate_inv`, and shortens the list of groups by one. -/
theorem size_allocate_body_inv (priv : WnckTasklistPrivate) (c : String → String → Int)
    (a : GtkAllocation) (nw ns : Int) (s : SizeAllocateState)
    (hh : priv.max_button_height ≠ 0)
    (hnd0 : (priv.class_groups.map (fun g => g.ptr)).Nodup)
    (hI : size_allocate_inv priv a nw ns s) (hne : s.ungrouped_class_groups ≠ []) :
    ∃ s1, size_allocate_body priv c a nw ns s = .ok s1 ∧ size_allocate_inv priv a nw ns s1 ∧
      s1.ungrouped_class_groups.length + 1 = s.ungrouped_class_groups.length := by
  obtain ⟨hW, hS, hN, hC, hL, hP, hF, hG, hH⟩ := hI
  obtain ⟨hlen, hsc⟩ := score_groups_once_spec s.score_set s.ungrouped_class_groups hW hS
  have hmapptr := score_groups_once_map (fun p _ => p) s.score_set s.ungrouped_class_groups
  have hmaplen := score_groups_once_map (fun _ w => (w.length : Int)) s.score_set
    s.ungrouped_class_groups
  have hmapkey := score_groups_once_map collapsed_button s.score_set s.ungrouped_class_groups
  have hmapsig := score_groups_once_map (fun p w => (p, w)) s.score_set
    s.ungrouped_class_groups
  simp only at hmapptr hmaplen hmapkey hmapsig
  generalize hscored : score_groups_once s.score_set s.ungrouped_class_groups = scored
    at hlen hsc hmapptr hmaplen hmapkey hmapsig
  have hne1 : scored ≠ [] := by
    intro e
    rw [e] at hlen
    exact hne (List.length_eq_zero.mp hlen.symm)
  obtain ⟨t, ht⟩ := get_highest_scored_some scored hne1 (fun g hg => (hsc g hg).2)
  obtain ⟨hmem, hsub⟩ := get_highest_scored_mem scored
  obtain ⟨htmem, htlen⟩ := hmem t ht
  have hsnd := get_highest_scored_snd scored t ht
  have hlen2 : (g_list_remove scored (some t.ptr)).length + 1 =
      s.ungrouped_class_groups.length := by
    rw [← hsnd, htlen, hlen]
  have hnd1 : (scored.map (fun g => g.ptr)).Nodup := by rw [hmapptr]; exact hN
  have hperm : ∀ {β : Type} (f : ClassGroupTask → β),
      (scored.map f).Perm (f t :: (g_list_remove scored (some t.ptr)).map f) :=
    fun f => g_list_remove_perm f scored t htmem hnd1
  -- every scored group is one of the groups of the tasklist
  have hG1 : ∀ g ∈ scored, ∃ g0 ∈ priv.class_groups, g0.ptr = g.ptr ∧ g0.windows = g.windows := by
    intro g hg
    have h1 : (g.ptr, g.windows) ∈ scored.map (fun g => (g.ptr, g.windows)) :=
      List.mem_map_of_mem (fun g => (g.ptr, g.windows)) hg
    rw [hmapsig] at h1
    obtain ⟨g1, hg1, e⟩ := List.mem_map.mp h1
    obtain ⟨g0, hg0, e1, e2⟩ := hG g1 hg1
    simp only [Prod.mk.injEq] at e
    exact ⟨g0, hg0, by rw [e1, e.1], by rw [e2, e.2]⟩
  have htw := (hsc t htmem).1
  obtain ⟨lay, hlay⟩ := layout_returns a priv.max_button_width priv.max_button_height
    (ns + nw - (s.n_grouped_buttons + ((t.windows.length : Int) - 1))) hh
  have hsum : (s.ungrouped_class_groups.map (fun g => (g.windows.length : Int))).sum =
      (t.windows.length : Int) +
        ((g_list_remove scored (some t.ptr)).map (fun g => (g.windows.length : Int))).sum := by
    rw [← hmaplen, (hperm (fun g => (g.windows.length : Int))).sum_eq, List.sum_cons]
  have hkey : (s.ungrouped_class_groups.map (fun g => collapsed_button g.ptr g.windows)).Perm
      (collapsed_button t.ptr t.windows ::
        (g_list_remove scored (some t.ptr)).map (fun g => collapsed_button g.ptr g.windows)) := by
    rw [← hmapkey]; exact hperm _
  have hptr := hperm (fun g => g.ptr)
  have hnd2 := (hptr.nodup_iff.mp hnd1)
  rw [List.nodup_cons] at hnd2
  -- the parts of the invariant that do not depend on the size of the group
  have hK1 : ∀ g ∈ g_list_remove scored (some t.ptr), g.windows ≠ [] :=
    fun g hg => (hsc g (g_list_remove_mem _ _ g hg)).1
  have hK2 : ∀ g ∈ g_list_remove scored (some t.ptr),
      ∃ q, g.grouping_score = some q ∧ (-1000000000 : ℚ) ≤ q :=
    fun g hg => (hsc g (g_list_remove_mem _ _ g hg)).2
  have hK8 : ∀ g ∈ g_list_remove scored (some t.ptr),
      ∃ g0 ∈ priv.class_groups, g0.ptr = g.ptr ∧ g0.windows = g.windows :=
    fun g hg => hG1 g (g_list_remove_mem _ _ g hg)
  have hK6 : ∀ vis : List Nat,
      (vis ++ s.ungrouped_class_groups.map (fun g => collapsed_button g.ptr g.windows)).Perm
        (priv.class_groups.map (fun g => collapsed_button g.ptr g.windows)) →
      ((collapsed_button t.ptr t.windows :: vis) ++
        (g_list_remove scored (some t.ptr)).map
          (fun g => collapsed_button g.ptr g.windows)).Perm
        (priv.class_groups.map (fun g => collapsed_button g.ptr g.windows)) := by
    intro vis hv
    refine List.Perm.trans ?_ hv
    refine List.Perm.trans ?_ (List.Perm.append_left vis hkey.symm)
    simp only [List.cons_append]
    exact List.perm_middle.symm
  -- the windows of a collapsed group are hidden
  have hK9 : ∀ calls1 : List Call,
      (1 < t.windows.length → ∀ w ∈ t.windows,
        Call.gtk_widget_set_child_visible w.ptr false ∈ s.calls ++ calls1) →
      ∀ g0 ∈ priv.class_groups, 1 < g0.windows.length →
        g0.ptr ∉ (g_list_remove scored (some t.ptr)).map (fun g => g.ptr) →
        ∀ w ∈ g0.windows, Call.gtk_widget_set_child_visible w.ptr false ∈ s.calls ++ calls1 := by
    intro calls1 hnew g0 hg0 hbig hnot w hw
    by_cases hin : g0.ptr ∈ s.ungrouped_class_groups.map (fun g => g.ptr)
    · rw [← hmapptr] at hin
      have h3 := (hptr.mem_iff).mp hin
      rcases List.mem_cons.mp h3 with e | e
      · obtain ⟨g1, hg1, e1, e2⟩ := hG1 t htmem
        have hsame : g0 = g1 := List.inj_on_of_nodup_map hnd0 hg0 hg1 (by rw [e, e1])
        rw [hsame, e2] at hbig hw
        exact hnew hbig w hw
      · exact absurd e hnot
    · exact List.mem_append.mpr (Or.inl (hH g0 hg0 hbig hin w hw))
  unfold size_allocate_body
  rw [hscored]
  simp only [ht, hlay, hsnd]
  by_cases hbig : t.windows.length > 1
  · simp only [hbig, if_true]
    refine ⟨_, rfl, ⟨hK1, fun _ => hK2, hnd2.2, ?_, hlay, ?_, ?_, hK8, ?_⟩, hlen2⟩
    · simp only [List.length_cons, Nat.cast_add, Nat.cast_one]
      omega
    · simp only [List.map_cons, WnckTask.ptr]
      have := hK6 (s.visible_tasks.map WnckTask.ptr) hP
      simp only [collapsed_button, hbig, if_true] at this ⊢
      exact this
    · intro c0 hc0
      rcases List.mem_append.mp hc0 with h | h
      · exact hF c0 h
      · obtain ⟨w, -, e⟩ := List.mem_map.mp h
        exact ⟨w.ptr, e.symm⟩
    · apply hK9
      intro _ w hw
      apply List.mem_append.mpr
      right
      exact List.mem_map.mpr ⟨w, ((g_list_sort_perm t.windows _).mem_iff).mpr hw, rfl⟩
  · cases hwin : t.windows with
    | nil => exact absurd hwin htw
    | cons w rest =>
      have hbig' : ¬ (w :: rest).length > 1 := by rw [← hwin]; exact hbig
      rw [hwin] at hsum hlay
      simp only [hwin, hbig', if_false]
      refine ⟨_, rfl, ⟨hK1, fun _ => hK2, hnd2.2, ?_, hlay, ?_, ?_, hK8, ?_⟩, hlen2⟩
      · simp only [List.length_cons, Nat.cast_add, Nat.cast_one] at hsum ⊢
        omega
      · simp only [List.map_cons, WnckTask.ptr]
        have := hK6 (s.visible_tasks.map WnckTask.ptr) hP
        rw [hwin] at this
        simp only [collapsed_button, hbig', if_false] at this ⊢
        exact this
      · intro c0 hc0
        rcases List.mem_append.mp hc0 with h | h
        · exact hF c0 h
        · exact ⟨t.ptr, List.mem_singleton.mp h⟩
      · apply hK9
        intro h1
        exact absurd h1 hbig

/-- The grouping loop of `wnck_tasklist_size_allocate` returns when it is given
a unit of fuel for every group, with its test false at the end. -/
theorem size_allocate_loop_inv (priv : WnckTasklistPrivate) (c : String → String → Int)
    (a : GtkAllocation) (nw ns gl : Int) (fuel : Nat) (s : SizeAllocateState)
    (hh : priv.max_button_height ≠ 0)
    (hnd0 : (priv.class_groups.map (fun g => g.ptr)).Nodup)
    (hI : size_allocate_inv priv a nw ns s)
    (hfuel : s.ungrouped_class_groups.length ≤ fuel) :
    ∃ s1, size_allocate_loop priv c a nw ns gl fuel s = .ok s1 ∧
      size_allocate_inv priv a nw ns s1 ∧ size_allocate_continues priv gl s1 = false := by
  induction fuel generalizing s with
  | zero =>
    have hnil : s.ungrouped_class_groups = [] := List.length_eq_zero.mp (by omega)
    have hc : size_allocate_continues priv gl s = false := by
      simp [size_allocate_continues, hnil]
    simp only [size_allocate_loop, hc]
    exact ⟨s, rfl, hI, hc⟩
  | succ fuel ih =>
    simp only [size_allocate_loop]
    by_cases hc : size_allocate_continues priv gl s = true
    · have hne : s.ungrouped_class_groups ≠ [] := by
        intro e
        simp [size_allocate_continues, e] at hc
      obtain ⟨s1, hb, hI1, hl1⟩ := size_allocate_body_inv priv c a nw ns s hh hnd0 hI hne
      simp only [hc, if_true, hb]
      exact ih s1 hI1 (by omega)
    · have hc' : size_allocate_continues priv gl s = false := by
        cases h : size_allocate_continues priv gl s
        · rfl
        · exact absurd h hc
      simp only [hc', Bool.false_eq_true, if_false]
      exact ⟨s, rfl, hI, hc'⟩

theorem flatten_windows_length (l : List ClassGroupTask) :
    (((l.map (fun g => g.windows)).flatten.length : Nat) : Int) =
      (l.map (fun g => (g.windows.length : Int))).sum := by
  induction l with
  | nil => simp
  | cons g l ih =>
    simp only [List.map_cons, List.flatten_cons, List.length_append, Nat.cast_add,
      List.sum_cons, ih]

theorem flatten_window_tasks_length (l : List ClassGroupTask) :
    (((l.map (fun g => g.windows.map WnckTask.window)).flatten.length : Nat) : Int) =
      (l.map (fun g => (g.windows.length : Int))).sum := by
  induction l with
  | nil => simp
  | cons g l ih =>
    simp only [List.map_cons, List.flatten_cons, List.length_append, Nat.cast_add,
      List.sum_cons, ih, List.length_map]

/-- The addresses of the class groups of a well-formed tasklist are different. -/
theorem well_formed_groups_nodup (priv : WnckTasklistPrivate)
    (hwf : tasklist_well_formed priv) : (priv.class_groups.map (fun g => g.ptr)).Nodup := by
  have h := hwf.2.2.1
  unfold all_task_ptrs at h
  rw [List.append_assoc, List.append_assoc] at h
  exact (List.nodup_append.mp h).1

/-- The locals at the head of the loop satisfy `size_allocate_inv`. -/
theorem size_allocate_start_inv (priv : WnckTasklistPrivate) (a : GtkAllocation)
    (lay : Layout) (hwf : tasklist_well_formed priv)
    (hlay : wnck_tasklist_layout a priv.max_button_width priv.max_button_height
      ((priv.startup_sequences.length : Int) + (priv.windows.length : Int)) = .ok lay) :
    size_allocate_inv priv a priv.windows.length priv.startup_sequences.length
      (size_allocate_start priv lay) := by
  refine ⟨hwf.1, fun h => absurd h (by simp [size_allocate_start]),
    well_formed_groups_nodup priv hwf, ?_, ?_, ?_, ?_, ?_, ?_⟩
  · simp [size_allocate_start]
  · simp only [size_allocate_start, sub_zero]
    exact hlay
  · simp only [size_allocate_start, List.map_nil, List.nil_append]
    exact List.Perm.refl _
  · intro c hc
    simp [size_allocate_start] at hc
  · intro g hg
    exact ⟨g, hg, rfl, rfl⟩
  · intro g0 hg0 _ hnot
    exfalso
    exact hnot (List.mem_map_of_mem (fun g => g.ptr) hg0)

/-- A run of `wnck_tasklist_size_allocate` on a well-formed tasklist returns:
the loop ends in locals `s` that satisfy `size_allocate_inv`, and the run ends
with the sorted visible tasks and the calls of the loop, those that hide the
class groups left, and those that place and show the visible tasks; there are
as many visible tasks as buttons were laid out. -/
theorem size_allocate_run (priv : WnckTasklistPrivate) (c : String → String → Int)
    (rtl : Bool) (a : GtkAllocation) (hwf : tasklist_well_formed priv) :
    ∃ lay s calls1 r,
      wnck_tasklist_layout a priv.max_button_width priv.max_button_height
        ((priv.startup_sequences.length : Int) + (priv.windows.length : Int)) = .ok lay ∧
      size_allocate_loop priv c a priv.windows.length priv.startup_sequences.length
        (MIN priv.grouping_limit priv.max_button_width) priv.class_groups.length
        (size_allocate_start priv lay) = .ok s ∧
      size_allocate_inv priv a priv.windows.length priv.startup_sequences.length s ∧
      size_allocate_continues priv (MIN priv.grouping_limit priv.max_button_width) s = false ∧
      size_allocate_children a rtl s.n_rows s.n_cols a.width
        (g_list_sort (size_allocate_visible priv s) (wnck_task_compare c)) 0 = .ok calls1 ∧
      wnck_tasklist_size_allocate priv c rtl a = .ok r ∧
      r.button_width = s.button_width ∧ r.n_cols = s.n_cols ∧ r.n_rows = s.n_rows ∧
      r.ungrouped_class_groups = s.ungrouped_class_groups ∧
      r.visible_tasks = g_list_sort (size_allocate_visible priv s) (wnck_task_compare c) ∧
      r.calls = s.calls ++ s.ungrouped_class_groups.map
        (fun g => Call.gtk_widget_set_child_visible g.ptr false) ++ calls1 ∧
      (r.visible_tasks.length : Int) =
        (priv.startup_sequences.length : Int) + (priv.windows.length : Int)
          - s.n_grouped_buttons := by
  obtain ⟨lay, hlay⟩ := layout_returns a priv.max_button_width priv.max_button_height
    ((priv.startup_sequences.length : Int) + (priv.windows.length : Int)) hwf.2.2.2
  obtain ⟨s, hloop, hI, hcont⟩ := size_allocate_loop_inv priv c a priv.windows.length
    priv.startup_sequences.length (MIN priv.grouping_limit priv.max_button_width)
    priv.class_groups.length (size_allocate_start priv lay) hwf.2.2.2
    (well_formed_groups_nodup priv hwf) (size_allocate_start_inv priv a lay hwf hlay)
    (by simp [size_allocate_start])
  -- the visible tasks are the buttons that were laid out
  have hcount : ((g_list_sort (size_allocate_visible priv s) (wnck_task_compare c)).length : Int)
      = (priv.startup_sequences.length : Int) + (priv.windows.length : Int)
        - s.n_grouped_buttons := by
    rw [(g_list_sort_perm _ _).length_eq]
    have h1 := hI.2.2.2.1
    have h2 := hwf.2.1.length_eq
    have h3 := flatten_windows_length priv.class_groups
    have h4 := flatten_window_tasks_length s.ungrouped_class_groups
    simp only [size_allocate_visible, List.length_append, List.length_map, Nat.cast_add] at h2 ⊢
    have h5 : (priv.windows.length : Int) =
        (((priv.class_groups.map (fun g => g.windows)).flatten.length : Nat) : Int) +
          (priv.windows_without_class_group.length : Int) := by
      exact_mod_cast h2
    omega
  have hchildren : g_list_sort (size_allocate_visible priv s) (wnck_task_compare c) = [] ∨
      (s.n_rows ≠ 0 ∧ s.n_cols ≠ 0) := by
    by_cases hnil : g_list_sort (size_allocate_visible priv s) (wnck_task_compare c) = []
    · exact Or.inl hnil
    · right
      have hpos : 0 < (g_list_sort (size_allocate_visible priv s) (wnck_task_compare c)).length :=
        List.length_pos.mpr hnil
      have := layout_n_rows_pos _ _ _ _ _ hI.2.2.2.2.1 (by omega)
      simp only at this
      constructor <;> omega
  obtain ⟨calls1, hcalls1⟩ := size_allocate_children_returns a rtl s.n_rows s.n_cols a.width
    _ 0 hchildren
  refine ⟨lay, s, calls1,
    { button_width := s.button_width
      n_cols := s.n_cols
      n_rows := s.n_rows
      ungrouped_class_groups := s.ungrouped_class_groups
      visible_tasks := g_list_sort (size_allocate_visible priv s) (wnck_task_compare c)
      calls := s.calls ++ s.ungrouped_class_groups.map
        (fun g => Call.gtk_widget_set_child_visible g.ptr false) ++ calls1
      windows := size_allocate_windows_sorted
        (g_list_sort (size_allocate_visible priv s) (wnck_task_compare c)) },
    hlay, hloop, hI, hcont, hcalls1, ?_, rfl, rfl, rfl, rfl, rfl, rfl, hcount⟩
  unfold wnck_tasklist_size_allocate
  simp only [hlay]
  unfold size_allocate_start at hloop
  unfold size_allocate_visible at hcalls1
  simp only [hloop, hcalls1]
  rfl

theorem size_allocate_body_fault (priv : WnckTasklistPrivate) (c : String → String → Int)
    (a : GtkAllocation) (nw ns : Int) (s : SizeAllocateState) :
    (∀ e, size_allocate_body priv c a nw ns s = .error e → e ≠ .out_of_fuel) ∧
    (∀ s1, size_allocate_body priv c a nw ns s = .ok s1 →
      s1.ungrouped_class_groups.length + 1 = s.ungrouped_class_groups.length) := by
  have hlen : (score_groups_once s.score_set s.ungrouped_class_groups).length =
      s.ungrouped_class_groups.length := by
    unfold score_groups_once
    split
    · rfl
    · exact score_groups_from_length _ _
  unfold size_allocate_body
  simp only
  split
  · exact ⟨fun e h => by cases h; simp, fun s1 h => absurd h (by simp)⟩
  · rename_i t ht
    have h1 := ((get_highest_scored_mem
      (score_groups_once s.score_set s.ungrouped_class_groups)).1 t ht).2
    split
    · rename_i e hshown
      refine ⟨fun e1 h => ?_, fun s1 h => absurd h (by simp)⟩
      cases h
      split at hshown
      · exact absurd hshown (by simp)
      · split at hshown
        · cases hshown; simp
        · exact absurd hshown (by simp)
    · split
      · rename_i e hl
        refine ⟨fun e1 h => ?_, fun s1 h => absurd h (by simp)⟩
        cases h
        rw [layout_fault _ _ _ _ _ hl]; simp
      · refine ⟨fun e h => absurd h (by simp), fun s1 h => ?_⟩
        cases h
        simp only
        omega

/-- The grouping loop of `wnck_tasklist_size_allocate` never runs out of fuel
when it is given a unit for every group. -/
theorem size_allocate_loop_fuel (priv : WnckTasklistPrivate) (c : String → String → Int)
    (a : GtkAllocation) (nw ns gl : Int) (fuel : Nat) (s : SizeAllocateState)
    (hfuel : s.ungrouped_class_groups.length ≤ fuel) :
    size_allocate_loop priv c a nw ns gl fuel s ≠ .error .out_of_fuel := by
  induction fuel generalizing s with
  | zero =>
    have hnil : s.ungrouped_class_groups = [] := List.length_eq_zero.mp (by omega)
    simp [size_allocate_loop, size_allocate_continues, hnil]
  | succ fuel ih =>
    simp only [size_allocate_loop]
    split
    · split
      · rename_i e hb
        intro h
        cases h
        exact (size_allocate_body_fault priv c a nw ns s).1 _ hb rfl
      · rename_i s1 hb
        have := (size_allocate_body_fault priv c a nw ns s).2 s1 hb
        exact ih s1 (by omega)
    · simp

theorem size_allocate_children_fault (a : GtkAllocation) (rtl : Bool)
    (n_rows n_cols total_width : Int) (l : List WnckTask) (i : Int) (e : Fault)
    (h : size_allocate_children a rtl n_rows n_cols total_width l i = .error e) :
    e = .division_by_zero := by
  induction l generalizing i with
  | nil => simp [size_allocate_children] at h
  | cons t l ih =>
    simp only [size_allocate_children] at h
    split at h
    · cases h; rfl
    · split at h
      · cases h; rfl
      · split at h
        · rename_i e1 he1
          cases h
          exact ih _ he1
        · exact absurd h (by simp)

/-- A run of `wnck_tasklist_size_allocate` that does not return stopped at a
fault of the C code, not for want of fuel. -/
theorem size_allocate_fuel (priv : WnckTasklistPrivate) (c : String → String → Int)
    (rtl : Bool) (a : GtkAllocation) :
    wnck_tasklist_size_allocate priv c rtl a ≠ .error .out_of_fuel := by
  unfold wnck_tasklist_size_allocate
  simp only
  split
  · rename_i e hl
    rw [layout_fault _ _ _ _ _ hl]; simp
  · split
    · rename_i lay hl e hloop
      intro h
      cases h
      exact size_allocate_loop_fuel _ _ _ _ _ _ _ _ (by simp) hloop
    · split
      · rename_i e hc
        rw [size_allocate_children_fault _ _ _ _ _ _ _ _ hc]; simp
      · simp

/-! ## Addresses in a well-formed tasklist -/

theorem flatten_nodup_same (l : List ClassGroupTask)
    (h : ((l.map (fun g => g.windows.map (fun w => w.ptr))).flatten).Nodup) :
    ∀ g ∈ l, ∀ g1 ∈ l, ∀ w ∈ g.windows, ∀ w1 ∈ g1.windows, w.ptr = w1.ptr → g = g1 := by
  induction l with
  | nil => intro g hg; simp at hg
  | cons x xs ih =>
    simp only [List.map_cons, List.flatten_cons] at h
    obtain ⟨-, h2, h3⟩ := List.nodup_append.mp h
    have hin : ∀ g ∈ xs, ∀ w ∈ g.windows,
        w.ptr ∈ (xs.map (fun g => g.windows.map (fun w => w.ptr))).flatten := by
      intro g hg w hw
      exact List.mem_flatten.mpr ⟨_, List.mem_map_of_mem _ hg,
        List.mem_map_of_mem (fun w => w.ptr) hw⟩
    intro g hg g1 hg1 w hw w1 hw1 e
    rcases List.mem_cons.mp hg with eg | hg' <;> rcases List.mem_cons.mp hg1 with eg1 | hg1'
    · rw [eg, eg1]
    · exfalso
      rw [eg] at hw
      exact h3 (List.mem_map_of_mem (fun w => w.ptr) hw) (by rw [e]; exact hin g1 hg1' w1 hw1)
    · exfalso
      rw [eg1] at hw1
      exact h3 (List.mem_map_of_mem (fun w => w.ptr) hw1) (by rw [← e]; exact hin g hg' w hw)
    · exact ih h2 g hg' g1 hg1' w hw w1 hw1 e

/-- In a well-formed tasklist the address of a window is not the address of a
class group, the addresses of class groups and of their windows are not those
of a window without class group or of a startup sequence, and a window is in
one class group. -/
theorem well_formed_ptrs (priv : WnckTasklistPrivate) (hwf : tasklist_well_formed priv) :
    (∀ g ∈ priv.class_groups, ∀ g1 ∈ priv.class_groups, ∀ w ∈ g1.windows, w.ptr ≠ g.ptr) ∧
    (∀ g ∈ priv.class_groups,
      g.ptr ∉ priv.windows_without_class_group.map (fun w => w.ptr) ∧
      g.ptr ∉ priv.startup_sequences.map (fun t => t.ptr)) ∧
    (∀ g ∈ priv.class_groups, ∀ w ∈ g.windows,
      w.ptr ∉ priv.windows_without_class_group.map (fun w => w.ptr) ∧
      w.ptr ∉ priv.startup_sequences.map (fun t => t.ptr)) ∧
    (∀ g ∈ priv.class_groups, ∀ g1 ∈ priv.class_groups, ∀ w ∈ g.windows, ∀ w1 ∈ g1.windows,
      w.ptr = w1.ptr → g = g1) := by
  have h := hwf.2.2.1
  unfold all_task_ptrs at h
  obtain ⟨h1, -, hS⟩ := List.nodup_append.mp h
  obtain ⟨h2, -, hO⟩ := List.nodup_append.mp h1
  obtain ⟨-, hWP, hGW⟩ := List.nodup_append.mp h2
  have hgp : ∀ g ∈ priv.class_groups, g.ptr ∈ priv.class_groups.map (fun g => g.ptr) :=
    fun g hg => List.mem_map_of_mem (fun g => g.ptr) hg
  have hwp : ∀ g ∈ priv.class_groups, ∀ w ∈ g.windows,
      w.ptr ∈ (priv.class_groups.map (fun g => g.windows.map (fun w => w.ptr))).flatten := by
    intro g hg w hw
    exact List.mem_flatten.mpr ⟨_, List.mem_map_of_mem _ hg,
      List.mem_map_of_mem (fun w => w.ptr) hw⟩
  refine ⟨?_, ?_, ?_, flatten_nodup_same priv.class_groups hWP⟩
  · intro g hg g1 hg1 w hw e
    exact hGW (hgp g hg) (by rw [← e]; exact hwp g1 hg1 w hw)
  · intro g hg
    constructor
    · intro hin
      exact hO (List.mem_append.mpr (Or.inl (hgp g hg))) hin
    · intro hin
      exact hS (List.mem_append.mpr (Or.inl (List.mem_append.mpr (Or.inl (hgp g hg))))) hin
  · intro g hg w hw
    constructor
    · intro hin
      exact hO (List.mem_append.mpr (Or.inr (hwp g hg w hw))) hin
    · intro hin
      exact hS (List.mem_append.mpr (Or.inl (List.mem_append.mpr (Or.inr (hwp g hg w hw))))) hin

/-! ## Grouping in wnck_tasklist_size_allocate -/

/-- The grouping loop reads the private data only through the policy and the
maximal size of a button, and the grouping limit only under
`WNCK_TASKLIST_AUTO_GROUP`. -/
theorem size_allocate_loop_limit (p1 p2 : WnckTasklistPrivate)
    (c : String → String → Int) (a : GtkAllocation) (nw ns gl1 gl2 : Int)
    (hg : p1.grouping = p2.grouping) (hw : p1.max_button_width = p2.max_button_width)
    (hh : p1.max_button_height = p2.max_button_height)
    (hauto : p1.grouping ≠ .AUTO_GROUP) (fuel : Nat) (s : SizeAllocateState) :
    size_allocate_loop p1 c a nw ns gl1 fuel s = size_allocate_loop p2 c a nw ns gl2 fuel s := by
  have hcont : ∀ s, size_allocate_continues p1 gl1 s = size_allocate_continues p2 gl2 s := by
    intro s
    have h2 : p2.grouping ≠ .AUTO_GROUP := by rw [← hg]; exact hauto
    simp only [size_allocate_continues, hg, h2, decide_False, Bool.false_and, Bool.or_false]
  have hbody : ∀ s, size_allocate_body p1 c a nw ns s = size_allocate_body p2 c a nw ns s := by
    intro s
    simp only [size_allocate_body, hw, hh]
  induction fuel generalizing s with
  | zero => simp only [size_allocate_loop, hcont]
  | succ fuel ih =>
    simp only [size_allocate_loop, hcont, hbody]
    split
    · split
      · rfl
      · exact ih _
    · rfl

/-- C6. Under `WNCK_TASKLIST_ALWAYS_GROUP` or `WNCK_TASKLIST_NEVER_GROUP`, two
runs of `wnck_tasklist_size_allocate` that differ only in `grouping_limit` end
alike: the same fault, or the same class groups left ungrouped, the same
`n_rows` and `n_cols`, the same visible tasks and the same calls on the
buttons, child allocations included. -/
theorem size_allocate_limit_irrelevant (priv : WnckTasklistPrivate)
    (g_utf8_collate : String → String → Int) (rtl : Bool) (allocation : GtkAllocation)
    (limit1 limit2 : Int) (h : priv.grouping ≠ .AUTO_GROUP) :
    wnck_tasklist_size_allocate { priv with grouping_limit := limit1 } g_utf8_collate rtl
        allocation =
      wnck_tasklist_size_allocate { priv with grouping_limit := limit2 } g_utf8_collate rtl
        allocation := by
  unfold wnck_tasklist_size_allocate
  simp only
  cases wnck_tasklist_layout allocation priv.max_button_width priv.max_button_height
      ((priv.startup_sequences.length : Int) + (priv.windows.length : Int)) with
  | error e => rfl
  | ok lay =>
    simp only
    rw [size_allocate_loop_limit { priv with grouping_limit := limit1 }
      { priv with grouping_limit := limit2 } g_utf8_collate allocation _ _
      (MIN limit1 priv.max_button_width) (MIN limit2 priv.max_button_width) rfl rfl rfl h]

/-- C6, on the sample tasklist under `WNCK_TASKLIST_ALWAYS_GROUP`, with the limits
80 and 10: both runs return, with both class groups collapsed into the
buttons 100 and 101. -/
theorem size_allocate_limit_irrelevant_witness :
    (wnck_tasklist_size_allocate { sample_priv .ALWAYS_GROUP 80 with grouping_limit := 80 }
        sample_collate false { x := 5, y := 7, width := 300, height := 24 }).map
      (fun r => (r.n_cols, r.n_rows, r.visible_tasks.map WnckTask.ptr)) =
      .ok (4, 1, [100, 101, 6, 200]) ∧
    wnck_tasklist_size_allocate { sample_priv .ALWAYS_GROUP 80 with grouping_limit := 80 }
        sample_collate false { x := 5, y := 7, width := 300, height := 24 } =
      wnck_tasklist_size_allocate { sample_priv .ALWAYS_GROUP 80 with grouping_limit := 10 }
        sample_collate false { x := 5, y := 7, width := 300, height := 24 } :=
  ⟨by with_unfolding_all decide,
    size_allocate_limit_irrelevant (sample_priv .ALWAYS_GROUP 80) sample_collate false
      { x := 5, y := 7, width := 300, height := 24 } 80 10 (by decide)⟩

theorem size_allocate_loop_stops (priv : WnckTasklistPrivate) (c : String → String → Int)
    (a : GtkAllocation) (nw ns gl : Int) (fuel : Nat) (s : SizeAllocateState)
    (h : size_allocate_continues priv gl s = false) :
    size_allocate_loop priv c a nw ns gl fuel s = .ok s := by
  cases fuel <;> simp [size_allocate_loop, h]

/-- A successful run of `wnck_tasklist_size_allocate` went through the layout of
the ungrouped mode, the grouping loop and the loop "Allocate children". -/
theorem size_allocate_ok (priv : WnckTasklistPrivate) (c : String → String → Int)
    (rtl : Bool) (a : GtkAllocation) (r : SizeAllocateResult)
    (h : wnck_tasklist_size_allocate priv c rtl a = .ok r) :
    ∃ lay s calls1,
      wnck_tasklist_layout a priv.max_button_width priv.max_button_height
        ((priv.startup_sequences.length : Int) + (priv.windows.length : Int)) = .ok lay ∧
      size_allocate_loop priv c a priv.windows.length priv.startup_sequences.length
        (MIN priv.grouping_limit priv.max_button_width) priv.class_groups.length
        (size_allocate_start priv lay) = .ok s ∧
      size_allocate_children a rtl s.n_rows s.n_cols a.width
        (g_list_sort (size_allocate_visible priv s) (wnck_task_compare c)) 0 = .ok calls1 ∧
      r.button_width = s.button_width ∧ r.n_cols = s.n_cols ∧ r.n_rows = s.n_rows ∧
      r.ungrouped_class_groups = s.ungrouped_class_groups ∧
      r.visible_tasks = g_list_sort (size_allocate_visible priv s) (wnck_task_compare c) ∧
      r.calls = s.calls ++ s.ungrouped_class_groups.map
        (fun g => Call.gtk_widget_set_child_visible g.ptr false) ++ calls1 := by
  unfold wnck_tasklist_size_allocate at h
  simp only at h
  split at h
  · exact absurd h (by simp)
  · rename_i lay hlay
    split at h
    · exact absurd h (by simp)
    · rename_i s hs
      split at h
      · exact absurd h (by simp)
      · rename_i calls1 hc
        cases h
        exact ⟨lay, s, calls1, hlay, hs, hc, rfl, rfl, rfl, rfl, rfl, rfl⟩

/-- The buttons shown at the end of a run are shown by its last calls. -/
theorem size_allocate_shown (a : GtkAllocation) (rtl : Bool) (n_rows n_cols w : Int)
    (l : List WnckTask) (calls0 calls1 : List Call)
    (h : size_allocate_children a rtl n_rows n_cols w l 0 = .ok calls1)
    (t : WnckTask) (ht : t ∈ l) :
    child_visible (calls0 ++ calls1) t.ptr = some true := by
  obtain ⟨h1, h2⟩ := size_allocate_children_calls a rtl n_rows n_cols w l 0 calls1 h
  apply child_visible_true calls0 calls1 t.ptr (h1 t ht)
  intro hf
  exact absurd (h2 _ _ hf).1 (by simp)

/-- The grouping loop gives the same result for any two amounts of fuel that
cover the groups left. -/
theorem size_allocate_loop_fuel_eq (priv : WnckTasklistPrivate) (c : String → String → Int)
    (a : GtkAllocation) (nw ns gl : Int) (k F : Nat) (s : SizeAllocateState)
    (hk : s.ungrouped_class_groups.length ≤ k) (hF : s.ungrouped_class_groups.length ≤ F) :
    size_allocate_loop priv c a nw ns gl k s = size_allocate_loop priv c a nw ns gl F s := by
  induction k generalizing F s with
  | zero =>
    have hnil : s.ungrouped_class_groups = [] := List.length_eq_zero.mp (by omega)
    have hc : size_allocate_continues priv gl s = false := by
      simp [size_allocate_continues, hnil]
    rw [size_allocate_loop_stops _ _ _ _ _ _ _ _ hc, size_allocate_loop_stops _ _ _ _ _ _ _ _ hc]
  | succ k ih =>
    cases F with
    | zero =>
      have hnil : s.ungrouped_class_groups = [] := List.length_eq_zero.mp (by omega)
      have hc : size_allocate_continues priv gl s = false := by
        simp [size_allocate_continues, hnil]
      rw [size_allocate_loop_stops _ _ _ _ _ _ _ _ hc,
        size_allocate_loop_stops _ _ _ _ _ _ _ _ hc]
    | succ F =>
      simp only [size_allocate_loop]
      split
      · cases hb : size_allocate_body priv c a nw ns s with
        | error e => rfl
        | ok s1 =>
          have hlen := (size_allocate_body_fault priv c a nw ns s).2 s1 hb
          exact ih F s1 (by omega) (by omega)
      · rfl

/-- The states in which the grouping loop enters its body satisfy
`size_allocate_inv` and the test of the loop, and the loop goes from each of
them to the state it ends in; every pass takes one group out of the list. -/
theorem size_allocate_passes_inv (priv : WnckTasklistPrivate) (c : String → String → Int)
    (a : GtkAllocation) (nw ns gl : Int) (fuel : Nat) (s0 : SizeAllocateState)
    (hh : priv.max_button_height ≠ 0)
    (hnd0 : (priv.class_groups.map (fun g => g.ptr)).Nodup)
    (hI : size_allocate_inv priv a nw ns s0)
    (hfuel : s0.ungrouped_class_groups.length ≤ fuel) :
    (∀ t ∈ size_allocate_passes priv c a nw ns gl fuel s0,
      size_allocate_inv priv a nw ns t ∧ size_allocate_continues priv gl t = true ∧
      t.ungrouped_class_groups.length ≤ fuel ∧
      size_allocate_loop priv c a nw ns gl fuel t =
        size_allocate_loop priv c a nw ns gl fuel s0) ∧
    (∀ s1, size_allocate_loop priv c a nw ns gl fuel s0 = .ok s1 →
      (size_allocate_passes priv c a nw ns gl fuel s0).length +
        s1.ungrouped_class_groups.length = s0.ungrouped_class_groups.length) := by
  induction fuel generalizing s0 with
  | zero =>
    have hnil : s0.ungrouped_class_groups = [] := List.length_eq_zero.mp (by omega)
    have hc : size_allocate_continues priv gl s0 = false := by
      simp [size_allocate_continues, hnil]
    constructor
    · intro t ht
      simp [size_allocate_passes] at ht
    · intro s1 h1
      rw [size_allocate_loop_stops _ _ _ _ _ _ _ _ hc] at h1
      cases h1
      simp [size_allocate_passes]
  | succ fuel ih =>
    by_cases hc : size_allocate_continues priv gl s0 = true
    · have hne : s0.ungrouped_class_groups ≠ [] := by
        intro e
        simp [size_allocate_continues, e] at hc
      obtain ⟨s1, hb, hI1, hl1⟩ := size_allocate_body_inv priv c a nw ns s0 hh hnd0 hI hne
      obtain ⟨ih1, ih2⟩ := ih s1 hI1 (by omega)
      have hloop : size_allocate_loop priv c a nw ns gl (fuel + 1) s0 =
          size_allocate_loop priv c a nw ns gl fuel s1 := by
        simp only [size_allocate_loop, hc, if_true, hb]
      have hpass : size_allocate_passes priv c a nw ns gl (fuel + 1) s0 =
          s0 :: size_allocate_passes priv c a nw ns gl fuel s1 := by
        simp only [size_allocate_passes, hc, if_true, hb]
      rw [hloop, hpass]
      constructor
      · intro t ht
        rcases List.mem_cons.mp ht with ht | ht
        · subst ht
          exact ⟨hI, hc, hfuel, hloop⟩
        · obtain ⟨h1, h2, h3, h4⟩ := ih1 t ht
          refine ⟨h1, h2, by omega, ?_⟩
          rw [size_allocate_loop_fuel_eq priv c a nw ns gl (fuel + 1) fuel t (by omega) h3]
          exact h4
      · intro s2 h2
        have := ih2 s2 h2
        simp only [List.length_cons]
        omega
    · have hc' : size_allocate_continues priv gl s0 = false := by
        cases h : size_allocate_continues priv gl s0
        · rfl
        · exact absurd h hc
      have hpass : size_allocate_passes priv c a nw ns gl (fuel + 1) s0 = [] := by
        simp only [size_allocate_passes, hc', Bool.false_eq_true, if_false]
      rw [hpass]
      constructor
      · intro t ht
        simp at ht
      · intro s1 h1
        rw [size_allocate_loop_stops _ _ _ _ _ _ _ _ hc'] at h1
        cases h1
        simp

/-- In a state of the grouping loop on a well-formed tasklist, the buttons that
would be shown are as many as the loop counts:
`n_startup_sequences + n_windows - n_grouped_buttons`. -/
theorem size_allocate_visible_length (priv : WnckTasklistPrivate) (a : GtkAllocation)
    (s : SizeAllocateState) (hwf : tasklist_well_formed priv)
    (hI : size_allocate_inv priv a priv.windows.length priv.startup_sequences.length s) :
    ((size_allocate_visible priv s).length : Int) =
      (priv.startup_sequences.length : Int) + (priv.windows.length : Int)
        - s.n_grouped_buttons := by
  have h1 := hI.2.2.2.1
  have h2 := hwf.2.1.length_eq
  have h3 := flatten_windows_length priv.class_groups
  have h4 := flatten_window_tasks_length s.ungrouped_class_groups
  simp only [size_allocate_visible, List.length_append, List.length_map, Nat.cast_add] at h2 ⊢
  have h5 : (priv.windows.length : Int) =
      (((priv.class_groups.map (fun g => g.windows)).flatten.length : Nat) : Int) +
        (priv.windows_without_class_group.length : Int) := by
    exact_mod_cast h2
  omega

/-- C7. Under `WNCK_TASKLIST_AUTO_GROUP`, on a well-formed tasklist,
`wnck_tasklist_size_allocate` returns, and every pass of its grouping loop,
which collapses one further class group, starts in a state where
`wnck_tasklist_layout`, for the number of buttons that would then be shown,
returns the button width the loop holds, and that width is below
`MIN (grouping_limit, max_button_width)`; the loop goes from that state to the
state the run ends in.  As many groups are collapsed as there are such
passes.  At the end the button width is that of the layout for the visible
tasks, and no group is left or the width is not below the limit.  The loop
stops in any state whose width is not below the limit.  In particular, when
the layout of the ungrouped mode gives such a width, a run that returns
leaves every class group ungrouped, shows no class-group button, and shows the
button of every window of a class group and of every window without class
group. -/
theorem size_allocate_auto_group (priv : WnckTasklistPrivate)
    (g_utf8_collate : String → String → Int) (rtl : Bool) (allocation : GtkAllocation)
    (hauto : priv.grouping = .AUTO_GROUP) :
    (tasklist_well_formed priv →
      ∃ lay s r,
        wnck_tasklist_layout allocation priv.max_button_width priv.max_button_height
          ((priv.startup_sequences.length : Int) + (priv.windows.length : Int)) = .ok lay ∧
        size_allocate_loop priv g_utf8_collate allocation priv.windows.length
          priv.startup_sequences.length (MIN priv.grouping_limit priv.max_button_width)
          priv.class_groups.length (size_allocate_start priv lay) = .ok s ∧
        wnck_tasklist_size_allocate priv g_utf8_collate rtl allocation = .ok r ∧
        r.ungrouped_class_groups = s.ungrouped_class_groups ∧
        r.button_width = s.button_width ∧
        (∀ t ∈ size_allocate_passes priv g_utf8_collate allocation priv.windows.length
            priv.startup_sequences.length (MIN priv.grouping_limit priv.max_button_width)
            priv.class_groups.length (size_allocate_start priv lay),
          t.ungrouped_class_groups ≠ [] ∧
          (∃ w, wnck_tasklist_layout allocation priv.max_button_width priv.max_button_height
              ((size_allocate_visible priv t).length : Int) = .ok w ∧
            w.button_width = t.button_width ∧
            w.button_width < MIN priv.grouping_limit priv.max_button_width) ∧
          size_allocate_loop priv g_utf8_collate allocation priv.windows.length
            priv.startup_sequences.length (MIN priv.grouping_limit priv.max_button_width)
            priv.class_groups.length t = .ok s) ∧
        (size_allocate_passes priv g_utf8_collate allocation priv.windows.length
            priv.startup_sequences.length (MIN priv.grouping_limit priv.max_button_width)
            priv.class_groups.length (size_allocate_start priv lay)).length +
          r.ungrouped_class_groups.length = priv.class_groups.length ∧
        (∃ w, wnck_tasklist_layout allocation priv.max_button_width priv.max_button_height
            (r.visible_tasks.length : Int) = .ok w ∧ w.button_width = r.button_width) ∧
        (r.ungrouped_class_groups = [] ∨
          ¬ r.button_width < MIN priv.grouping_limit priv.max_button_width)) ∧
    (∀ (nw ns : Int) (fuel : Nat) (s : SizeAllocateState),
      ¬ s.button_width < MIN priv.grouping_limit priv.max_button_width →
      size_allocate_loop priv g_utf8_collate allocation nw ns
        (MIN priv.grouping_limit priv.max_button_width) fuel s = .ok s) ∧
    (∀ lay,
      wnck_tasklist_layout allocation priv.max_button_width priv.max_button_height
        ((priv.startup_sequences.length : Int) + (priv.windows.length : Int)) = .ok lay →
      ¬ lay.button_width < MIN priv.grouping_limit priv.max_button_width →
      ∀ r, wnck_tasklist_size_allocate priv g_utf8_collate rtl allocation = .ok r →
        r.ungrouped_class_groups = priv.class_groups ∧
        r.button_width = lay.button_width ∧
        (∀ t ∈ r.visible_tasks, t.type ≠ .CLASS_GROUP) ∧
        (∀ g ∈ priv.class_groups, ∀ w ∈ g.windows,
          WnckTask.window w ∈ r.visible_tasks ∧ child_visible r.calls w.ptr = some true) ∧
        (∀ w ∈ priv.windows_without_class_group,
          WnckTask.window w ∈ r.visible_tasks ∧ child_visible r.calls w.ptr = some true)) ∧
    (tasklist_well_formed priv →
      ∃ r, wnck_tasklist_size_allocate priv g_utf8_collate rtl allocation = .ok r) := by
  have hstop : ∀ s : SizeAllocateState,
      ¬ s.button_width < MIN priv.grouping_limit priv.max_button_width →
      size_allocate_continues priv (MIN priv.grouping_limit priv.max_button_width) s = false := by
    intro s hs
    simp [size_allocate_continues, hauto, hs]
  refine ⟨?_, fun nw ns fuel s hs => size_allocate_loop_stops _ _ _ _ _ _ _ _ (hstop s hs),
    ?_, ?_⟩
  · intro hwf
    obtain ⟨lay, s, calls1, r, hlay, hloop, hI, hcont, -, hr, hbw, -, -, hun, -, -, hlen⟩ :=
      size_allocate_run priv g_utf8_collate rtl allocation hwf
    have hP := size_allocate_passes_inv priv g_utf8_collate allocation priv.windows.length
      priv.startup_sequences.length (MIN priv.grouping_limit priv.max_button_width)
      priv.class_groups.length (size_allocate_start priv lay) hwf.2.2.2
      (well_formed_groups_nodup priv hwf) (size_allocate_start_inv priv allocation lay hwf hlay)
      (by simp [size_allocate_start])
    refine ⟨lay, s, r, hlay, hloop, hr, hun, hbw, ?_, ?_, ?_, ?_⟩
    · intro t ht
      obtain ⟨hIt, hct, -, hkl⟩ := hP.1 t ht
      have hcnt := size_allocate_visible_length priv allocation t hwf hIt
      simp only [size_allocate_continues, hauto, Bool.and_eq_true, Bool.or_eq_true,
        decide_eq_true_eq, reduceCtorEq, false_or, true_and] at hct
      refine ⟨hct.1, ⟨_, by rw [hcnt]; exact hIt.2.2.2.2.1, rfl, hct.2⟩, ?_⟩
      rw [hkl]
      exact hloop
    · have h := hP.2 s hloop
      rw [hun]
      simpa [size_allocate_start] using h
    · exact ⟨_, by rw [hlen]; exact hI.2.2.2.2.1, hbw.symm⟩
    · rw [hun, hbw]
      by_cases hnil : s.ungrouped_class_groups = []
      · exact Or.inl hnil
      · right
        intro hlt
        simp [size_allocate_continues, hauto, hnil, hlt] at hcont
  · intro lay hlay hwide r hr
    obtain ⟨lay1, s, calls1, hlay1, hloop, hch, hbw, -, -, hun, hvis, hcalls⟩ :=
      size_allocate_ok priv g_utf8_collate rtl allocation r hr
    rw [hlay] at hlay1
    cases hlay1
    rw [size_allocate_loop_stops _ _ _ _ _ _ _ _ (hstop (size_allocate_start priv lay) hwide)]
      at hloop
    cases hloop
    have hmem : ∀ t, t ∈ r.visible_tasks ↔ t ∈ size_allocate_visible priv
        (size_allocate_start priv lay) := by
      intro t; rw [hvis]; exact (g_list_sort_perm _ _).mem_iff
    have hshow : ∀ t ∈ r.visible_tasks, child_visible r.calls t.ptr = some true := by
      intro t ht
      rw [hcalls]
      exact size_allocate_shown _ _ _ _ _ _ _ _ hch t (by rw [← hvis]; exact ht)
    refine ⟨hun, hbw, ?_, ?_, ?_⟩
    · intro t ht
      have := (hmem t).mp ht
      simp only [size_allocate_visible, size_allocate_start, List.nil_append, List.mem_append,
        List.mem_flatten, List.mem_map] at this
      rcases this with ((⟨l, ⟨g, -, rfl⟩, hl⟩ | ⟨w, -, rfl⟩) | ⟨w, -, rfl⟩)
      · obtain ⟨w, -, rfl⟩ := List.mem_map.mp hl
        simp [WnckTask.type]
      · simp [WnckTask.type]
      · simp [WnckTask.type]
    · intro g hg w hw
      have hin : WnckTask.window w ∈ r.visible_tasks := by
        rw [hmem]
        simp only [size_allocate_visible, size_allocate_start, List.nil_append, List.mem_append,
          List.mem_flatten, List.mem_map]
        exact Or.inl (Or.inl ⟨_, ⟨g, hg, rfl⟩, List.mem_map_of_mem _ hw⟩)
      exact ⟨hin, hshow _ hin⟩
    · intro w hw
      have hin : WnckTask.window w ∈ r.visible_tasks := by
        rw [hmem]
        simp only [size_allocate_visible, size_allocate_start, List.nil_append, List.mem_append,
          List.mem_flatten, List.mem_map]
        exact Or.inl (Or.inr ⟨w, hw, rfl⟩)
      exact ⟨hin, hshow _ hin⟩
  · intro hwf
    obtain ⟨-, -, -, r, -, -, -, -, -, hr, -⟩ :=
      size_allocate_run priv g_utf8_collate rtl allocation hwf
    exact ⟨r, hr⟩

/-- C7, on the sample tasklist under `WNCK_TASKLIST_AUTO_GROUP` with the limit 80
and an allocation 420 wide: the seven buttons of the ungrouped mode are 60
wide, below the limit, so one pass collapses the group at address 100; the
five buttons left are 84 wide, not below the limit, and the loop stops with
the group at address 101 ungrouped. -/
theorem size_allocate_auto_group_witness :
    (sample_priv .AUTO_GROUP 80).grouping = .AUTO_GROUP ∧
    tasklist_well_formed (sample_priv .AUTO_GROUP 80) ∧
    (wnck_tasklist_size_allocate (sample_priv .AUTO_GROUP 80) sample_collate false
        { x := 5, y := 7, width := 420, height := 24 }).map
      (fun r => (r.button_width, r.visible_tasks.map WnckTask.ptr,
        r.ungrouped_class_groups.map (fun g => g.ptr))) =
      .ok (84, [100, 4, 5, 6, 200], [101]) ∧
    (size_allocate_passes (sample_priv .AUTO_GROUP 80) sample_collate
        { x := 5, y := 7, width := 420, height := 24 } 6 1 80 2
        (size_allocate_start (sample_priv .AUTO_GROUP 80)
          { button_width := 60, n_cols := 7, n_rows := 1 })).map
      (fun t => (t.button_width, t.ungrouped_class_groups.map (fun g => g.ptr))) =
      [(60, [100, 101])] ∧
    ∃ lay s r,
      wnck_tasklist_layout { x := 5, y := 7, width := 420, height := 24 }
        (sample_priv .AUTO_GROUP 80).max_button_width
        (sample_priv .AUTO_GROUP 80).max_button_height
        (((sample_priv .AUTO_GROUP 80).startup_sequences.length : Int) +
          ((sample_priv .AUTO_GROUP 80).windows.length : Int)) = .ok lay ∧
      size_allocate_loop (sample_priv .AUTO_GROUP 80) sample_collate
        { x := 5, y := 7, width := 420, height := 24 }
        (sample_priv .AUTO_GROUP 80).windows.length
        (sample_priv .AUTO_GROUP 80).startup_sequences.length
        (MIN (sample_priv .AUTO_GROUP 80).grouping_limit
          (sample_priv .AUTO_GROUP 80).max_button_width)
        (sample_priv .AUTO_GROUP 80).class_groups.length
        (size_allocate_start (sample_priv .AUTO_GROUP 80) lay) = .ok s ∧
      wnck_tasklist_size_allocate (sample_priv .AUTO_GROUP 80) sample_collate false
        { x := 5, y := 7, width := 420, height := 24 } = .ok r ∧
      r.ungrouped_class_groups = s.ungrouped_class_groups ∧
      r.button_width = s.button_width ∧
      (∀ t ∈ size_allocate_passes (sample_priv .AUTO_GROUP 80) sample_collate
          { x := 5, y := 7, width := 420, height := 24 }
          (sample_priv .AUTO_GROUP 80).windows.length
          (sample_priv .AUTO_GROUP 80).startup_sequences.length
          (MIN (sample_priv .AUTO_GROUP 80).grouping_limit
            (sample_priv .AUTO_GROUP 80).max_button_width)
          (sample_priv .AUTO_GROUP 80).class_groups.length
          (size_allocate_start (sample_priv .AUTO_GROUP 80) lay),
        t.ungrouped_class_groups ≠ [] ∧
        (∃ w, wnck_tasklist_layout { x := 5, y := 7, width := 420, height := 24 }
            (sample_priv .AUTO_GROUP 80).max_button_width
            (sample_priv .AUTO_GROUP 80).max_button_height
            ((size_allocate_visible (sample_priv .AUTO_GROUP 80) t).length : Int) = .ok w ∧
          w.button_width = t.button_width ∧
          w.button_width < MIN (sample_priv .AUTO_GROUP 80).grouping_limit
            (sample_priv .AUTO_GROUP 80).max_button_width) ∧
        size_allocate_loop (sample_priv .AUTO_GROUP 80) sample_collate
          { x := 5, y := 7, width := 420, height := 24 }
          (sample_priv .AUTO_GROUP 80).windows.length
          (sample_priv .AUTO_GROUP 80).startup_sequences.length
          (MIN (sample_priv .AUTO_GROUP 80).grouping_limit
            (sample_priv .AUTO_GROUP 80).max_button_width)
          (sample_priv .AUTO_GROUP 80).class_groups.length t = .ok s) ∧
      (size_allocate_passes (sample_priv .AUTO_GROUP 80) sample_collate
          { x := 5, y := 7, width := 420, height := 24 }
          (sample_priv .AUTO_GROUP 80).windows.length
          (sample_priv .AUTO_GROUP 80).startup_sequences.length
          (MIN (sample_priv .AUTO_GROUP 80).grouping_limit
            (sample_priv .AUTO_GROUP 80).max_button_width)
          (sample_priv .AUTO_GROUP 80).class_groups.length
          (size_allocate_start (sample_priv .AUTO_GROUP 80) lay)).length +
        r.ungrouped_class_groups.length = (sample_priv .AUTO_GROUP 80).class_groups.length ∧
      (∃ w, wnck_tasklist_layout { x := 5, y := 7, width := 420, height := 24 }
          (sample_priv .AUTO_GROUP 80).max_button_width
          (sample_priv .AUTO_GROUP 80).max_button_height
          (r.visible_tasks.length : Int) = .ok w ∧ w.button_width = r.button_width) ∧
      (r.ungrouped_class_groups = [] ∨
        ¬ r.button_width < MIN (sample_priv .AUTO_GROUP 80).grouping_limit
          (sample_priv .AUTO_GROUP 80).max_button_width) :=
  ⟨rfl, by decide, by with_unfolding_all decide, by with_unfolding_all decide,
    (size_allocate_auto_group (sample_priv .AUTO_GROUP 80) sample_collate false
      { x := 5, y := 7, width := 420, height := 24 } rfl).1 (by decide)⟩

/-- The button of a collapsed group is the button of a group exactly for the
groups of more than one window. -/
theorem collapsed_button_eq (priv : WnckTasklistPrivate) (hwf : tasklist_well_formed priv)
    (g : ClassGroupTask) (hg : g ∈ priv.class_groups) (hbig : 2 ≤ g.windows.length)
    (x : ClassGroupTask) (hx : x ∈ priv.class_groups) :
    collapsed_button x.ptr x.windows = g.ptr ↔ x.ptr = g.ptr := by
  obtain ⟨hF2, -, -, -⟩ := well_formed_ptrs priv hwf
  constructor
  · intro h
    unfold collapsed_button at h
    split at h
    · exact h
    · split at h
      · exact h
      · rename_i w rest hw
        exact absurd h (hF2 g hg x hx w (by rw [hw]; exact List.mem_cons_self _ _))
  · intro h
    have hsame : x = g := List.inj_on_of_nodup_map (well_formed_groups_nodup priv hwf) hx hg h
    rw [hsame]
    unfold collapsed_button
    rw [if_pos (by omega)]

/-- No window of a group of more than one window lends its button to a
collapsed group. -/
theorem collapsed_button_ne (priv : WnckTasklistPrivate) (hwf : tasklist_well_formed priv)
    (g : ClassGroupTask) (hg : g ∈ priv.class_groups) (hbig : 2 ≤ g.windows.length)
    (w : WindowTask) (hw : w ∈ g.windows)
    (x : ClassGroupTask) (hx : x ∈ priv.class_groups) :
    collapsed_button x.ptr x.windows ≠ w.ptr := by
  obtain ⟨hF2, -, -, hF5⟩ := well_formed_ptrs priv hwf
  intro h
  unfold collapsed_button at h
  split at h
  · exact hF2 x hx g hg w hw h.symm
  · rename_i hsmall
    split at h
    · exact hF2 x hx g hg w hw h.symm
    · rename_i w1 rest hw1
      have hsame : x = g := hF5 x hx g hg w1 (by rw [hw1]; exact List.mem_cons_self _ _) w hw h
      rw [hsame] at hsmall
      omega

/-- C8. On a well-formed tasklist a run of `wnck_tasklist_size_allocate` returns,
for any allocation.  Under `WNCK_TASKLIST_NEVER_GROUP` no class-group task is
among the visible tasks, the button of every class group is hidden, and every
window task is visible.  Under `WNCK_TASKLIST_ALWAYS_GROUP` every class group
with two or more windows has exactly one button among the visible tasks,
which is shown, and the buttons of its windows are not among them and are
hidden. -/
theorem size_allocate_grouping_policy (priv : WnckTasklistPrivate)
    (g_utf8_collate : String → String → Int) (rtl : Bool) (allocation : GtkAllocation)
    (hwf : tasklist_well_formed priv) :
    ∃ r, wnck_tasklist_size_allocate priv g_utf8_collate rtl allocation = .ok r ∧
      (priv.grouping = .NEVER_GROUP →
        (∀ t ∈ r.visible_tasks, t.type ≠ .CLASS_GROUP) ∧
        (∀ g ∈ priv.class_groups, child_visible r.calls g.ptr = some false) ∧
        (∀ w ∈ priv.windows,
          WnckTask.window w ∈ r.visible_tasks ∧ child_visible r.calls w.ptr = some true)) ∧
      (priv.grouping = .ALWAYS_GROUP →
        ∀ g ∈ priv.class_groups, 2 ≤ g.windows.length →
          (r.visible_tasks.map WnckTask.ptr).count g.ptr = 1 ∧
          child_visible r.calls g.ptr = some true ∧
          ∀ w ∈ g.windows,
            w.ptr ∉ r.visible_tasks.map WnckTask.ptr ∧
            child_visible r.calls w.ptr = some false) := by
  obtain ⟨lay, s, calls1, r, hlay, hloop, hI, hcont, hch, hr, -, -, -, hun, hvis, hcalls, -⟩ :=
    size_allocate_run priv g_utf8_collate rtl allocation hwf
  obtain ⟨hF2, hF3, hF4, hF5⟩ := well_formed_ptrs priv hwf
  obtain ⟨hshown, honly⟩ := size_allocate_children_calls _ _ _ _ _ _ _ _ hch
  rw [← hvis] at hshown honly hch
  have hmem : ∀ t, t ∈ r.visible_tasks ↔ t ∈ size_allocate_visible priv s := by
    intro t; rw [hvis]; exact (g_list_sort_perm _ _).mem_iff
  have hshow : ∀ t ∈ r.visible_tasks, child_visible r.calls t.ptr = some true := by
    intro t ht
    rw [hcalls]
    exact size_allocate_shown _ _ _ _ _ _ _ _ hch t ht
  refine ⟨r, hr, ?_, ?_⟩
  · intro hnever
    have hc0 : size_allocate_continues priv (MIN priv.grouping_limit priv.max_button_width)
        (size_allocate_start priv lay) = false := by
      simp [size_allocate_continues, hnever]
    rw [size_allocate_loop_stops _ _ _ _ _ _ _ _ hc0] at hloop
    cases hloop
    have hvmem : ∀ t, t ∈ r.visible_tasks →
        (∃ g ∈ priv.class_groups, ∃ w ∈ g.windows, t = WnckTask.window w) ∨
        (∃ w ∈ priv.windows_without_class_group, t = WnckTask.window w) ∨
        (∃ q ∈ priv.startup_sequences, t = WnckTask.startup_sequence q) := by
      intro t ht
      have := (hmem t).mp ht
      simp only [size_allocate_visible, size_allocate_start, List.nil_append, List.mem_append,
        List.mem_flatten, List.mem_map] at this
      rcases this with ((⟨l, ⟨g, hg, rfl⟩, hl⟩ | ⟨w, hw, rfl⟩) | ⟨q, hq, rfl⟩)
      · obtain ⟨w, hw, rfl⟩ := List.mem_map.mp hl
        exact Or.inl ⟨g, hg, w, hw, rfl⟩
      · exact Or.inr (Or.inl ⟨w, hw, rfl⟩)
      · exact Or.inr (Or.inr ⟨q, hq, rfl⟩)
    refine ⟨?_, ?_, ?_⟩
    · intro t ht
      rcases hvmem t ht with ⟨g, -, w, -, rfl⟩ | ⟨w, -, rfl⟩ | ⟨q, -, rfl⟩ <;>
        simp [WnckTask.type]
    · intro g hg
      apply child_visible_false
      · rw [hcalls]
        simp only [size_allocate_start, List.nil_append, List.mem_append, List.mem_map]
        exact Or.inl ⟨g, hg, rfl⟩
      · rw [hcalls]
        simp only [size_allocate_start, List.nil_append, List.mem_append, List.mem_map,
          Call.gtk_widget_set_child_visible.injEq, Bool.false_eq_true, and_false, exists_false,
          false_or]
        intro hin
        obtain ⟨t, ht, hptr⟩ := List.mem_map.mp (honly _ _ hin).2
        rcases hvmem t ht with ⟨g1, hg1, w, hw, rfl⟩ | ⟨w, hw, rfl⟩ | ⟨q, hq, rfl⟩
        · exact hF2 g hg g1 hg1 w hw hptr
        · exact (hF3 g hg).1 (by rw [← hptr]; exact List.mem_map_of_mem (fun w => w.ptr) hw)
        · exact (hF3 g hg).2 (by rw [← hptr]; exact List.mem_map_of_mem (fun t => t.ptr) hq)
    · intro w hw
      have hin : WnckTask.window w ∈ r.visible_tasks := by
        rw [hmem]
        have h1 := (hwf.2.1.mem_iff).mp hw
        simp only [size_allocate_visible, size_allocate_start, List.nil_append, List.mem_append,
          List.mem_flatten, List.mem_map] at h1 ⊢
        rcases h1 with ⟨l, ⟨g, hg, rfl⟩, hl⟩ | h1
        · exact Or.inl (Or.inl ⟨_, ⟨g, hg, rfl⟩, List.mem_map_of_mem _ hl⟩)
        · exact Or.inl (Or.inr ⟨w, h1, rfl⟩)
      exact ⟨hin, hshow _ hin⟩
  · intro halways g hg hbig
    obtain ⟨-, -, -, -, -, hP, hF, -, hH⟩ := hI
    have hnil : s.ungrouped_class_groups = [] := by
      by_contra hne
      simp [size_allocate_continues, halways, hne] at hcont
    rw [hnil] at hP hcalls
    simp only [List.map_nil, List.append_nil] at hP hcalls
    -- the addresses of the visible tasks
    have hvp : (r.visible_tasks.map WnckTask.ptr).Perm
        (priv.class_groups.map (fun g => collapsed_button g.ptr g.windows) ++
          priv.windows_without_class_group.map (fun w => w.ptr) ++
          priv.startup_sequences.map (fun t => t.ptr)) := by
      rw [hvis]
      refine ((g_list_sort_perm _ _).map WnckTask.ptr).trans ?_
      simp only [size_allocate_visible, hnil, List.map_nil, List.flatten_nil, List.append_nil,
        List.map_append, List.map_map]
      exact List.Perm.append_right _ (List.Perm.append_right _ hP)
    have hnotin : ∀ w ∈ g.windows, w.ptr ∉ r.visible_tasks.map WnckTask.ptr := by
      intro w hw hin
      have := (hvp.mem_iff).mp hin
      simp only [List.mem_append, List.mem_map] at this
      rcases this with (⟨x, hx, e⟩ | ⟨w1, hw1, e⟩) | ⟨q, hq, e⟩
      · exact collapsed_button_ne priv hwf g hg hbig w hw x hx e
      · exact (hF4 g hg w hw).1 (by rw [← e]; exact List.mem_map_of_mem (fun w => w.ptr) hw1)
      · exact (hF4 g hg w hw).2 (by rw [← e]; exact List.mem_map_of_mem (fun t => t.ptr) hq)
    have hcount : (r.visible_tasks.map WnckTask.ptr).count g.ptr = 1 := by
      rw [hvp.count_eq, List.count_append, List.count_append,
        List.count_eq_zero.mpr (hF3 g hg).1, List.count_eq_zero.mpr (hF3 g hg).2]
      have h1 : List.count g.ptr
          (priv.class_groups.map (fun g => collapsed_button g.ptr g.windows)) =
          List.count g.ptr (priv.class_groups.map (fun g => g.ptr)) := by
        rw [List.count_eq_countP, List.count_eq_countP, List.countP_map, List.countP_map]
        apply List.countP_congr
        intro x hx
        simp only [Function.comp_apply, beq_iff_eq]
        exact collapsed_button_eq priv hwf g hg hbig x hx
      rw [h1, List.count_eq_one_of_mem (well_formed_groups_nodup priv hwf)
        (List.mem_map_of_mem (fun g => g.ptr) hg)]
    refine ⟨hcount, ?_, ?_⟩
    · have hin : g.ptr ∈ r.visible_tasks.map WnckTask.ptr :=
        List.count_pos_iff.mp (by omega)
      obtain ⟨t, ht, e⟩ := List.mem_map.mp hin
      rw [← e]
      exact hshow t ht
    · intro w hw
      refine ⟨hnotin w hw, ?_⟩
      apply child_visible_false
      · rw [hcalls]
        apply List.mem_append.mpr
        left
        exact hH g hg (by omega) (by rw [hnil]; simp) w hw
      · rw [hcalls]
        intro hin
        rcases List.mem_append.mp hin with h | h
        · obtain ⟨b, e⟩ := hF _ h
          simp at e
        · exact hnotin w hw (honly _ _ h).2

/-- C8, on the sample tasklist under `WNCK_TASKLIST_ALWAYS_GROUP`: the tasklist is
well formed, and the run shows the buttons 100 and 101 of the two class groups,
the window 6 and the startup sequence 200. -/
theorem size_allocate_grouping_policy_witness :
    tasklist_well_formed (sample_priv .ALWAYS_GROUP 80) ∧
    (wnck_tasklist_size_allocate (sample_priv .ALWAYS_GROUP 80) sample_collate false
        { x := 5, y := 7, width := 300, height := 24 }).map
      (fun r => r.visible_tasks.map WnckTask.ptr) = .ok [100, 101, 6, 200] ∧
    ∃ r, wnck_tasklist_size_allocate (sample_priv .ALWAYS_GROUP 80) sample_collate false
        { x := 5, y := 7, width := 300, height := 24 } = .ok r ∧
      (r.visible_tasks.map WnckTask.ptr).count 100 = 1 ∧
      child_visible r.calls 1 = some false := by
  have hwf : tasklist_well_formed (sample_priv .ALWAYS_GROUP 80) := by decide
  refine ⟨hwf, by with_unfolding_all decide, ?_⟩
  obtain ⟨r, hr, -, h2⟩ := size_allocate_grouping_policy (sample_priv .ALWAYS_GROUP 80)
    sample_collate false { x := 5, y := 7, width := 300, height := 24 } hwf
  have h3 := h2 rfl sample_group_a (by decide) (by decide)
  exact ⟨r, hr, h3.1, (h3.2.2 (sample_task 1 "x" 7) (by decide)).2⟩

/-! ## The grouping score -/

/-- Once `first_name` is set, the inner loop of `wnck_tasklist_score_groups`
counts the windows of that name and leaves `first_name` alone. -/
theorem score_windows_some (ws : List WindowTask) (first : String) (k : Int) :
    score_windows ws (some first) k =
      (some first, k + ((ws.filter (fun w => decide (score_name w.window = first))).length : Int))
    := by
  induction ws generalizing k with
  | nil => simp [score_windows]
  | cons w ws ih =>
    simp only [score_windows]
    by_cases h : score_name w.window = first
    · simp only [h, if_true, ih, List.filter_cons, decide_True, List.length_cons, Nat.cast_add,
        Nat.cast_one]
      congr 1
      omega
    · simp only [h, if_false, ih, List.filter_cons, decide_False]
      simp

/-- The first group of the list gets the score the claim words; every later
group is scored against the name `first_name` keeps from the first window of
the first group. -/
theorem score_groups_first (g : ClassGroupTask) (l : List ClassGroupTask)
    (first : WindowTask) (rest : List WindowTask) (hw : g.windows = first :: rest) :
    wnck_tasklist_score_groups (g :: l) =
      { g with grouping_score := claimed_grouping_score g } ::
        score_groups_from l (some (score_name first.window)) := by
  simp only [wnck_tasklist_score_groups, score_groups_from, hw, score_windows,
    score_windows_some, claimed_grouping_score, same_title_count]
  simp only [List.length_cons, List.filter_cons, decide_True, if_true, Nat.cast_add,
    Nat.cast_one]
  have hne : ¬ ((rest.length : Int) + 1 = 0) := by omega
  have hne2 : ¬ (rest.length + 1 = 0) := by omega
  simp only [hne, hne2, if_false, Option.map_some']
  congr 2
  push_cast
  ring_nf

/-- C13 (what the code does). `sample_group_c` has two windows named "z".  Scored
alone it gets 2 - 5 * (2 / 2) = -3, the score the claim words.  Scored after
`sample_group_a`, whose first window is named "x", it gets 2: `first_name` is
still "x", and no window of the group has that name. -/
theorem score_groups_depends_on_first_group :
    (wnck_tasklist_score_groups [sample_group_c]).map (fun g => g.grouping_score) =
      [some (-3)] ∧
    claimed_grouping_score sample_group_c = some (-3) ∧
    (wnck_tasklist_score_groups [sample_group_a, sample_group_c]).map
      (fun g => g.grouping_score) = [some (-1 / 3), some 2] := by
  refine ⟨?_, ?_, ?_⟩ <;> with_unfolding_all decide

/-! ## The buttons lie inside the allocation -/

theorem tdiv_scaled_bounds (W n c : Int) (hW : 0 ≤ W) (hn : 1 ≤ n) (hc0 : 0 ≤ c) (hc : c ≤ n) :
    0 ≤ Int.tdiv (W * c) n ∧ Int.tdiv (W * c) n ≤ W := by
  have hp : 0 ≤ W * c := Int.mul_nonneg hW hc0
  rw [Int.tdiv_eq_ediv hp (by omega)]
  constructor
  · exact Int.ediv_nonneg hp (by omega)
  · have h1 : W * c ≤ W * n := Int.mul_le_mul_of_nonneg_left hc hW
    have h2 : W * c / n ≤ W * n / n := Int.ediv_le_ediv (by omega) h1
    rwa [Int.mul_ediv_cancel _ (by omega)] at h2

/-- The row and the column of the button of index `i`, for `n_rows` rows, when
`i` is below `n_rows * n_cols`. -/
theorem index_row_col (i r c : Int) (hi : 0 ≤ i) (hr : 1 ≤ r) (hlt : i < r * c) :
    0 ≤ Int.tmod i r ∧ Int.tmod i r + 1 ≤ r ∧ 0 ≤ Int.tdiv i r ∧ Int.tdiv i r + 1 ≤ c := by
  rw [Int.tmod_eq_emod hi (by omega), Int.tdiv_eq_ediv hi (by omega)]
  refine ⟨Int.emod_nonneg _ (by omega), ?_, Int.ediv_nonneg hi (by omega), ?_⟩
  · have := Int.emod_lt_of_pos i (show 0 < r by omega); omega
  · have : i / r < c := Int.ediv_lt_of_lt_mul (by omega) (by rw [Int.mul_comm] at hlt; exact hlt)
    omega

theorem ceil_capacity (n r : Int) (hr : 1 ≤ r) : n ≤ r * ((n + r - 1) / r) := by
  have h := Int.lt_ediv_add_one_mul_self (n + r - 1) (show 0 < r by omega)
  have : ((n + r - 1) / r + 1) * r = r * ((n + r - 1) / r) + r := by ring
  omega

/-- The layout has a cell for every button: `n_buttons ≤ n_rows * n_cols`. -/
theorem layout_capacity (a : GtkAllocation) (w h n : Int) (lay : Layout)
    (hl : wnck_tasklist_layout a w h n = .ok lay) (hn : 1 ≤ n) :
    1 ≤ lay.n_rows ∧ 1 ≤ lay.n_cols ∧ n ≤ lay.n_rows * lay.n_cols := by
  obtain ⟨r, hr1, hr, hc, hc1⟩ := layout_n_cols_pos a w h n lay hl hn
  have hrows : lay.n_rows = r := by
    unfold wnck_tasklist_layout at hl
    have hn0 : n ≠ 0 := by omega
    simp only [hn0, if_false] at hl
    split at hl
    · exact absurd hl (by simp)
    · cases hl; exact hr.symm
  rw [hrows, hc]
  exact ⟨hr1, by rw [← hc]; exact hc1, ceil_capacity n r hr1⟩

theorem to_gint_of_range (x : Int) (h0 : -2147483648 ≤ x) (h1 : x ≤ 2147483647) :
    to_gint x = x := by
  unfold to_gint
  split <;> omega

/-- The product of a width `W` and a column `c` is an `int` when `W * n` is,
for `n` columns. -/
theorem to_gint_scaled (W n c : Int) (hW : 0 ≤ W) (hc0 : 0 ≤ c) (hc : c ≤ n)
    (hmax : W * n ≤ 2147483647) : to_gint (W * c) = W * c := by
  have h0 : 0 ≤ W * c := Int.mul_nonneg hW hc0
  have h1 : W * c ≤ W * n := Int.mul_le_mul_of_nonneg_left hc hW
  exact to_gint_of_range _ (by omega) (by omega)

/-- One axis of the rectangle of a button: for an extent `W` split in `n`
cells, the cell `c` starts at or after the position `p` of the allocation and
ends at or before `p + W`, when `W * n` and `p + W` are `int`s. -/
theorem child_axis_inside (W n c p : Int) (hW : 0 ≤ W) (hn : 1 ≤ n) (hc0 : 0 ≤ c)
    (hc1 : c + 1 ≤ n) (hmax : W * n ≤ 2147483647) (hp0 : -2147483648 ≤ p)
    (hp1 : p + W ≤ 2147483647) :
    p ≤ to_gint (Int.tdiv (to_gint (W * c)) n + p) ∧
    to_gint (Int.tdiv (to_gint (W * c)) n + p) +
      to_gint (Int.tdiv (to_gint (W * (c + 1))) n - Int.tdiv (to_gint (W * c)) n) ≤ p + W := by
  rw [to_gint_scaled W n c hW hc0 (by omega) hmax,
    to_gint_scaled W n (c + 1) hW (by omega) hc1 hmax]
  have h0 := tdiv_scaled_bounds W n c hW hn hc0 (by omega)
  have h1 := tdiv_scaled_bounds W n (c + 1) hW hn (by omega) hc1
  have h2 : W * 1 ≤ W * n := Int.mul_le_mul_of_nonneg_left hn hW
  rw [Int.mul_one] at h2
  rw [to_gint_of_range (Int.tdiv (W * c) n + p) (by omega) (by omega),
    to_gint_of_range (Int.tdiv (W * (c + 1)) n - Int.tdiv (W * c) n) (by omega) (by omega)]
  omega

/-- The loop "Allocate children" gives a rectangle to every task of its
list. -/
theorem size_allocate_children_placed (a : GtkAllocation) (rtl : Bool)
    (n_rows n_cols total_width : Int) (l : List WnckTask) (i : Int) (calls : List Call)
    (h : size_allocate_children a rtl n_rows n_cols total_width l i = .ok calls) :
    ∀ t ∈ l, ∃ child, Call.gtk_widget_size_allocate t.ptr child ∈ calls := by
  induction l generalizing i calls with
  | nil => simp
  | cons t l ih =>
    simp only [size_allocate_children] at h
    split at h
    · exact absurd h (by simp)
    · split at h
      · exact absurd h (by simp)
      · split at h
        · exact absurd h (by simp)
        · rename_i calls1 hc1
          cases h
          intro t1 ht1
          rcases List.mem_cons.mp ht1 with ht1 | ht1
          · subst ht1
            exact ⟨_, List.mem_cons_self _ _⟩
          · obtain ⟨child, hchild⟩ := ih (i + 1) calls1 hc1 t1 ht1
            exact ⟨child, List.mem_cons_of_mem _ (List.mem_cons_of_mem _ hchild)⟩

/-- The loop "Allocate children", from the index `i` on: when the cells of the
layout are enough for the tasks left and no `int` of the loop overflows, every
rectangle lies inside the allocation (of width `total_width`). -/
theorem size_allocate_children_inside (a : GtkAllocation) (rtl : Bool)
    (n_rows n_cols total_width : Int) (l : List WnckTask) (i : Int) (calls : List Call)
    (h : size_allocate_children a rtl n_rows n_cols total_width l i = .ok calls)
    (hr : 1 ≤ n_rows) (hc : 1 ≤ n_cols) (hW : 0 ≤ total_width) (hH : 0 ≤ a.height)
    (hi : 0 ≤ i) (hcap : i + (l.length : Int) ≤ n_rows * n_cols)
    (hWc : total_width * n_cols ≤ 2147483647) (hHr : a.height * n_rows ≤ 2147483647)
    (hx0 : -2147483648 ≤ a.x) (hx1 : a.x + total_width ≤ 2147483647)
    (hy0 : -2147483648 ≤ a.y) (hy1 : a.y + a.height ≤ 2147483647) :
    ∀ b child, Call.gtk_widget_size_allocate b child ∈ calls →
      a.x ≤ child.x ∧ child.x + child.width ≤ a.x + total_width ∧
      a.y ≤ child.y ∧ child.y + child.height ≤ a.y + a.height := by
  induction l generalizing i calls with
  | nil =>
    simp only [size_allocate_children] at h
    cases h
    simp
  | cons t l ih =>
    simp only [size_allocate_children] at h
    split at h
    · exact absurd h (by simp)
    · split at h
      · exact absurd h (by simp)
      · split at h
        · exact absurd h (by simp)
        · rename_i calls1 hc1
          simp only [List.length_cons, Nat.cast_add, Nat.cast_one] at hcap
          have ih2 := ih (i + 1) calls1 hc1 (by omega) (by omega)
          cases h
          obtain ⟨hrow0, hrow1, hcol0, hcol1⟩ :=
            index_row_col i n_rows n_cols hi hr (by omega)
          intro b child hb
          rcases List.mem_cons.mp hb with hb | hb
          · cases hb
            have hY := child_axis_inside a.height n_rows (Int.tmod i n_rows) a.y hH hr hrow0
              hrow1 hHr hy0 hy1
            cases rtl
            · have hX := child_axis_inside total_width n_cols (Int.tdiv i n_rows) a.x hW hc
                hcol0 hcol1 hWc hx0 hx1
              simp only [Bool.false_eq_true, if_false]
              exact ⟨hX.1, hX.2, hY.1, hY.2⟩
            · have hX := child_axis_inside total_width n_cols
                (n_cols - Int.tdiv i n_rows - 1) a.x hW hc (by omega) (by omega) hWc hx0 hx1
              simp only [if_true]
              exact ⟨hX.1, hX.2, hY.1, hY.2⟩
          · rcases List.mem_cons.mp hb with hb | hb
            · exact absurd hb (by simp)
            · exact ih2 b child hb

/-- C11 (as the claim words it, on the code). On the sample tasklist with an
allocation at (0, 0), 2^30 wide and 20 high (width and height at least 0),
the layout has 7 columns and the `int` product `total_width * col` overflows
from the third column on: the button of the task at address 3 is placed at
x = -306783378, left of the allocation. -/
theorem size_allocate_button_outside :
    (0 : Int) ≤ 1073741824 ∧ (0 : Int) ≤ 20 ∧
    ∃ r, wnck_tasklist_size_allocate (sample_priv .NEVER_GROUP 0) sample_collate false
        { x := 0, y := 0, width := 1073741824, height := 20 } = .ok r ∧
      Call.gtk_widget_size_allocate 3
        { x := -306783378, y := 0, width := 153391689, height := 20 } ∈ r.calls ∧
      ¬ ((0 : Int) ≤ -306783378) := by
  refine ⟨by decide, by decide, ?_⟩
  have h : (wnck_tasklist_size_allocate (sample_priv .NEVER_GROUP 0) sample_collate false
      { x := 0, y := 0, width := 1073741824, height := 20 }).map
        (fun r => decide (Call.gtk_widget_size_allocate 3
          { x := -306783378, y := 0, width := 153391689, height := 20 } ∈ r.calls)) =
      .ok true := by
    decide
  cases hrun : wnck_tasklist_size_allocate (sample_priv .NEVER_GROUP 0) sample_collate false
      { x := 0, y := 0, width := 1073741824, height := 20 } with
  | error e =>
    rw [hrun] at h
    exact absurd h (by simp [Except.map])
  | ok r =>
    rw [hrun] at h
    simp only [Except.map, Except.ok.injEq, decide_eq_true_eq] at h
    exact ⟨r, rfl, h, by decide⟩

/-- C11. On a well-formed tasklist, for an allocation of width and height at
least 0 whose rectangle lies in the range of `int`, and in either direction
(`rtl` false: left to right; true: right to left),
`wnck_tasklist_size_allocate` returns and gives a rectangle to the button of
every visible task; and when `allocation.width * n_cols` and
`allocation.height * n_rows` do not exceed `G_MAXINT`, so that no `int` product
of the loop overflows, every rectangle it gives lies inside the allocation. -/
theorem size_allocate_buttons_inside (priv : WnckTasklistPrivate)
    (g_utf8_collate : String → String → Int) (rtl : Bool) (allocation : GtkAllocation)
    (hwf : tasklist_well_formed priv)
    (hwidth : 0 ≤ allocation.width) (hheight : 0 ≤ allocation.height)
    (hx0 : G_MININT ≤ allocation.x) (hx1 : allocation.x + allocation.width ≤ G_MAXINT)
    (hy0 : G_MININT ≤ allocation.y) (hy1 : allocation.y + allocation.height ≤ G_MAXINT) :
    ∃ r, wnck_tasklist_size_allocate priv g_utf8_collate rtl allocation = .ok r ∧
      (∀ t ∈ r.visible_tasks, ∃ child, Call.gtk_widget_size_allocate t.ptr child ∈ r.calls) ∧
      (allocation.width * r.n_cols ≤ G_MAXINT → allocation.height * r.n_rows ≤ G_MAXINT →
        ∀ b child, Call.gtk_widget_size_allocate b child ∈ r.calls →
          allocation.x ≤ child.x ∧
          child.x + child.width ≤ allocation.x + allocation.width ∧
          allocation.y ≤ child.y ∧
          child.y + child.height ≤ allocation.y + allocation.height) := by
  obtain ⟨lay, s, calls1, r, -, -, hinv, -, hch, hr, -, hnc, hnr, -, hvis, hcalls, hlen⟩ :=
    size_allocate_run priv g_utf8_collate rtl allocation hwf
  unfold G_MININT at hx0 hy0
  unfold G_MAXINT at hx1 hy1
  refine ⟨r, hr, ?_, ?_⟩
  · intro t ht
    rw [hvis] at ht
    obtain ⟨child, hchild⟩ := size_allocate_children_placed _ _ _ _ _ _ _ _ hch t ht
    rw [hcalls]
    exact ⟨child, List.mem_append_right _ hchild⟩
  · intro hWc hHr
    unfold G_MAXINT at hWc hHr
    rw [hnc] at hWc
    rw [hnr] at hHr
    rw [hvis] at hlen
    have hin : ∀ b child, Call.gtk_widget_size_allocate b child ∈ calls1 →
        allocation.x ≤ child.x ∧
        child.x + child.width ≤ allocation.x + allocation.width ∧
        allocation.y ≤ child.y ∧
        child.y + child.height ≤ allocation.y + allocation.height := by
      cases hl : g_list_sort (size_allocate_visible priv s)
          (wnck_task_compare g_utf8_collate) with
      | nil =>
        rw [hl] at hch
        simp only [size_allocate_children] at hch
        cases hch
        simp
      | cons t0 l0 =>
        rw [hl] at hlen
        simp only [List.length_cons, Nat.cast_add, Nat.cast_one] at hlen
        have hlay := hinv.2.2.2.2.1
        obtain ⟨h1, h2, h3⟩ := layout_capacity allocation _ _ _ _ hlay (by omega)
        simp only at h1 h2 h3
        apply size_allocate_children_inside allocation rtl s.n_rows s.n_cols allocation.width
          _ 0 calls1 hch h1 h2 hwidth hheight (le_refl 0) _ hWc hHr hx0 hx1 hy0 hy1
        rw [hl]
        simp only [List.length_cons, Nat.cast_add, Nat.cast_one]
        omega
    rw [hcalls]
    intro b child hb
    rcases List.mem_append.mp hb with hb | hb
    · rcases List.mem_append.mp hb with hb | hb
      · obtain ⟨b1, hb1⟩ := hinv.2.2.2.2.2.2.1 _ hb
        exact absurd hb1 (by simp)
      · obtain ⟨g, -, hg⟩ := List.mem_map.mp hb
        exact absurd hg (by simp)
    · exact hin b child hb

/-- C11, on the sample tasklist, right to left, with the allocation at (5, 7),
300 wide and 40 high: 4 columns and 2 rows, and the products 300 * 4 and
40 * 2 are far below `G_MAXINT`. -/
theorem size_allocate_buttons_inside_witness :
    tasklist_well_formed (sample_priv .NEVER_GROUP 0) ∧
    (0 : Int) ≤ 300 ∧ (0 : Int) ≤ 40 ∧
    G_MININT ≤ 5 ∧ (5 : Int) + 300 ≤ G_MAXINT ∧ G_MININT ≤ 7 ∧ (7 : Int) + 40 ≤ G_MAXINT ∧
    (wnck_tasklist_size_allocate (sample_priv .NEVER_GROUP 0) sample_collate true
        { x := 5, y := 7, width := 300, height := 40 }).map
      (fun r => (r.n_cols, r.n_rows)) = .ok (4, 2) ∧
    ∃ r, wnck_tasklist_size_allocate (sample_priv .NEVER_GROUP 0) sample_collate true
        { x := 5, y := 7, width := 300, height := 40 } = .ok r ∧
      (∀ t ∈ r.visible_tasks, ∃ child, Call.gtk_widget_size_allocate t.ptr child ∈ r.calls) ∧
      ((300 : Int) * r.n_cols ≤ G_MAXINT → (40 : Int) * r.n_rows ≤ G_MAXINT →
        ∀ b child, Call.gtk_widget_size_allocate b child ∈ r.calls →
          (5 : Int) ≤ child.x ∧ child.x + child.width ≤ 5 + 300 ∧
          (7 : Int) ≤ child.y ∧ child.y + child.height ≤ 7 + 40) :=
  ⟨by decide, by decide, by decide, by decide, by decide, by decide, by decide,
    by with_unfolding_all decide,
    size_allocate_buttons_inside (sample_priv .NEVER_GROUP 0) sample_collate true
      { x := 5, y := 7, width := 300, height := 40 } (by decide) (by decide) (by decide)
      (by decide) (by decide) (by decide) (by decide)⟩

/-! ## Drag and drop -/

theorem to_guint_eq (x : Int) (h0 : 0 ≤ x) (h1 : x < 4294967296) : to_guint x = x := by
  unfold to_guint
  omega

theorem to_gint_eq (x : Int) (h0 : 0 ≤ x) (h1 : x < 2147483648) : to_gint x = x := by
  unfold to_gint
  split <;> omega

/-- Two windows of the screen with the same xid are the same window. -/
theorem windows_xid_inj (windows : List WnckWindow)
    (hxid : (windows.map (fun w => w.xid)).Nodup) (w1 w2 : WnckWindow)
    (h1 : w1 ∈ windows) (h2 : w2 ∈ windows) (h : w1.xid = w2.xid) : w1 = w2 :=
  List.inj_on_of_nodup_map hxid h1 h2 h

/-- The first loop of `wnck_task_drag_data_received` finds the window dragged. -/
theorem drag_find_window_mem (windows : List WnckWindow) (A : WnckWindow) (hA : A ∈ windows)
    (hxid : (windows.map (fun w => w.xid)).Nodup) :
    drag_find_window windows A.xid = some A := by
  induction windows with
  | nil => exact absurd hA (by simp)
  | cons w l ih =>
    simp only [drag_find_window]
    by_cases hw : w.xid = A.xid
    · simp only [hw, if_true]
      rw [windows_xid_inj (w :: l) hxid w A (List.mem_cons_self _ _) hA hw]
    · simp only [hw, if_false]
      rcases List.mem_cons.mp hA with h | h
      · exact absurd (by rw [h]) hw
      · exact ih h (List.nodup_cons.mp hxid).2

/-- A window of the screen other than the one found is left alone by the last
call `wnck_window_set_sort_order`. -/
theorem drag_set_found_map (n : Int) (xid : Nat) (l : List WnckWindow)
    (hxid : (l.map (fun w => w.xid)).Nodup) :
    drag_set_found n xid l =
      l.map (fun w => if w.xid = xid then wnck_window_set_sort_order w n else w) := by
  induction l with
  | nil => rfl
  | cons w l ih =>
    simp only [drag_set_found, List.map_cons]
    by_cases hw : w.xid = xid
    · simp only [hw, if_true]
      congr 1
      have hnot : ∀ w1 ∈ l, ¬ w1.xid = xid := by
        intro w1 h1 h
        apply (List.nodup_cons.mp hxid).1
        exact List.mem_map.mpr ⟨w1, h1, h.trans hw.symm⟩
      symm
      calc l.map (fun w => if w.xid = xid then wnck_window_set_sort_order w n else w)
          = l.map id := by
            apply List.map_congr_left
            intro w1 h1
            simp only [hnot w1 h1, if_false, id]
        _ = l := List.map_id l
    · simp only [hw, if_false]
      rw [ih (List.nodup_cons.mp hxid).2]

theorem drag_shift_xid (n : Int) (w : WnckWindow) : (drag_shift n w).xid = w.xid := by
  unfold drag_shift wnck_window_set_sort_order
  simp only
  split <;> rfl

/-- The two loops of `wnck_task_drag_data_received` on sort orders from 0 to
below `G_MAXINT`: the window of xid `xid` gets the sort order `n`, every other
window of sort order at least `n` moves up by one, the rest is left alone. -/
theorem drag_windows_map (n : Int) (xid : Nat) (windows : List WnckWindow)
    (hn0 : 0 ≤ n) (hn1 : n < 2147483648)
    (hxid : (windows.map (fun w => w.xid)).Nodup)
    (hrange : ∀ w ∈ windows, 0 ≤ w.sort_order ∧ w.sort_order < G_MAXINT) :
    drag_set_found n xid (windows.map (drag_shift n)) =
      windows.map (fun w => { w with sort_order :=
        if w.xid = xid then n
        else if n ≤ w.sort_order then w.sort_order + 1 else w.sort_order }) := by
  have hx : ((windows.map (drag_shift n)).map (fun w => w.xid)).Nodup := by
    rw [List.map_map]
    have : ((fun w : WnckWindow => w.xid) ∘ drag_shift n) = (fun w => w.xid) := by
      funext w
      exact drag_shift_xid n w
    rw [this]
    exact hxid
  rw [drag_set_found_map n xid _ hx, List.map_map]
  apply List.map_congr_left
  intro w hw
  obtain ⟨h0, h1⟩ := hrange w hw
  unfold G_MAXINT at h1
  simp only [Function.comp, drag_shift_xid]
  unfold drag_shift wnck_window_set_sort_order
  simp only [to_guint_eq w.sort_order h0 (by omega),
    to_guint_eq (w.sort_order + 1) (by omega) (by omega),
    to_gint_eq (w.sort_order + 1) (by omega) (by omega), to_gint_eq n hn0 hn1]
  by_cases hwx : w.xid = xid
  · subst hwx
    simp only [if_true]
    split <;> rfl
  · simp only [hwx, if_false]
    by_cases hge : w.sort_order ≥ n
    · have hle : n ≤ w.sort_order := hge
      simp only [hge, hle, if_true]
    · have hle : ¬ n ≤ w.sort_order := hge
      simp only [hge, hle, if_false]

/-- A drop of the window `A` on the button of another window, for sort orders
from 0 to below `G_MAXINT`: `wnck_task_drag_data_received` returns, `A` gets
the sort order `n` (that of the target, plus one if `A` sorted before it),
every other window of sort order at least `n` moves up by one. -/
theorem drag_data_received_returns (priv : WnckTasklistPrivate) (screen : WnckScreen)
    (windows : List WnckWindow) (double_click_time : Int) (timeout_id : Nat)
    (data : GtkSelectionData) (time : Nat) (target_task : WindowTask) (A : WnckWindow)
    (hlen : data.length = sizeof_gulong) (hfmt : data.format = 8)
    (hdata : data.data = A.xid) (hA : A ∈ windows) (hB : target_task.window ∈ windows)
    (hAB : A.xid ≠ target_task.window.xid)
    (hxid : (windows.map (fun w => w.xid)).Nodup)
    (hrange : ∀ w ∈ windows, 0 ≤ w.sort_order ∧ w.sort_order < G_MAXINT) :
    ∃ r n, wnck_task_drag_data_received priv screen windows double_click_time timeout_id
        data time target_task = .ok r ∧
      n = (if A.sort_order < target_task.window.sort_order
        then target_task.window.sort_order + 1 else target_task.window.sort_order) ∧
      r.windows = windows.map (fun w => { w with sort_order :=
        if w.xid = A.xid then n
        else if n ≤ w.sort_order then w.sort_order + 1 else w.sort_order }) := by
  obtain ⟨a0, a1⟩ := hrange A hA
  obtain ⟨b0, b1⟩ := hrange target_task.window hB
  unfold G_MAXINT at a1 b1
  have hnew : drag_new_order A target_task.window =
      (if A.sort_order < target_task.window.sort_order
        then target_task.window.sort_order + 1 else target_task.window.sort_order) := by
    unfold drag_new_order
    simp only [to_guint_eq A.sort_order a0 (by omega),
      to_guint_eq target_task.window.sort_order b0 (by omega),
      to_guint_eq (target_task.window.sort_order + 1) (by omega) (by omega)]
  have hn0 : 0 ≤ drag_new_order A target_task.window := by
    rw [hnew]; split <;> omega
  have hn1 : drag_new_order A target_task.window < 2147483648 := by
    rw [hnew]; split <;> omega
  have hw := drag_windows_map (drag_new_order A target_task.window) A.xid windows hn0 hn1
    hxid hrange
  unfold wnck_task_drag_data_received
  simp only [hlen, hfmt, hdata, drag_find_window_mem windows A hA hxid, ne_eq,
    not_true_eq_false, or_self, if_false, Option.map_some', Option.some.injEq, hAB,
    false_and, hnew]
  rw [hnew] at hw
  exact ⟨_, _, rfl, rfl, hw⟩

/-- C12 (as the claim words it, on the code). The window of xid 1, of sort order
-1, is dropped on the button of the window of xid 3, of sort order 3; the
sort orders -1, 2, 3, 4 are pairwise distinct.  The window dropped sorted
before the target.  In the `guint` local `old_order` its sort order is
4294967295, which is not below 3, so it gets the sort order 3 and the target
moves to 4: the window dropped still sorts before the target, not after
it. -/
theorem drag_negative_sort_order :
    (sample_windows_negative.map (fun w => w.sort_order)).Nodup ∧
    (sample_windows_negative.map (fun w => w.xid)).Nodup ∧
    sample_window 1 "x" (-1) ∈ sample_windows_negative ∧
    (sample_task 3 "y" 7).window ∈ sample_windows_negative ∧
    (sample_window 1 "x" (-1)).sort_order < (sample_task 3 "y" 7).window.sort_order ∧
    (wnck_task_drag_data_received (sample_priv .NEVER_GROUP 0) sample_screen
        sample_windows_negative 400 1 sample_drag_data 1000 (sample_task 3 "y" 7)).map
      (fun r => r.windows.map (fun w => (w.xid, w.sort_order))) =
      .ok [(1, 3), (2, 2), (3, 4), (4, 5)] ∧
    ¬ ((4 : Int) < 3) := by
  refine ⟨by decide, by decide, by decide, by decide, by decide, by decide, by decide⟩

/-- C12. Window `A` is dropped on the button of a different window of the
screen, the windows of the screen have pairwise distinct xids and pairwise
distinct sort orders, all from 0 to below `G_MAXINT` (the range of the sort
orders the library hands out, which the `guint` locals of the function and the
position `G_MAXINT` of the startup sequences rely on).  Then
`wnck_task_drag_data_received` returns and leaves the same windows with new
sort orders such that: if `A` sorted before the target, `A` now sorts after
it, and every other window sorts before the target or after `A`; if `A`
sorted after the target, `A` now sorts before it, and every other window
sorts before `A` or after the target; and two windows other than `A` compare
as they did before. -/
theorem drag_data_received_reorders (priv : WnckTasklistPrivate) (screen : WnckScreen)
    (windows : List WnckWindow) (double_click_time : Int) (timeout_id : Nat)
    (data : GtkSelectionData) (time : Nat) (target_task : WindowTask) (A : WnckWindow)
    (hlen : data.length = sizeof_gulong) (hfmt : data.format = 8)
    (hdata : data.data = A.xid) (hA : A ∈ windows) (hB : target_task.window ∈ windows)
    (hAB : A.xid ≠ target_task.window.xid)
    (hxid : (windows.map (fun w => w.xid)).Nodup)
    (hord : (windows.map (fun w => w.sort_order)).Nodup)
    (hrange : ∀ w ∈ windows, 0 ≤ w.sort_order ∧ w.sort_order < G_MAXINT) :
    ∃ r, wnck_task_drag_data_received priv screen windows double_click_time timeout_id
        data time target_task = .ok r ∧
      r.windows.map (fun w => w.xid) = windows.map (fun w => w.xid) ∧
      (∀ a ∈ r.windows, ∀ b ∈ r.windows, a.xid = A.xid → b.xid = target_task.window.xid →
        (A.sort_order < target_task.window.sort_order →
          b.sort_order < a.sort_order ∧
          ∀ w ∈ r.windows, w.xid ≠ A.xid → w.xid ≠ target_task.window.xid →
            w.sort_order < b.sort_order ∨ a.sort_order < w.sort_order) ∧
        (target_task.window.sort_order < A.sort_order →
          a.sort_order < b.sort_order ∧
          ∀ w ∈ r.windows, w.xid ≠ A.xid → w.xid ≠ target_task.window.xid →
            w.sort_order < a.sort_order ∨ b.sort_order < w.sort_order)) ∧
      (∀ w1 ∈ windows, ∀ w2 ∈ windows, ∀ v1 ∈ r.windows, ∀ v2 ∈ r.windows,
        v1.xid = w1.xid → v2.xid = w2.xid → w1.xid ≠ A.xid → w2.xid ≠ A.xid →
        (v1.sort_order < v2.sort_order ↔ w1.sort_order < w2.sort_order)) := by
  obtain ⟨r, n, hr, hn, hwin⟩ := drag_data_received_returns priv screen windows
    double_click_time timeout_id data time target_task A hlen hfmt hdata hA hB hAB hxid hrange
  refine ⟨r, hr, ?_, ?_, ?_⟩
  · rw [hwin, List.map_map]
    rfl
  all_goals
    have hmem : ∀ v ∈ r.windows, ∃ w ∈ windows, v.xid = w.xid ∧
        v.sort_order = (if w.xid = A.xid then n
          else if n ≤ w.sort_order then w.sort_order + 1 else w.sort_order) := by
      intro v hv
      rw [hwin] at hv
      obtain ⟨w, hw, rfl⟩ := List.mem_map.mp hv
      exact ⟨w, hw, rfl, rfl⟩
  · intro a ha b hb hax hbx
    obtain ⟨wa, hwa, hwax, hwas⟩ := hmem a ha
    obtain ⟨wb, hwb, hwbx, hwbs⟩ := hmem b hb
    have ea : wa = A := windows_xid_inj windows hxid wa A hwa hA (hwax.symm.trans hax)
    have eb : wb = target_task.window :=
      windows_xid_inj windows hxid wb _ hwb hB (hwbx.symm.trans hbx)
    subst ea
    rw [eb] at hwbs
    have hBA : ¬ target_task.window.xid = wa.xid := fun h => hAB h.symm
    simp only [if_true] at hwas
    simp only [hBA, if_false] at hwbs
    have hother : ∀ w ∈ r.windows, w.xid ≠ wa.xid → w.xid ≠ target_task.window.xid →
        ∃ o : Int, o ≠ target_task.window.sort_order ∧
          w.sort_order = (if n ≤ o then o + 1 else o) := by
      intro w hw hwa1 hwb1
      obtain ⟨w0, hw0, hw0x, hw0s⟩ := hmem w hw
      have h1 : ¬ w0.xid = wa.xid := fun h => hwa1 (hw0x.trans h)
      simp only [h1, if_false] at hw0s
      refine ⟨w0.sort_order, ?_, hw0s⟩
      intro h
      have := List.inj_on_of_nodup_map hord hw0 hB h
      exact hwb1 (hw0x.trans (by rw [this]))
    constructor
    · intro hlt
      simp only [hlt, if_true] at hn
      constructor
      · split_ifs at hwbs <;> omega
      · intro w hw hwa1 hwb1
        obtain ⟨o, ho, hws⟩ := hother w hw hwa1 hwb1
        split_ifs at hwbs hws <;> omega
    · intro hlt
      have hnlt : ¬ wa.sort_order < target_task.window.sort_order := by omega
      simp only [hnlt, if_false] at hn
      constructor
      · split_ifs at hwbs <;> omega
      · intro w hw hwa1 hwb1
        obtain ⟨o, ho, hws⟩ := hother w hw hwa1 hwb1
        split_ifs at hwbs hws <;> omega
  · intro w1 hw1 w2 hw2 v1 hv1 v2 hv2 h1 h2 h1A h2A
    obtain ⟨u1, hu1, hu1x, hu1s⟩ := hmem v1 hv1
    obtain ⟨u2, hu2, hu2x, hu2s⟩ := hmem v2 hv2
    have e1 : u1 = w1 := windows_xid_inj windows hxid u1 w1 hu1 hw1 (hu1x.symm.trans h1)
    have e2 : u2 = w2 := windows_xid_inj windows hxid u2 w2 hu2 hw2 (hu2x.symm.trans h2)
    subst e1 e2
    simp only [h1A, if_false] at hu1s
    simp only [h2A, if_false] at hu2s
    split_ifs at hu1s hu2s <;> omega

theorem drag_data_received_reorders_witness :
    sample_drag_data.length = sizeof_gulong ∧ sample_drag_data.format = 8 ∧
    sample_drag_data.data = (sample_window 1 "x" 1).xid ∧
    sample_window 1 "x" 1 ∈ sample_windows ∧
    (sample_task 3 "y" 7).window ∈ sample_windows ∧
    (sample_window 1 "x" 1).xid ≠ (sample_task 3 "y" 7).window.xid ∧
    (sample_windows.map (fun w => w.xid)).Nodup ∧
    (sample_windows.map (fun w => w.sort_order)).Nodup ∧
    (∀ w ∈ sample_windows, 0 ≤ w.sort_order ∧ w.sort_order < G_MAXINT) ∧
    ∃ r, wnck_task_drag_data_received (sample_priv .NEVER_GROUP 0) sample_screen
        sample_windows 400 1 sample_drag_data 1000 (sample_task 3 "y" 7) = .ok r ∧
      r.windows.map (fun w => w.xid) = sample_windows.map (fun w => w.xid) ∧
      (∀ a ∈ r.windows, ∀ b ∈ r.windows, a.xid = (sample_window 1 "x" 1).xid →
        b.xid = (sample_task 3 "y" 7).window.xid →
        ((sample_window 1 "x" 1).sort_order < (sample_task 3 "y" 7).window.sort_order →
          b.sort_order < a.sort_order ∧
          ∀ w ∈ r.windows, w.xid ≠ (sample_window 1 "x" 1).xid →
            w.xid ≠ (sample_task 3 "y" 7).window.xid →
            w.sort_order < b.sort_order ∨ a.sort_order < w.sort_order) ∧
        ((sample_task 3 "y" 7).window.sort_order < (sample_window 1 "x" 1).sort_order →
          a.sort_order < b.sort_order ∧
          ∀ w ∈ r.windows, w.xid ≠ (sample_window 1 "x" 1).xid →
            w.xid ≠ (sample_task 3 "y" 7).window.xid →
            w.sort_order < a.sort_order ∨ b.sort_order < w.sort_order)) ∧
      (∀ w1 ∈ sample_windows, ∀ w2 ∈ sample_windows, ∀ v1 ∈ r.windows, ∀ v2 ∈ r.windows,
        v1.xid = w1.xid → v2.xid = w2.xid → w1.xid ≠ (sample_window 1 "x" 1).xid →
        w2.xid ≠ (sample_window 1 "x" 1).xid →
        (v1.sort_order < v2.sort_order ↔ w1.sort_order < w2.sort_order)) :=
  ⟨by decide, by decide, by decide, by decide, by decide, by decide, by decide, by decide,
    by decide,
    drag_data_received_reorders (sample_priv .NEVER_GROUP 0) sample_screen sample_windows 400 1
      sample_drag_data 1000 (sample_task 3 "y" 7) (sample_window 1 "x" 1)
      (by decide) (by decide) (by decide) (by decide) (by decide) (by decide) (by decide)
      (by decide) (by decide)⟩

end Wnck
